import Mathlib

/-!
# cs1550 file system: a byte-level embedding of `cs1550.c`

The backing file `.disk` and the in-memory `struct cs1550_disk` that mirrors it are
modelled as one byte map `Image` (offset to byte).  Every handler of `cs1550.c`
starts with `get_instance()`, which reloads the structure from the file, and
every mutating handler ends with `write_to_disk`, so the state between two
handler calls is the contents of the file.

Conventions of the embedding

* C strings (paths, names) are lists of bytes without the terminating NUL.
* Sizes follow the LP64 ABI the source is built for: `int` is 4 bytes, `long` and
  `size_t` are 8 bytes, integers are little endian, the two record arrays are
  `packed`.
* A handler returns `none` when the C code leaves defined behaviour: an `assert`
  fails, a record outside the `cs1550_disk` structure is accessed, or `memcpy`
  is asked for a negative length.
* `malloc` returns uninitialised memory.  The four buffers `get_path_info`
  allocates are passed in as the parameter `junk`: what the buffers hold before
  the resolver stores anything in them.
* `print_debug` calls are not modelled, and `fopen`/`open` of `.disk` succeed.
-/

namespace CS1550

/-! ## Constants -/

/-- `#define BLOCK_SIZE 512` -/
def BLOCK_SIZE : Nat := 512
/-- `#define MAX_FILENAME 8` -/
def MAX_FILENAME : Nat := 8
/-- `#define MAX_EXTENSION 3` -/
def MAX_EXTENSION : Nat := 3
/-- `sizeof(int)` -/
def SIZEOF_INT : Nat := 4
/-- `sizeof(long)` -/
def SIZEOF_LONG : Nat := 8
/-- `sizeof(size_t)` -/
def SIZEOF_SIZE_T : Nat := 8
/-- `sizeof(struct cs1550_file_directory)` (packed): fname, fext, fsize, nStartBlock. -/
def SIZEOF_FILE_DIRECTORY : Nat :=
  (MAX_FILENAME + 1) + (MAX_EXTENSION + 1) + SIZEOF_SIZE_T + SIZEOF_LONG
/-- `#define MAX_FILES_IN_DIR (BLOCK_SIZE - sizeof(int)) / (...)` -/
def MAX_FILES_IN_DIR : Nat := (BLOCK_SIZE - SIZEOF_INT) / SIZEOF_FILE_DIRECTORY
/-- `sizeof(struct cs1550_directory)` (packed): dname, nStartBlock. -/
def SIZEOF_DIRECTORY : Nat := (MAX_FILENAME + 1) + SIZEOF_LONG
/-- `#define MAX_DIRS_IN_ROOT (BLOCK_SIZE - sizeof(int)) / ((MAX_FILENAME + 1) + sizeof(long))` -/
def MAX_DIRS_IN_ROOT : Nat := (BLOCK_SIZE - SIZEOF_INT) / SIZEOF_DIRECTORY
/-- `sizeof(struct cs1550_root_directory)`: count, entries, padding. -/
def SIZEOF_ROOT_DIRECTORY : Nat :=
  SIZEOF_INT + MAX_DIRS_IN_ROOT * SIZEOF_DIRECTORY
    + (BLOCK_SIZE - MAX_DIRS_IN_ROOT * SIZEOF_DIRECTORY - SIZEOF_INT)
/-- `sizeof(struct cs1550_directory_entry)`: count, entries, padding. -/
def SIZEOF_DIRECTORY_ENTRY : Nat :=
  SIZEOF_INT + MAX_FILES_IN_DIR * SIZEOF_FILE_DIRECTORY
    + (BLOCK_SIZE - MAX_FILES_IN_DIR * SIZEOF_FILE_DIRECTORY - SIZEOF_INT)
/-- `#define SIZE_OF_DISK 5242880` -/
def SIZE_OF_DISK : Nat := 5242880
/-- `#define BIT_MAP_SIZE 655360` -/
def BIT_MAP_SIZE : Nat := 655360
/-- `#define NUMBER_OF_BLOCKS ((SIZE_OF_DISK - (BIT_MAP_SIZE)) / BLOCK_SIZE)` -/
def NUMBER_OF_BLOCKS : Nat := (SIZE_OF_DISK - BIT_MAP_SIZE) / BLOCK_SIZE
/-- `offsetof(struct cs1550_disk, bitmap)`: the bitmap follows the block array. -/
def BITMAP_OFFSET : Nat := NUMBER_OF_BLOCKS * BLOCK_SIZE

def ENOENT : Int := 2
def EPERM : Int := 1
def EBADF : Int := 9
def EEXIST : Int := 17
def EISDIR : Int := 21
def EFBIG : Int := 27
def ENAMETOOLONG : Int := 36

/-- `S_IFDIR | 0755` -/
def S_IFDIR_0755 : Nat := 16877
/-- `S_IFREG | 0666` -/
def S_IFREG_0666 : Nat := 33206

/-! ## Bytes and integers in the image -/

/-- Contents of `.disk` (and of the `cs1550_disk` structure loaded from it), by byte offset. -/
abbrev Image := Nat → Nat

/-- A caller's buffer, by byte index. -/
abbrev Buffer := Nat → Nat

/-- The all-zero image of a freshly provisioned `.disk`. -/
def fresh : Image := fun _ => 0

/-- Little-endian unsigned integer stored in the `n` bytes at `a`. -/
def rdLE (d : Image) (a : Nat) : Nat → Nat
  | 0 => 0
  | n + 1 => d a % 256 + 256 * rdLE d (a + 1) n

/-- Store the low `n` bytes of `v` at `a`, little endian. -/
def wrLE (d : Image) (a n v : Nat) : Image :=
  fun x => if a ≤ x ∧ x < a + n then (v / 256 ^ (x - a)) % 256 else d x

/-- Two's complement reading of a `w`-bit unsigned value. -/
def toSigned (w : Nat) (v : Nat) : Int :=
  if v % 2 ^ w < 2 ^ (w - 1) then (v % 2 ^ w : Nat) else (v % 2 ^ w : Nat) - (2 ^ w : Nat)

/-- Conversion of a signed value to the unsigned type of `w` bits. -/
def toUnsigned (w : Nat) (v : Int) : Nat := (v % (2 ^ w : Nat)).toNat

/-- Load an `int`. -/
def rdInt (d : Image) (a : Nat) : Int := toSigned 32 (rdLE d a 4)
/-- Load a `long`. -/
def rdLong (d : Image) (a : Nat) : Int := toSigned 64 (rdLE d a 8)
/-- Load a `size_t`. -/
def rdSize (d : Image) (a : Nat) : Nat := rdLE d a 8
/-- Store an `int`. -/
def wrInt (d : Image) (a : Nat) (v : Int) : Image := wrLE d a 4 (toUnsigned 32 v)
/-- Store a `long`. -/
def wrLong (d : Image) (a : Nat) (v : Int) : Image := wrLE d a 8 (toUnsigned 64 v)
/-- Store a `size_t`. -/
def wrSize (d : Image) (a : Nat) (v : Nat) : Image := wrLE d a 8 (v % 2 ^ 64)

/-- Store the bytes `l` at `a`. -/
def wrBytes (d : Image) (a : Nat) (l : List Nat) : Image :=
  fun x => if a ≤ x ∧ x < a + l.length then l.getD (x - a) 0 else d x

/-- `strcpy(dest, s)` with `dest` at offset `a`: the bytes of `s` and the NUL. -/
def strcpy (d : Image) (a : Nat) (s : List Nat) : Image := wrBytes d a (s ++ [0])

/-- `strcmp(str, s) == 0` for the string stored at offset `a` and the NUL-free string `s`. -/
def strEq (d : Image) (a : Nat) : List Nat → Bool
  | [] => d a == 0
  | c :: cs => d a == c && strEq d (a + 1) cs

/-- The NUL-terminated string stored at offset `a`, reading at most `fuel` bytes. -/
def strAt (d : Image) : Nat → Nat → List Nat
  | 0, _ => []
  | fuel + 1, a => if d a = 0 then [] else d a :: strAt d fuel (a + 1)

/-! ## Record layout -/

/-- Offset of `bitmapFileHeader->nDirectories`. -/
def nDirectoriesAddr : Nat := 0
/-- Offset of `bitmapFileHeader->directories[i]`. -/
def dirAddr (i : Nat) : Nat := SIZEOF_INT + SIZEOF_DIRECTORY * i
/-- Offset of `directories[i].dname`. -/
def dnameAddr (i : Nat) : Nat := dirAddr i
/-- Offset of `directories[i].nStartBlock`. -/
def dstartAddr (i : Nat) : Nat := dirAddr i + (MAX_FILENAME + 1)
/-- Offset of `disk->blocks[b]`. -/
def blockAddr (b : Nat) : Nat := BLOCK_SIZE * b
/-- Offset of `entry->nFiles` for the record in block `b`. -/
def nFilesAddr (b : Nat) : Nat := blockAddr b
/-- Offset of `entry->files[m]` for the record in block `b`. -/
def fileAddr (b m : Nat) : Nat := blockAddr b + SIZEOF_INT + SIZEOF_FILE_DIRECTORY * m
/-- Offset of `files[m].fname`. -/
def fnameAddr (b m : Nat) : Nat := fileAddr b m
/-- Offset of `files[m].fext`. -/
def fextAddr (b m : Nat) : Nat := fileAddr b m + (MAX_FILENAME + 1)
/-- Offset of `files[m].fsize`. -/
def fsizeAddr (b m : Nat) : Nat := fileAddr b m + (MAX_FILENAME + 1) + (MAX_EXTENSION + 1)
/-- Offset of `files[m].nStartBlock`. -/
def fstartAddr (b m : Nat) : Nat :=
  fileAddr b m + (MAX_FILENAME + 1) + (MAX_EXTENSION + 1) + SIZEOF_SIZE_T

/-- `bitmapFileHeader->nDirectories` -/
def nDirectories (d : Image) : Int := rdInt d nDirectoriesAddr
/-- `directories[i].nStartBlock` -/
def dirStart (d : Image) (i : Nat) : Int := rdLong d (dstartAddr i)
/-- `entry->nFiles` of the record in block `b`. -/
def nFiles (d : Image) (b : Nat) : Int := rdInt d (nFilesAddr b)
/-- `files[m].fsize` -/
def fsize (d : Image) (b m : Nat) : Nat := rdSize d (fsizeAddr b m)
/-- `files[m].nStartBlock` -/
def fileStart (d : Image) (b m : Nat) : Int := rdLong d (fstartAddr b m)

/-- The record `directories[i]` lies inside the `cs1550_disk` structure. -/
def dirInBounds (i : Nat) : Bool := decide (dirAddr i + SIZEOF_DIRECTORY ≤ SIZE_OF_DISK)
/-- The record `files[m]` of block `b` lies inside the `cs1550_disk` structure. -/
def fileInBounds (b m : Nat) : Bool := decide (fileAddr b m + SIZEOF_FILE_DIRECTORY ≤ SIZE_OF_DISK)
/-- The field `nFiles` of block `b` lies inside the `cs1550_disk` structure. -/
def blockInBounds (b : Nat) : Bool := decide (blockAddr b + SIZEOF_INT ≤ SIZE_OF_DISK)

/-- The assertion
`assert(directories[i].nStartBlock < sizeof(cs1550_disk_block) * NUMBER_OF_BLOCKS)`;
the comparison is unsigned, so a negative start block fails it. -/
def startAssert (s : Int) : Bool :=
  decide (toUnsigned 64 s < BLOCK_SIZE * NUMBER_OF_BLOCKS)

/-! ## The loop idiom `for (i = 0; i < n; ++i) if (p i) break;` -/

/-- First index `i` with `start ≤ i < start + fuel` and `p i`, if there is one. -/
def firstFrom (p : Nat → Bool) : Nat → Nat → Option Nat
  | 0, _ => none
  | fuel + 1, i => if p i then some i else firstFrom p fuel (i + 1)

/-- Index at which `for (i = 0; i < n; ++i) if (p i) break;` breaks, if it does. -/
def firstIndex (p : Nat → Bool) (n : Int) : Option Nat := firstFrom p n.toNat 0

/-! ## Bitmap allocator -/

/-- Bit `i` of the bitmap: `bitmap[i / 8] & (1 << (i % 8))` is non-zero. -/
def bitmapBit (d : Image) (i : Nat) : Bool := (d (BITMAP_OFFSET + i / 8)).testBit (i % 8)

/-- The loop of `get_free_block`: leaves `i` at the first clear bit, or at the end. -/
def get_free_block_loop (d : Image) : Nat → Nat → Nat
  | 0, i => i
  | fuel + 1, i => if bitmapBit d i = false then i else get_free_block_loop d fuel (i + 1)

/-- `long get_free_block(char *bitmap)`: scan from `sizeof(struct cs1550_root_directory) - 1`
up to `BIT_MAP_SIZE`. -/
def get_free_block (d : Image) : Nat :=
  get_free_block_loop d (BIT_MAP_SIZE - (SIZEOF_ROOT_DIRECTORY - 1)) (SIZEOF_ROOT_DIRECTORY - 1)

/-- The loop of `set_bit_map`: `bitmap[i / 8] |= value << (i % 8)` for `length` indices
from `i` on. -/
def set_bit_map_loop (value : Nat) : Nat → Nat → Image → Image
  | 0, _, d => d
  | len + 1, i, d =>
      set_bit_map_loop value len (i + 1)
        (Function.update d (BITMAP_OFFSET + i / 8)
          (d (BITMAP_OFFSET + i / 8) ||| (value <<< (i % 8))))

/-- `void set_bit_map(long offset, long length, char value, char *bitmap)` -/
def set_bit_map (offset length value : Nat) (d : Image) : Image :=
  set_bit_map_loop value length offset d

/-! ## Path resolver -/

/-- The four strings `get_path_info` hands back. -/
structure PathInfo where
  dir_name : List Nat
  full_file_name : List Nat
  file_name : List Nat
  extension_name : List Nat
deriving DecidableEq

/-- Local variables of `get_path_info` together with its four output buffers;
`fault` records a `memcpy` with negative length. -/
structure ScanState where
  info : PathInfo
  path_index : Nat
  dot_index : Nat
  num_slash : Nat
  in_dir : Bool
  in_file : Bool
  fault : Bool

/-- `substring(src, dest, start_position, length)`: the value left in `dest`. -/
def substring (src : List Nat) (start_position length : Nat) : List Nat :=
  (src.drop start_position).take length

/-- Code of `'/'`. -/
def SLASH : Nat := 47
/-- Code of `'.'`. -/
def DOT : Nat := 46

/-- The `if (path[i] == '/') ... else if (path[i] == '.') ...` part of the loop body of
`get_path_info`, at index `i` holding character `c`. -/
def scan_char (path : List Nat) (i c : Nat) (s : ScanState) : ScanState :=
  if c = SLASH then
    { s with
        in_dir := true, in_file := false, num_slash := s.num_slash + 1, path_index := i,
        info :=
          if s.num_slash + 1 = 2 then { s.info with dir_name := substring path 1 (i - 1) }
          else s.info }
  else if c = DOT then
    { s with dot_index := i, in_dir := false, in_file := true }
  else s

/-- The `if (i == strlen(path) - 1)` part of the loop body of `get_path_info`: slicing at
the end of the string.  The length `(dot_index - 1) - path_index` handed to `substring` is
negative exactly when `dot_index < path_index + 1`. -/
def at_end (path : List Nat) (s : ScanState) : ScanState :=
  if s.in_dir then
    { s with
        info :=
          { dir_name := substring path (s.path_index + 1) ((path.length - 1) - s.path_index),
            full_file_name := [], file_name := [], extension_name := [] } }
  else if s.in_file then
    { s with
        fault := s.fault || decide (s.dot_index < s.path_index + 1),
        info :=
          { dir_name := s.info.dir_name,
            full_file_name :=
              substring path (s.path_index + 1) ((path.length - 1) - s.path_index),
            file_name := substring path (s.path_index + 1) ((s.dot_index - 1) - s.path_index),
            extension_name :=
              substring path (s.dot_index + 1) ((path.length - 1) - s.dot_index) } }
  else s

/-- One iteration of the loop of `get_path_info`, at index `i` holding character `c`. -/
def get_path_info_step (path : List Nat) (i c : Nat) (s : ScanState) : ScanState :=
  if i = path.length - 1 then at_end path (scan_char path i c s) else scan_char path i c s

/-- The loop `for (i = 0; i < strlen(path); i++)` of `get_path_info` over the remaining
characters. -/
def get_path_info_loop (path : List Nat) : List Nat → Nat → ScanState → ScanState
  | [], _, s => s
  | c :: rest, i, s => get_path_info_loop path rest (i + 1) (get_path_info_step path i c s)

/-- State of `get_path_info` before its loop; `junk` is what `malloc` returned. -/
def get_path_info_init (junk : PathInfo) : ScanState :=
  { info := junk, path_index := 0, dot_index := 0, num_slash := 0,
    in_dir := false, in_file := false, fault := false }

/-- `void get_path_info(path, dir_name, full_file_name, file_name, extension_name)` -/
def get_path_info (path : List Nat) (junk : PathInfo) : Option PathInfo :=
  let s := get_path_info_loop path path 0 (get_path_info_init junk)
  if s.fault then none else some s.info

/-- Number of `'/'` in the path (the `slash_count` loops). -/
def slash_count (path : List Nat) : Nat := path.count SLASH

/-- `int get_path_info_for_mknod(path, ...)`: the result code and the four strings. -/
def get_path_info_for_mknod (path : List Nat) (junk : PathInfo) : Option (Int × PathInfo) :=
  match get_path_info path junk with
  | none => none
  | some pinfo =>
    let file_letter_count := pinfo.file_name.length
    let extension_letter_count := pinfo.extension_name.length
    let dir_letter_count := pinfo.dir_name.length
    let result : Int :=
      if file_letter_count > 8 ∨ extension_letter_count > 3 then -ENAMETOOLONG
      else if dir_letter_count > 8 then -ENAMETOOLONG
      else 0
    let result : Int := if slash_count path > 2 then -EPERM else result
    some (result, pinfo)

/-! ## Directory and file lookup loops -/

/-- Outcome of a lookup loop: `fault` when the loop leaves the `cs1550_disk` structure or an
assertion fails, `absent` when it ends without a match. -/
inductive Found (α : Type) where
  | fault : Found α
  | absent : Found α
  | found : α → Found α
deriving DecidableEq

/-- The loop over `bitmapFileHeader->directories` that breaks at the first entry whose
`dname` equals `name` (it also stops when the entry leaves the structure). -/
def findDir (d : Image) (name : List Nat) : Option Nat :=
  firstIndex (fun i => !dirInBounds i || strEq d (dnameAddr i) name) (nDirectories d)

/-- The loop over `entry->files` of block `b` that breaks at the first entry whose
`fname` and `fext` equal the given names. -/
def findFile (d : Image) (b : Nat) (file_name extension_name : List Nat) : Option Nat :=
  firstIndex
    (fun m => !fileInBounds b m ||
      (strEq d (fnameAddr b m) file_name && strEq d (fextAddr b m) extension_name))
    (nFiles d b)

/-- The directory loop shared by `cs1550_getattr` (file branch), `cs1550_mknod`,
`cs1550_read` and `cs1550_write`: the first root entry named `name`, the assertion on its
start block, and `entry = &disk->blocks[nStartBlock]`.  Yields the block index. -/
def lookupDir (d : Image) (name : List Nat) : Found Nat :=
  match findDir d name with
  | none => Found.absent
  | some i =>
    if !dirInBounds i || !startAssert (dirStart d i) then Found.fault
    else if !blockInBounds (dirStart d i).toNat then Found.fault
    else Found.found (dirStart d i).toNat

/-- The nested loops shared by `cs1550_getattr` (file branch), `cs1550_read` and
`cs1550_write`: the directory, then the first file entry with the given name and
extension.  Yields the block index of the directory and the index of the file entry. -/
def lookupFile (d : Image) (pinfo : PathInfo) : Found (Nat × Nat) :=
  match lookupDir d pinfo.dir_name with
  | Found.fault => Found.fault
  | Found.absent => Found.absent
  | Found.found b =>
    match findFile d b pinfo.file_name pinfo.extension_name with
    | none => Found.absent
    | some m => if !fileInBounds b m then Found.fault else Found.found (b, m)

/-! ## Handlers -/

/-- The fields of `struct stat` the handlers set. -/
structure Stat where
  st_mode : Nat
  st_nlink : Nat
  st_size : Nat
deriving DecidableEq

/-- `memset(stbuf, 0, sizeof(struct stat))` -/
def Stat.zero : Stat := { st_mode := 0, st_nlink := 0, st_size := 0 }

/-- What `cs1550_getattr` stores for a directory. -/
def Stat.directory : Stat := { st_mode := S_IFDIR_0755, st_nlink := 2, st_size := 0 }

/-- What `cs1550_getattr` stores for a file: `st_size = 0`. -/
def Stat.regular : Stat := { st_mode := S_IFREG_0666, st_nlink := 1, st_size := 0 }

/-- `static int cs1550_getattr(const char *path, struct stat *stbuf)` -/
def cs1550_getattr (path : List Nat) (junk : PathInfo) (d : Image) : Option (Int × Stat) :=
  match get_path_info path junk with
  | none => none
  | some pinfo =>
    if path = [SLASH] then some (0, Stat.directory)
    else if pinfo.file_name.length = 0 ∧ slash_count path ≥ 2 then
      some (-ENOENT, Stat.zero)
    else if pinfo.full_file_name.length = 0 then
      match firstIndex
          (fun i => !dirInBounds i || !startAssert (dirStart d i) ||
            strEq d (dnameAddr i) pinfo.dir_name)
          (nDirectories d) with
      | none => some (-ENOENT, Stat.zero)
      | some i =>
        if !dirInBounds i || !startAssert (dirStart d i) then none
        else some (0, Stat.directory)
    else
      match lookupFile d pinfo with
      | Found.fault => none
      | Found.absent => some (-ENOENT, Stat.zero)
      | Found.found _ => some (0, Stat.regular)

/-- The validation loop of `cs1550_mkdir`, which walks the path from its last character;
the list is the part of the path still to visit, last character first. -/
def mkdir_scan : List Nat → Nat → Nat → Int
  | [], _, _ => 0
  | c :: rest, slash_count, letter_count =>
    if letter_count > 8 then -ENAMETOOLONG
    else
      let slash_count1 := if c = SLASH then slash_count + 1 else slash_count
      let letter_count1 := if c = SLASH then 0 else letter_count + 1
      if slash_count1 > 1 then -EPERM
      else mkdir_scan rest slash_count1 letter_count1

/-- The stores of `cs1550_mkdir` once it has decided to create entry `n` named
`file_name`; `none` when the assertion on `address` fails or the new record is outside the
structure. -/
def mkdir_create (d : Image) (n : Nat) (file_name : List Nat) : Option Image :=
  let d1 := strcpy d (dnameAddr n) file_name
  let start_block := get_free_block d1
  let d2 := wrLong d1 (dstartAddr n) start_block
  let d3 := set_bit_map start_block SIZEOF_DIRECTORY_ENTRY 1 d2
  let address := dirStart d3 n
  if !startAssert address || !blockInBounds address.toNat then none
  else
    let d4 := wrInt d3 (nFilesAddr address.toNat) 0
    some (wrInt d4 nDirectoriesAddr (nDirectories d4 + 1))

/-- `static int cs1550_mkdir(const char *path, mode_t mode)`.  The local array
`file_name` receives the path without its first character; that `memcpy` stores one byte
past the array is not modelled.  `assert((str_length - 1) <= 8)` is an unsigned
comparison, so the empty path fails it. -/
def cs1550_mkdir (path : List Nat) (d : Image) : Option (Int × Image) :=
  let result := mkdir_scan path.reverse 0 0
  if result ≠ 0 then some (result, d)
  else if path.length = 0 ∨ path.length - 1 > 8 then none
  else
    let file_name := path.drop 1
    match findDir d file_name with
    | some j =>
      if !dirInBounds j then none
      else if nDirectories d = MAX_DIRS_IN_ROOT then some (-EPERM, d)
      else some (-EEXIST, d)
    | none =>
      if nDirectories d = MAX_DIRS_IN_ROOT then some (-EPERM, d)
      else if nDirectories d < 0 ∨ !dirInBounds (nDirectories d).toNat then none
      else
        match mkdir_create d (nDirectories d).toNat file_name with
        | none => none
        | some d5 => some (0, d5)

/-- The stores of `cs1550_mknod` that append file entry `m` to the record in block `b`. -/
def mknod_create (d : Image) (b m : Nat) (pinfo : PathInfo) : Image :=
  let d1 := wrInt d (nFilesAddr b) (nFiles d b + 1)
  let d2 := strcpy d1 (fnameAddr b m) pinfo.file_name
  let d3 := strcpy d2 (fextAddr b m) pinfo.extension_name
  let d4 := wrSize d3 (fsizeAddr b m) 0
  wrLong d4 (fstartAddr b m) 0

/-- `static int cs1550_mknod(const char *path, mode_t mode, dev_t dev)` -/
def cs1550_mknod (path : List Nat) (junk : PathInfo) (d : Image) : Option (Int × Image) :=
  match get_path_info_for_mknod path junk with
  | none => none
  | some (result0, pinfo) =>
    let result : Int := if path = [SLASH] then -EPERM else result0
    if result ≠ 0 then some (result, d)
    else
      match lookupDir d pinfo.dir_name with
      | Found.fault => none
      | Found.absent => some (-EPERM, d)
      | Found.found b =>
        if nFiles d b = MAX_FILES_IN_DIR then some (-EPERM, d)
        else
          match findFile d b pinfo.file_name pinfo.extension_name with
          | some m => if !fileInBounds b m then none else some (-EEXIST, d)
          | none =>
            if !fileInBounds b (nFiles d b).toNat then none
            else some (0, mknod_create d b (nFiles d b).toNat pinfo)

/-- `pread(fd, buf, count, pos)` on `.disk`: the buffer afterwards. -/
def pread (d : Image) (buf : Buffer) (count pos : Nat) : Buffer :=
  fun k => if k < count then d (pos + k) else buf k

/-- `pwrite(fd, buf, count, pos)` on `.disk`: the file afterwards. -/
def pwrite (d : Image) (buf : Buffer) (count pos : Nat) : Image :=
  fun x => if pos ≤ x ∧ x < pos + count then buf (x - pos) else d x

/-- `static int cs1550_read(path, buf, size, offset, fi)`: the result and the buffer.
`size` and `offset` are not used by the source either. -/
def cs1550_read (path : List Nat) (junk : PathInfo) (buf : Buffer) (_size : Nat)
    (_offset : Int) (d : Image) : Option (Int × Buffer) :=
  match get_path_info path junk with
  | none => none
  | some pinfo =>
    if pinfo.full_file_name.length = 0 then some (-EISDIR, buf)
    else
      match lookupFile d pinfo with
      | Found.fault => none
      | Found.absent => some (0, buf)
      | Found.found (b, m) =>
        if fileStart d b m < 0 then some (-1, buf)
        else
          some (toSigned 32 (fsize d b m), pread d buf (fsize d b m) (fileStart d b m).toNat)

/-- The block `if (entry->files[m].nStartBlock == 0) { ... }` of `cs1550_write`: the value
of `result` and the structure afterwards. -/
def write_allocate (d : Image) (b m size : Nat) : Int × Image :=
  if fileStart d b m = 0 then
    if (get_free_block d + size) % 2 ^ 64 > SIZE_OF_DISK then (-EFBIG, d)
    else
      let d1 := wrLong d (fstartAddr b m) (get_free_block d)
      let d2 := wrSize d1 (fsizeAddr b m) size
      (0, set_bit_map (toSigned 32 (toUnsigned 64 (fileStart d2 b m))).toNat
            (toSigned 32 (fsize d2 b m)).toNat 1 d2)
  else (0, d)

/-- `static int cs1550_write(path, buf, size, offset, fi)`: the result and the file. -/
def cs1550_write (path : List Nat) (junk : PathInfo) (buf : Buffer) (size : Nat) (offset : Int)
    (d : Image) : Option (Int × Image) :=
  match get_path_info path junk with
  | none => none
  | some pinfo =>
    match lookupFile d pinfo with
    | Found.fault => none
    | Found.absent => some (0, d)
    | Found.found (b, m) =>
      let result := (write_allocate d b m size).1
      let d3 := (write_allocate d b m size).2
      if (toUnsigned 64 offset + size) % 2 ^ 64 > fsize d3 b m then some (-EFBIG, d3)
      else if result ≠ 0 then some (result, d3)
      else if fileStart d3 b m + offset < 0 then some (-1, d3)
      else some (toSigned 32 size, pwrite d3 buf size (fileStart d3 b m + offset).toNat)

/-! ## Closed forms used in the proofs -/

/-- Byte `k` of the bitmap restricted to the bits of the range `[off, off + len)`. -/
def rangeMask (off len k : Nat) : Nat :=
  if max off (8 * k) - 8 * k < min (off + len) (8 * k + 8) - 8 * k then
    2 ^ (min (off + len) (8 * k + 8) - 8 * k) - 2 ^ (max off (8 * k) - 8 * k)
  else 0

/-- Closed form of `set_bit_map offset length 1`: every bit of the range is or-ed in. -/
def markRange (off len : Nat) (d : Image) : Image :=
  fun a => if BITMAP_OFFSET ≤ a then d a ||| rangeMask off len (a - BITMAP_OFFSET) else d a

/-- `mkdir_create` with the bitmap loop in closed form. -/
def mkdir_create_closed (d : Image) (n : Nat) (file_name : List Nat) : Option Image :=
  let d1 := strcpy d (dnameAddr n) file_name
  let start_block := get_free_block d1
  let d2 := wrLong d1 (dstartAddr n) start_block
  let d3 := markRange start_block SIZEOF_DIRECTORY_ENTRY d2
  let address := dirStart d3 n
  if !startAssert address || !blockInBounds address.toNat then none
  else
    let d4 := wrInt d3 (nFilesAddr address.toNat) 0
    some (wrInt d4 nDirectoriesAddr (nDirectories d4 + 1))

/-- `write_allocate` with the bitmap loop in closed form. -/
def write_allocate_closed (d : Image) (b m size : Nat) : Int × Image :=
  if fileStart d b m = 0 then
    if (get_free_block d + size) % 2 ^ 64 > SIZE_OF_DISK then (-EFBIG, d)
    else
      let d1 := wrLong d (fstartAddr b m) (get_free_block d)
      let d2 := wrSize d1 (fsizeAddr b m) size
      (0, markRange (toSigned 32 (toUnsigned 64 (fileStart d2 b m))).toNat
            (toSigned 32 (fsize d2 b m)).toNat d2)
  else (0, d)

/-- Result code of a handler call. -/
def codeOf {α : Type} (r : Option (Int × α)) : Option Int := r.map Prod.fst

/-- Image left by a handler call (the fresh image when the call does not return). -/
def imageOf (r : Option (Int × Image)) : Image :=
  match r with
  | some (_, d) => d
  | none => fresh

/-- Bytes `0 .. n-1` of a buffer. -/
def bytesOf (buf : Buffer) (n : Nat) : List Nat := (List.range n).map buf

/-- The C string literal `s` as bytes. -/
def ascii (s : String) : List Nat := s.toList.map Char.toNat

/-- Buffers returned by `malloc` that happen to hold empty strings. -/
def noJunk : PathInfo :=
  { dir_name := [], full_file_name := [], file_name := [], extension_name := [] }

/-- One directory `d` in block 511 holding the file `a.t`, 5 bytes long, stored from
offset 1023 on. -/
def sampleImage : Image :=
  markRange 1023 5 (markRange 511 512
    (wrLong (wrSize (strcpy (strcpy (wrInt (wrLong (strcpy (wrInt fresh nDirectoriesAddr 1)
      (dnameAddr 0) [100]) (dstartAddr 0) 511) (nFilesAddr 511) 1)
      (fnameAddr 511 0) [97]) (fextAddr 511 0) [116]) (fsizeAddr 511 0) 5)
      (fstartAddr 511 0) 1023))

/-- A well-formed image: the root holds at most `MAX_DIRS_IN_ROOT` entries, every entry
refers to a block inside the image other than the root's, and the record in that block
holds at most `MAX_FILES_IN_DIR` files. -/
def ValidImage (d : Image) : Prop :=
  0 ≤ nDirectories d ∧ nDirectories d ≤ MAX_DIRS_IN_ROOT ∧
  ∀ i, i < (nDirectories d).toNat →
    1 ≤ dirStart d i ∧ BLOCK_SIZE * (dirStart d i + 1) ≤ SIZE_OF_DISK ∧
    0 ≤ nFiles d (dirStart d i).toNat ∧ nFiles d (dirStart d i).toNat ≤ MAX_FILES_IN_DIR

instance (d : Image) : Decidable (ValidImage d) := by
  unfold ValidImage
  infer_instance

/-- Two scanner states that differ at most in what dots set: `dot_index`, `in_dir`,
`in_file`. -/
def sameModDots (s t : ScanState) : Prop :=
  s.info = t.info ∧ s.path_index = t.path_index ∧ s.num_slash = t.num_slash ∧
    s.fault = t.fault

/-- The root after 28 directories `d00` to `d27` were recorded in blocks 1 to 28, all of
them empty. -/
def root28 : Image := fun a =>
  if a = 0 then 28
  else if 4 ≤ a ∧ a < 4 + 17 * 28 then
    if (a - 4) % 17 = 0 then 100
    else if (a - 4) % 17 = 1 then 48 + (a - 4) / 17 / 10
    else if (a - 4) % 17 = 2 then 48 + (a - 4) / 17 % 10
    else if (a - 4) % 17 = 9 then (a - 4) / 17 + 1
    else 0
  else 0

/-- `root28` after `createDirectory("/new")`: the root is at capacity. -/
def root29 : Image :=
  wrInt (wrInt (markRange 511 512 (wrLong (strcpy root28 (dnameAddr 28) (ascii ("new")))
    (dstartAddr 28) 511)) (nFilesAddr 511) 0) nDirectoriesAddr 29

/-- One directory `d` in block 511 that holds the 17 files `a.t` to `q.t`, none of them
written yet; bits 511 to 1022 of the bitmap are set. -/
def fullDir : Image := fun a =>
  if a = 0 then 1
  else if a = 4 then 100
  else if a = 13 then 255
  else if a = 14 then 1
  else if a = 261632 then 17
  else if 261636 ≤ a ∧ a < 261636 + 29 * 17 then
    if (a - 261636) % 29 = 0 then 97 + (a - 261636) / 29
    else if (a - 261636) % 29 = 9 then 116
    else 0
  else if BITMAP_OFFSET ≤ a then rangeMask 511 512 (a - BITMAP_OFFSET)
  else 0

/-- The fresh image after `createDirectory("/a.b")`. -/
def imageDotted : Image :=
  wrInt (wrInt (markRange 511 512 (wrLong (strcpy fresh (dnameAddr 0) (ascii ("a.b")))
    (dstartAddr 0) 511)) (nFilesAddr 511) 0) nDirectoriesAddr 1

/-- The path `/docs`. -/
def docsPath : List Nat := SLASH :: ascii ("docs")

/-- The path `/docs/a.txt`. -/
def filePath : List Nat := SLASH :: (ascii ("docs") ++ SLASH :: (ascii ("a") ++ DOT :: ascii ("txt")))

/-- What the resolver yields for `/docs/a.txt`. -/
def fileInfo : PathInfo :=
  { dir_name := ascii ("docs"), full_file_name := ascii ("a.txt"), file_name := ascii ("a"),
    extension_name := ascii ("txt") }

/-- The buffer holding `hello`. -/
def hello : Buffer := fun i => (ascii ("hello")).getD i 0

/-- A buffer of zero bytes. -/
def zeroBuf : Buffer := fun _ => 0

/-- The fresh image after `createDirectory("/docs")`: root entry 0 is `docs` in block 511,
bits 511 to 1022 of the bitmap are set. -/
def image1 : Image :=
  wrInt (wrInt (markRange 511 512 (wrLong (strcpy fresh (dnameAddr 0) (ascii ("docs")))
    (dstartAddr 0) 511)) (nFilesAddr 511) 0) nDirectoriesAddr 1

/-- `image1` after `createFile("/docs/a.txt")`. -/
def image2 : Image := mknod_create image1 511 0 fileInfo

/-- `image2` after `write("/docs/a.txt", "hello", 5, 0)`: the file starts at offset 1023. -/
def image3 : Image :=
  pwrite (markRange 1023 5 (wrSize (wrLong image2 (fstartAddr 511 0) 1023) (fsizeAddr 511 0) 5))
    hello 5 1023

/-- `image2` after writing 260613 zero bytes to `/docs/a.txt`: the data runs from offset
1023 up to offset 261635, across the first four bytes of block 511. -/
def image3big : Image :=
  pwrite (markRange 1023 260613
      (wrSize (wrLong image2 (fstartAddr 511 0) 1023) (fsizeAddr 511 0) 260613))
    zeroBuf 260613 1023

/-- `image1` after `createFile("/x/docs")`: an entry with empty name and extension. -/
def imageNameless : Image :=
  mknod_create image1 511 0
    { dir_name := ascii ("docs"), full_file_name := [], file_name := [],
      extension_name := [] }

/-- An image whose bitmap region holds only set bits (and nothing else). -/
def allSet : Image := fun a => if BITMAP_OFFSET ≤ a then 255 else 0

/-- The first index the scan of `get_free_block` looks at. -/
def SCAN_START : Nat := SIZEOF_ROOT_DIRECTORY - 1

/-- What holds of the scanner state before index `i` of a path that starts with `'/'`:
no fault so far, a dot seen after the last slash lies behind that slash, and the last
slash lies before `i`. -/
def scanInv (s : ScanState) (i : Nat) : Prop :=
  s.fault = false ∧ (s.in_file = true → s.path_index < s.dot_index) ∧
    (1 ≤ i → s.path_index < i)

/-- The bytes from offset `a` up to the first NUL byte of the structure, as `strcat` and
`filler` read a string. -/
def nameAt (d : Image) (a : Nat) : List Nat := strAt d (SIZE_OF_DISK - a) a

/-- The NUL-terminated string at offset `a`; `none` when no NUL byte follows inside the
`cs1550_disk` structure. -/
def cstr (d : Image) (a : Nat) : Option (List Nat) :=
  if a + (nameAt d a).length < SIZE_OF_DISK then some (nameAt d a) else none

/-- The loop of `cs1550_readdir` for the path `/`:
`for (i = 0; i < nDirectories; ++i) filler(buf, directories[i].dname, NULL, 0);`
`out` holds the names `filler` has received. -/
def readdir_root_loop (d : Image) : Nat → Nat → List (List Nat) → Option (List (List Nat))
  | 0, _, out => some out
  | fuel + 1, i, out =>
    if !dirInBounds i then none
    else
      match cstr d (dnameAddr i) with
      | none => none
      | some name => readdir_root_loop d fuel (i + 1) (out ++ [name])

/-- The loop `for (j = 0; j < entry->nFiles; ++j)` of `cs1550_readdir` over the record in
block `b`: `strcat` of `fname`, `"."` and `fext` into
`char buff_full_file_name[MAX_FILENAME + MAX_EXTENSION + 1]`, then `filler`.  A string that
does not fit the buffer with its NUL byte yields `none`. -/
def readdir_files_loop (d : Image) (b : Nat) :
    Nat → Nat → List (List Nat) → Option (List (List Nat))
  | 0, _, out => some out
  | fuel + 1, j, out =>
    if !fileInBounds b j then none
    else
      match cstr d (fnameAddr b j), cstr d (fextAddr b j) with
      | some fname, some fext =>
        if fname.length + 1 + fext.length + 1 > MAX_FILENAME + MAX_EXTENSION + 1 then none
        else readdir_files_loop d b fuel (j + 1) (out ++ [fname ++ DOT :: fext])
      | _, _ => none

/-- The loop of `cs1550_readdir` for any other path: every root entry whose `dname`
equals `dir_name` has its files listed; the loop has no `break`. -/
def readdir_dirs_loop (d : Image) (dir_name : List Nat) :
    Nat → Nat → List (List Nat) → Option (List (List Nat))
  | 0, _, out => some out
  | fuel + 1, i, out =>
    if !dirInBounds i then none
    else if strEq d (dnameAddr i) dir_name then
      if !startAssert (dirStart d i) then none
      else if !blockInBounds (dirStart d i).toNat then none
      else
        match readdir_files_loop d (dirStart d i).toNat
            (nFiles d (dirStart d i).toNat).toNat 0 out with
        | none => none
        | some out2 => readdir_dirs_loop d dir_name fuel (i + 1) out2
    else readdir_dirs_loop d dir_name fuel (i + 1) out

/-- `static int cs1550_readdir(path, buf, filler, offset, fi)`: the result and the names
passed to `filler`, in order. -/
def cs1550_readdir (path : List Nat) (junk : PathInfo) (d : Image) :
    Option (Int × List (List Nat)) :=
  match get_path_info path junk with
  | none => none
  | some pinfo =>
    let out := [[DOT], [DOT, DOT]]
    let r :=
      if path = [SLASH] then readdir_root_loop d (nDirectories d).toNat 0 out
      else readdir_dirs_loop d pinfo.dir_name (nDirectories d).toNat 0 out
    match r with
    | none => none
    | some out2 => some (0, out2)

/-- The listing as the specification words it: `"."`, `".."`, then for the root the names
of root entries `0 .. nDirectories - 1`, and for any other path `fname + "." + fext` of
file entries `0 .. nFiles - 1` of each root entry named `dir_name`. -/
def listing_spec (d : Image) (path dir_name : List Nat) : List (List Nat) :=
  [[DOT], [DOT, DOT]] ++
    if path = [SLASH] then
      (List.range (nDirectories d).toNat).map (fun i => nameAt d (dnameAddr i))
    else
      ((List.range (nDirectories d).toNat).filter
        (fun i => strEq d (dnameAddr i) dir_name)).flatMap
        (fun i => (List.range (nFiles d (dirStart d i).toNat).toNat).map
          (fun j => nameAt d (fnameAddr (dirStart d i).toNat j) ++
            DOT :: nameAt d (fextAddr (dirStart d i).toNat j)))

/-- Every stored name ends inside the image, and every `fname + "." + fext` fits the
listing buffer together with its NUL byte. -/
def Listable (d : Image) : Prop :=
  ∀ i, i < (nDirectories d).toNat →
    dnameAddr i + (nameAt d (dnameAddr i)).length < SIZE_OF_DISK ∧
    ∀ j, j < (nFiles d (dirStart d i).toNat).toNat →
      (nameAt d (fnameAddr (dirStart d i).toNat j)).length + 1 +
        (nameAt d (fextAddr (dirStart d i).toNat j)).length + 1 ≤
        MAX_FILENAME + MAX_EXTENSION + 1

instance (d : Image) : Decidable (Listable d) := by
  unfold Listable
  infer_instance

/-- `image2` after writing 260650 zero bytes to `/docs/a.txt`: the data runs from offset
1023 up to offset 261672, across the count and the first file entry of block 511. -/
def image3wide : Image :=
  pwrite (markRange 1023 260650
      (wrSize (wrLong image2 (fstartAddr 511 0) 1023) (fsizeAddr 511 0) 260650))
    zeroBuf 260650 1023

/-- `image2` with every bit of the bitmap set. -/
def imageExhausted : Image := fun a => if BITMAP_OFFSET ≤ a then 255 else image2 a

/-- `imageExhausted` after `write("/docs/a.txt", "hello", 5, 0)`: the entry records the
start `BIT_MAP_SIZE` and the data lies at that offset. -/
def imageExhaustedWritten : Image :=
  pwrite (markRange 655360 5
      (wrSize (wrLong imageExhausted (fstartAddr 511 0) 655360) (fsizeAddr 511 0) 5))
    hello 5 655360

/-- `image2` after the failed call `write("/docs/a.txt", "hello", 5, 1)`: the entry records
start 1023 and size 5 and bits 1023 to 1027 are set, no data was stored. -/
def imageLeak : Image :=
  markRange 1023 5 (wrSize (wrLong image2 (fstartAddr 511 0) 1023) (fsizeAddr 511 0) 5)

/-- The image `cs1550_mkdir` leaves when it creates root entry `n` named `file_name` in
the image `d`, written with the bitmap loop in closed form. -/
def mkdir_image (d : Image) (n : Nat) (file_name : List Nat) : Image :=
  wrInt (wrInt (markRange (get_free_block d) SIZEOF_DIRECTORY_ENTRY
      (wrLong (strcpy d (dnameAddr n) file_name) (dstartAddr n) (get_free_block d)))
    (nFilesAddr (get_free_block d)) 0) nDirectoriesAddr ((n : Int) + 1)

/-- The one-character directory name used for the `k`-th directory of a run of
`createDirectory` calls: `a`, `b`, `c`, ... -/
def dirName (k : Nat) : List Nat := [97 + k]

/-- The image after `k` successful calls `createDirectory("/a")`, `createDirectory("/b")`,
... on the fresh image; `none` when one of the calls does not return success. -/
def mkdirs : Nat → Option Image
  | 0 => some fresh
  | k + 1 =>
    match mkdirs k with
    | none => none
    | some d =>
      match cs1550_mkdir (SLASH :: dirName k) d with
      | some (r, d') => if r = 0 then some d' else none
      | none => none

/-- What `k` directories created on the fresh image leave behind: root entry `i` is named
`dirName i` and starts at block `511 + 512 * i`, and of the scanned bits exactly those
below `511 + 512 * k` are set. -/
def Packed (k : Nat) (d : Image) : Prop :=
  nDirectories d = k ∧
  (∀ i, i < k → dirStart d i = ((511 + 512 * i : Nat) : Int) ∧ d (dnameAddr i) = 97 + i) ∧
  (∀ j, 511 ≤ j → j < 655360 → bitmapBit d j = decide (j < 511 + 512 * k))

/-- The path `/docs/b.txt`. -/
def filePathB : List Nat :=
  SLASH :: (ascii ("docs") ++ SLASH :: (ascii ("b") ++ DOT :: ascii ("txt")))

/-- What the resolver yields for `/docs/b.txt`. -/
def fileInfoB : PathInfo :=
  { dir_name := ascii ("docs"), full_file_name := ascii ("b.txt"), file_name := ascii ("b"),
    extension_name := ascii ("txt") }

/-- `image2` after `createFile("/docs/b.txt")`. -/
def image2b : Image := mknod_create image2 511 1 fileInfoB

/-- `image2b` after `write("/docs/a.txt", "hello", 5, 0)`: `a.txt` starts at offset 1023. -/
def image3ab : Image :=
  pwrite (markRange 1023 5 (wrSize (wrLong image2b (fstartAddr 511 0) 1023) (fsizeAddr 511 0) 5))
    hello 5 1023

/-- A buffer of 260637 bytes that is zero except where, written from offset 1028 on, it
covers the file count of block 511 (value 2) and the name and extension of file entry 0
(`a`, `txt`). -/
def patchBuf : Buffer := fun i =>
  if i = 260604 then 2
  else if i = 260608 then 97
  else if i = 260617 then 116
  else if i = 260618 then 120
  else if i = 260619 then 116
  else 0

/-- `image3ab` after `write("/docs/b.txt", patchBuf, 260637, 0)`: `b.txt` starts at offset
1028 and its data ends just before file entry 1 of block 511. -/
def image4 : Image :=
  pwrite (markRange 1028 260637
      (wrSize (wrLong image3ab (fstartAddr 511 1) 1028) (fsizeAddr 511 1) 260637))
    patchBuf 260637 1028

/-- The state of the process between handler calls: the file `.disk`, the structure
`instance->d` in memory, the global `dirty`, and whether `instance` is set. -/
structure Proc where
  file : Image
  mem : Image
  dirty : Bool
  loaded : Bool

/-- `int write_to_disk(cs1550_disk *disk)`: the structure is written over the file. -/
def write_to_disk (p : Proc) : Proc := { p with file := p.mem }

/-- `struct Singleton *get_instance(void)`: the state after the call, and whether the
branch `if (dirty == true) { write_to_disk(instance->d); dirty = false; }` was taken.
The first call asserts that `dirty` is clear; every call reads the file into the
structure. -/
def get_instance (p : Proc) : Option (Proc × Bool) :=
  if !p.loaded then
    if p.dirty then none
    else some ({ p with mem := p.file, loaded := true }, false)
  else if p.dirty then
    let p1 := write_to_disk p
    let p2 := { p1 with dirty := false }
    some ({ p2 with mem := p2.file }, true)
  else some ({ p with mem := p.file }, false)

/-- The handler `cs1550_getattr` on the process state: `get_instance`, then the body,
which does not assign `dirty`. -/
def cs1550_getattr_proc (path : List Nat) (junk : PathInfo) (p : Proc) :
    Option (Int × Stat × Proc) :=
  match get_path_info path junk with
  | none => none
  | some _ =>
    match get_instance p with
    | none => none
    | some (p0, _) =>
      match cs1550_getattr path junk p0.mem with
      | none => none
      | some (r, st) => some (r, st, p0)

/-- The handler `cs1550_readdir` on the process state: `get_instance`, then the body,
which does not assign `dirty`. -/
def cs1550_readdir_proc (path : List Nat) (junk : PathInfo) (p : Proc) :
    Option (Int × List (List Nat) × Proc) :=
  match get_path_info path junk with
  | none => none
  | some _ =>
    match get_instance p with
    | none => none
    | some (p0, _) =>
      match cs1550_readdir path junk p0.mem with
      | none => none
      | some (r, out) => some (r, out, p0)

/-- The handler `cs1550_read` on the process state: `get_instance` is called only when
the path has a file component; the body does not assign `dirty`. -/
def cs1550_read_proc (path : List Nat) (junk : PathInfo) (buf : Buffer) (size : Nat)
    (offset : Int) (p : Proc) : Option (Int × Buffer × Proc) :=
  match get_path_info path junk with
  | none => none
  | some pinfo =>
    if pinfo.full_file_name.length = 0 then some (-EISDIR, buf, p)
    else
      match get_instance p with
      | none => none
      | some (p0, _) =>
        match cs1550_read path junk buf size offset p0.mem with
        | none => none
        | some (r, buf2) => some (r, buf2, p0)

/-- The handler `cs1550_mkdir` on the process state, with its assignments to `dirty`
and its call of `write_to_disk`. -/
def cs1550_mkdir_proc (path : List Nat) (p : Proc) : Option (Int × Proc) :=
  let result := mkdir_scan path.reverse 0 0
  if result ≠ 0 then some (result, p)
  else if path.length = 0 ∨ path.length - 1 > 8 then none
  else
    match get_instance p with
    | none => none
    | some (p0, _) =>
      let file_name := path.drop 1
      match findDir p0.mem file_name with
      | some j =>
        if !dirInBounds j then none
        else if nDirectories p0.mem = MAX_DIRS_IN_ROOT then some (-EPERM, p0)
        else some (-EEXIST, p0)
      | none =>
        if nDirectories p0.mem = MAX_DIRS_IN_ROOT then some (-EPERM, p0)
        else if nDirectories p0.mem < 0 ∨ !dirInBounds (nDirectories p0.mem).toNat then none
        else
          let p1 := { p0 with dirty := true }
          match mkdir_create p1.mem (nDirectories p1.mem).toNat file_name with
          | none => none
          | some d5 =>
            let p2 := write_to_disk { p1 with mem := d5 }
            some (0, { p2 with dirty := false })

/-- The handler `cs1550_mknod` on the process state, with its assignments to `dirty`
and its call of `write_to_disk`. -/
def cs1550_mknod_proc (path : List Nat) (junk : PathInfo) (p : Proc) : Option (Int × Proc) :=
  match get_path_info_for_mknod path junk with
  | none => none
  | some (result0, pinfo) =>
    match get_instance p with
    | none => none
    | some (p0, _) =>
      let result : Int := if path = [SLASH] then -EPERM else result0
      if result ≠ 0 then some (result, p0)
      else
        match lookupDir p0.mem pinfo.dir_name with
        | Found.fault => none
        | Found.absent => some (-EPERM, p0)
        | Found.found b =>
          if nFiles p0.mem b = MAX_FILES_IN_DIR then some (-EPERM, p0)
          else
            match findFile p0.mem b pinfo.file_name pinfo.extension_name with
            | some m => if !fileInBounds b m then none else some (-EEXIST, p0)
            | none =>
              if !fileInBounds b (nFiles p0.mem b).toNat then none
              else
                let p1 := { p0 with dirty := true }
                let p2 := write_to_disk
                  { p1 with mem := mknod_create p1.mem b (nFiles p1.mem b).toNat pinfo }
                some (0, { p2 with dirty := false })

/-- The block `if (entry->files[m].nStartBlock == 0) { ... }` of `cs1550_write` on the
process state, with its assignments to `dirty` and its call of `write_to_disk`. -/
def write_allocate_proc (p : Proc) (b m size : Nat) : Int × Proc :=
  if fileStart p.mem b m = 0 then
    if (get_free_block p.mem + size) % 2 ^ 64 > SIZE_OF_DISK then (-EFBIG, p)
    else
      let p1 := { p with dirty := true }
      let p2 := write_to_disk { p1 with mem := (write_allocate p1.mem b m size).2 }
      (0, { p2 with dirty := false })
  else (0, p)

/-- The handler `cs1550_write` on the process state; `pwrite` stores to the file, not to
the structure. -/
def cs1550_write_proc (path : List Nat) (junk : PathInfo) (buf : Buffer) (size : Nat)
    (offset : Int) (p : Proc) : Option (Int × Proc) :=
  match get_path_info path junk with
  | none => none
  | some pinfo =>
    match get_instance p with
    | none => none
    | some (p0, _) =>
      match lookupFile p0.mem pinfo with
      | Found.fault => none
      | Found.absent => some (0, p0)
      | Found.found (b, m) =>
        let result := (write_allocate_proc p0 b m size).1
        let p3 := (write_allocate_proc p0 b m size).2
        if (toUnsigned 64 offset + size) % 2 ^ 64 > fsize p3.mem b m then some (-EFBIG, p3)
        else if result ≠ 0 then some (result, p3)
        else if fileStart p3.mem b m + offset < 0 then some (-1, p3)
        else
          some (toSigned 32 size,
            { p3 with file := pwrite p3.file buf size (fileStart p3.mem b m + offset).toNat })

/-- One handler call that returns: the state before and the state after. -/
inductive Step : Proc → Proc → Prop
  | getattr (path : List Nat) (junk : PathInfo) (p q : Proc) (r : Int) (st : Stat) :
      cs1550_getattr_proc path junk p = some (r, st, q) → Step p q
  | readdir (path : List Nat) (junk : PathInfo) (p q : Proc) (r : Int)
      (out : List (List Nat)) :
      cs1550_readdir_proc path junk p = some (r, out, q) → Step p q
  | mkdir (path : List Nat) (p q : Proc) (r : Int) :
      cs1550_mkdir_proc path p = some (r, q) → Step p q
  | mknod (path : List Nat) (junk : PathInfo) (p q : Proc) (r : Int) :
      cs1550_mknod_proc path junk p = some (r, q) → Step p q
  | read (path : List Nat) (junk : PathInfo) (buf buf2 : Buffer) (size : Nat) (offset : Int)
      (p q : Proc) (r : Int) :
      cs1550_read_proc path junk buf size offset p = some (r, buf2, q) → Step p q
  | write (path : List Nat) (junk : PathInfo) (buf : Buffer) (size : Nat) (offset : Int)
      (p q : Proc) (r : Int) :
      cs1550_write_proc path junk buf size offset p = some (r, q) → Step p q

/-- The states the process can be in between handler calls: it starts with `dirty` clear
and `instance` unset, on any file. -/
inductive Reachable : Proc → Prop
  | init (file mem : Image) :
      Reachable { file := file, mem := mem, dirty := false, loaded := false }
  | step (p q : Proc) : Reachable p → Step p q → Reachable q

/-- The process before its first handler call, on the fresh file. -/
def procFresh : Proc := { file := fresh, mem := fresh, dirty := false, loaded := false }

/-- The name stored in root entry `i`: the string in the field `dname`. -/
def dirNameOf (d : Image) (i : Nat) : List Nat := strAt d (MAX_FILENAME + 1) (dnameAddr i)

/-- The name and extension stored in file entry `j` of block `b`: the strings in the
fields `fname` and `fext`. -/
def fileNameOf (d : Image) (b j : Nat) : List Nat × List Nat :=
  (strAt d (MAX_FILENAME + 1) (fnameAddr b j), strAt d (MAX_EXTENSION + 1) (fextAddr b j))

/-- The invariant of the metadata: at most `MAX_DIRS_IN_ROOT` root entries with pairwise
distinct names, and in the record of every root entry at most `MAX_FILES_IN_DIR` files
with pairwise distinct (name, extension) pairs. -/
def MetaOK (d : Image) : Prop :=
  nDirectories d ≤ MAX_DIRS_IN_ROOT ∧
  (∀ j, j < (nDirectories d).toNat → ∀ i, i < j → dirNameOf d i ≠ dirNameOf d j) ∧
  (∀ i, i < (nDirectories d).toNat →
    nFiles d (dirStart d i).toNat ≤ MAX_FILES_IN_DIR ∧
    ∀ k, k < (nFiles d (dirStart d i).toNat).toNat → ∀ j, j < k →
      fileNameOf d (dirStart d i).toNat j ≠ fileNameOf d (dirStart d i).toNat k)

instance (d : Image) : Decidable (MetaOK d) := by
  unfold MetaOK
  infer_instance

/-- Every root entry refers to a block of the block array other than block 0. -/
def Placed (d : Image) : Prop :=
  ∀ i, i < (nDirectories d).toNat → 1 ≤ dirStart d i ∧ dirStart d i < NUMBER_OF_BLOCKS

instance (d : Image) : Decidable (Placed d) := by
  unfold Placed
  infer_instance

/-- The four strings are C strings: none holds a NUL byte. -/
def NulFree (pinfo : PathInfo) : Prop :=
  0 ∉ pinfo.dir_name ∧ 0 ∉ pinfo.full_file_name ∧ 0 ∉ pinfo.file_name ∧
    0 ∉ pinfo.extension_name

instance (pinfo : PathInfo) : Decidable (NulFree pinfo) := by
  unfold NulFree
  infer_instance

/-- The path `/docs/abcdefgh.txt`: a name of 8 and an extension of 3 characters. -/
def longPath : List Nat :=
  SLASH :: (ascii ("docs") ++ SLASH :: (ascii ("abcdefgh") ++ DOT :: ascii ("txt")))

/-- What the resolver yields for `/docs/abcdefgh.txt`. -/
def longInfo : PathInfo :=
  { dir_name := ascii ("docs"), full_file_name := ascii ("abcdefgh.txt"),
    file_name := ascii ("abcdefgh"), extension_name := ascii ("txt") }

/-- `image1` after `createFile("/docs/abcdefgh.txt")`. -/
def imageLong : Image := mknod_create image1 511 0 longInfo

/-- The path `/d/x/a.t`, with three `'/'`. -/
def deepPath : List Nat := ascii ("/d/x/a.t")

/-- What holds of the scanner state before index `i` of a path that starts with `'/'`:
from index 1 on the scanner is in a directory or a file segment and the last slash lies
before `i`; in a file segment the last dot lies after the last slash and before `i`. -/
def segInv (s : ScanState) (i : Nat) : Prop :=
  (1 ≤ i → (s.in_dir = true ∨ s.in_file = true) ∧ s.path_index < i) ∧
  (s.in_file = true → s.path_index < s.dot_index ∧ s.dot_index < i)

/-- Unset buffers of which `dir_name` happens to hold `d`. -/
def junkD : PathInfo :=
  { dir_name := ascii ("d"), full_file_name := [], file_name := [], extension_name := [] }

/-- A buffer of 260613 bytes that is zero except for its last four bytes, which hold the
`int` 2147483647; written from offset 1023 on they cover the file count of block 511. -/
def hugeBuf : Buffer := fun i =>
  if i = 260609 then 255
  else if i = 260610 then 255
  else if i = 260611 then 255
  else if i = 260612 then 127
  else 0

/-- `image2` after `write("/docs/a.txt", hugeBuf, 260613, 0)`: the data end on the file
count of block 511. -/
def imageHuge : Image :=
  pwrite (markRange 1023 260613
      (wrSize (wrLong image2 (fstartAddr 511 0) 1023) (fsizeAddr 511 0) 260613))
    hugeBuf 260613 1023

/-! ## Memory lemmas -/
theorem rdLE_congr {d e : Image} {a : Nat} (n : Nat)
    (h : ∀ x, a ≤ x → x < a + n → d x = e x) : rdLE d a n = rdLE e a n := by
  induction n generalizing a with
  | zero => rfl
  | succ n ih =>
    simp only [rdLE]
    rw [h a (Nat.le_refl a) (by omega), ih (fun x h1 h2 => h x (by omega) (by omega))]

theorem rdLE_lt (d : Image) (a n : Nat) : rdLE d a n < 256 ^ n := by
  induction n generalizing a with
  | zero => simp [rdLE]
  | succ n ih =>
    simp only [rdLE, pow_succ]
    have := ih (a + 1)
    have h2 : d a % 256 < 256 := Nat.mod_lt _ (by decide)
    nlinarith

theorem wrLE_apply (d : Image) (a n v x : Nat) :
    wrLE d a n v x = if a ≤ x ∧ x < a + n then (v / 256 ^ (x - a)) % 256 else d x := rfl

theorem wrLE_of_lt {d : Image} {a n v x : Nat} (h : x < a) : wrLE d a n v x = d x := by
  simp [wrLE_apply]; intro h1; omega

theorem wrLE_of_ge {d : Image} {a n v x : Nat} (h : a + n ≤ x) : wrLE d a n v x = d x := by
  simp [wrLE_apply]; intro h1; omega

theorem rdLE_wrLE_same (d : Image) (a n v : Nat) : rdLE (wrLE d a n v) a n = v % 256 ^ n := by
  induction n generalizing a v d with
  | zero => simp [rdLE, Nat.mod_one]
  | succ n ih =>
    simp only [rdLE]
    have h0 : wrLE d a (n + 1) v a = v % 256 := by simp [wrLE_apply]
    have h1 : rdLE (wrLE d a (n + 1) v) (a + 1) n = rdLE (wrLE d (a + 1) n (v / 256)) (a + 1) n := by
      apply rdLE_congr
      intro x hx1 hx2
      simp only [wrLE_apply]
      rw [if_pos ⟨by omega, by omega⟩, if_pos ⟨hx1, hx2⟩]
      have : x - a = (x - (a + 1)) + 1 := by omega
      rw [this, pow_succ, Nat.mul_comm, Nat.div_div_eq_div_mul]
    rw [h0, h1, ih, Nat.mod_mod, pow_succ, Nat.mul_comm (256 ^ n) 256, Nat.mod_mul]

theorem toSigned_toUnsigned_32 (v : Int) (h1 : -2147483648 ≤ v) (h2 : v < 2147483648) :
    toSigned 32 (toUnsigned 32 v) = v := by
  simp only [toSigned, toUnsigned]
  norm_num
  split_ifs <;> omega

theorem toSigned_toUnsigned_64 (v : Int) (h1 : -9223372036854775808 ≤ v)
    (h2 : v < 9223372036854775808) : toSigned 64 (toUnsigned 64 v) = v := by
  simp only [toSigned, toUnsigned]
  norm_num
  split_ifs <;> omega

theorem toUnsigned_lt (w : Nat) (v : Int) : toUnsigned w v < 2 ^ w := by
  simp only [toUnsigned]
  have hpos : (0 : Int) < ((2 ^ w : Nat) : Int) := by positivity
  have h1 := Int.emod_nonneg v (ne_of_gt hpos)
  have h2 := Int.emod_lt_of_pos v hpos
  have : ((v % ((2 ^ w : Nat) : Int)).toNat : Int) < ((2 ^ w : Nat) : Int) := by
    rw [Int.toNat_of_nonneg h1]; exact h2
  exact_mod_cast this

theorem rdInt_wrInt_same (d : Image) (a : Nat) (v : Int) (h1 : -2147483648 ≤ v)
    (h2 : v < 2147483648) : rdInt (wrInt d a v) a = v := by
  simp only [rdInt, wrInt, rdLE_wrLE_same]
  have := toUnsigned_lt 32 v
  rw [Nat.mod_eq_of_lt (by norm_num at this ⊢; exact this)]
  exact toSigned_toUnsigned_32 v h1 h2

theorem rdLong_wrLong_same (d : Image) (a : Nat) (v : Int) (h1 : -9223372036854775808 ≤ v)
    (h2 : v < 9223372036854775808) : rdLong (wrLong d a v) a = v := by
  simp only [rdLong, wrLong, rdLE_wrLE_same]
  have := toUnsigned_lt 64 v
  rw [Nat.mod_eq_of_lt (by norm_num at this ⊢; exact this)]
  exact toSigned_toUnsigned_64 v h1 h2

theorem rdSize_wrSize_same (d : Image) (a v : Nat) : rdSize (wrSize d a v) a = v % 2 ^ 64 := by
  simp only [rdSize, wrSize, rdLE_wrLE_same]
  norm_num

theorem strEq_congr {d e : Image} {a : Nat} (s : List Nat)
    (h : ∀ x, a ≤ x → x ≤ a + s.length → d x = e x) : strEq d a s = strEq e a s := by
  induction s generalizing a with
  | nil => simp [strEq, h a (Nat.le_refl a) (by simp)]
  | cons c cs ih =>
    simp only [strEq]
    rw [h a (Nat.le_refl a) (by omega),
      ih (fun x h1 h2 => h x (by omega) (by simp only [List.length_cons]; omega))]

theorem wrBytes_apply (d : Image) (a : Nat) (l : List Nat) (x : Nat) :
    wrBytes d a l x = if a ≤ x ∧ x < a + l.length then l.getD (x - a) 0 else d x := rfl

theorem strcpy_of_lt {d : Image} {a x : Nat} {s : List Nat} (h : x < a) :
    strcpy d a s x = d x := by
  simp [strcpy, wrBytes_apply]; intro h1; omega

theorem strcpy_of_gt {d : Image} {a x : Nat} {s : List Nat} (h : a + s.length < x) :
    strcpy d a s x = d x := by
  simp [strcpy, wrBytes_apply]; intro h1; omega

theorem strEq_wrBytes (d : Image) (a : Nat) (s t : List Nat) :
    strEq (wrBytes d a (s ++ 0 :: t)) a s = true := by
  induction s generalizing a d with
  | nil => simp [strEq, wrBytes_apply]
  | cons c cs ih =>
    simp only [strEq, Bool.and_eq_true, beq_iff_eq]
    constructor
    · simp [wrBytes_apply]
    · rw [← ih (wrBytes d a (c :: cs ++ 0 :: t)) (a + 1)]
      apply strEq_congr
      intro x h1 h2
      simp only [wrBytes_apply, List.length_append, List.length_cons, List.cons_append]
      rw [if_pos ⟨by omega, by omega⟩, if_pos ⟨by omega, by omega⟩]
      have : x - a = (x - (a + 1)) + 1 := by omega
      rw [this]
      simp [List.getD_cons_succ]

theorem strEq_strcpy_same (d : Image) (a : Nat) (s : List Nat) :
    strEq (strcpy d a s) a s = true := by
  unfold strcpy
  exact strEq_wrBytes d a s []

theorem firstFrom_congr {p q : Nat → Bool} (fuel start : Nat)
    (h : ∀ i, start ≤ i → i < start + fuel → p i = q i) :
    firstFrom p fuel start = firstFrom q fuel start := by
  induction fuel generalizing start with
  | zero => rfl
  | succ n ih =>
    simp only [firstFrom]
    rw [h start (Nat.le_refl _) (by omega), ih (start + 1) (fun i h1 h2 => h i (by omega) (by omega))]

theorem firstFrom_eq_none {p : Nat → Bool} {fuel start : Nat} :
    firstFrom p fuel start = none ↔ ∀ i, start ≤ i → i < start + fuel → p i = false := by
  induction fuel generalizing start with
  | zero => simp [firstFrom]; intro i h1 h2; omega
  | succ n ih =>
    simp only [firstFrom]
    by_cases hp : p start = true
    · simp only [hp, if_true]
      constructor
      · intro h; cases h
      · intro h; have := h start (Nat.le_refl _) (by omega); rw [hp] at this; cases this
    · have hp2 : p start = false := by simpa using hp
      rw [if_neg (by simp [hp2]), ih]
      constructor
      · intro h i h1 h2
        by_cases e : i = start
        · subst e; simpa using hp
        · exact h i (by omega) (by omega)
      · intro h i h1 h2
        exact h i (by omega) (by omega)

theorem firstFrom_eq_some {p : Nat → Bool} {fuel start j : Nat} :
    firstFrom p fuel start = some j ↔
      (start ≤ j ∧ j < start + fuel ∧ p j = true ∧ ∀ i, start ≤ i → i < j → p i = false) := by
  induction fuel generalizing start with
  | zero => simp [firstFrom]; intro h1 h2; omega
  | succ n ih =>
    simp only [firstFrom]
    by_cases hp : p start = true
    · simp only [hp, if_true, Option.some.injEq]
      constructor
      · intro h; subst h
        exact ⟨Nat.le_refl _, by omega, hp, fun i h1 h2 => by omega⟩
      · rintro ⟨h1, h2, h3, h4⟩
        by_contra hne
        have := h4 start (Nat.le_refl _) (by omega)
        rw [hp] at this; cases this
    · have hp2 : p start = false := by simpa using hp
      rw [if_neg (by simp [hp2]), ih]
      constructor
      · rintro ⟨h1, h2, h3, h4⟩
        refine ⟨by omega, by omega, h3, fun i hi1 hi2 => ?_⟩
        by_cases e : i = start
        · subst e; simpa using hp
        · exact h4 i (by omega) hi2
      · rintro ⟨h1, h2, h3, h4⟩
        have hne : j ≠ start := by
          intro e; subst e; exact hp h3
        exact ⟨by omega, by omega, h3, fun i hi1 hi2 => h4 i (by omega) hi2⟩

theorem get_free_block_loop_bounds (d : Image) (fuel i : Nat) :
    i ≤ get_free_block_loop d fuel i ∧ get_free_block_loop d fuel i ≤ i + fuel := by
  induction fuel generalizing i with
  | zero => simp [get_free_block_loop]
  | succ n ih =>
    simp only [get_free_block_loop]
    split
    · omega
    · have := ih (i + 1); omega

theorem get_free_block_bounds (d : Image) :
    511 ≤ get_free_block d ∧ get_free_block d ≤ 655360 := by
  have := get_free_block_loop_bounds d (BIT_MAP_SIZE - (SIZEOF_ROOT_DIRECTORY - 1))
    (SIZEOF_ROOT_DIRECTORY - 1)
  unfold get_free_block
  have e1 : SIZEOF_ROOT_DIRECTORY - 1 = 511 := by decide
  have e2 : BIT_MAP_SIZE - 511 = 654849 := by decide
  rw [e1] at this ⊢
  rw [e2] at this ⊢
  omega

theorem testBit_pow_sub_pow (lo hi t : Nat) (h : lo < hi) :
    (2 ^ hi - 2 ^ lo).testBit t = decide (lo ≤ t ∧ t < hi) := by
  have e : 2 ^ hi - 2 ^ lo = 2 ^ lo * (2 ^ (hi - lo) - 1) := by
    rw [Nat.mul_sub, ← pow_add, Nat.mul_one]
    congr 2; omega
  rw [e, Nat.testBit_mul_pow_two, Nat.testBit_two_pow_sub_one]
  by_cases h1 : lo ≤ t <;> by_cases h2 : t < hi <;> simp [h1, h2] <;> omega

theorem testBit_rangeMask (off len k t : Nat) :
    (rangeMask off len k).testBit t =
      decide (t < 8 ∧ off ≤ 8 * k + t ∧ 8 * k + t < off + len) := by
  unfold rangeMask
  split
  · rename_i h
    rw [testBit_pow_sub_pow _ _ _ h]
    congr 1
    apply propext
    constructor
    · intro ⟨h1, h2⟩; omega
    · intro ⟨h1, h2, h3⟩; omega
  · rename_i h
    simp only [Nat.zero_testBit]
    symm
    rw [decide_eq_false_iff_not]
    intro ⟨h1, h2, h3⟩
    omega

theorem testBit_set_bit_map_loop (len i : Nat) (d : Image) (a t : Nat) :
    (set_bit_map_loop 1 len i d a).testBit t =
      ((d a).testBit t ||
        decide (BITMAP_OFFSET ≤ a ∧ t < 8 ∧ i ≤ 8 * (a - BITMAP_OFFSET) + t ∧
          8 * (a - BITMAP_OFFSET) + t < i + len)) := by
  induction len generalizing i d with
  | zero =>
    simp only [set_bit_map_loop]
    have : ¬ (BITMAP_OFFSET ≤ a ∧ t < 8 ∧ i ≤ 8 * (a - BITMAP_OFFSET) + t ∧
          8 * (a - BITMAP_OFFSET) + t < i + 0) := by omega
    simp [this]
  | succ n ih =>
    simp only [set_bit_map_loop]
    rw [ih]
    by_cases ha : a = BITMAP_OFFSET + i / 8
    · subst ha
      rw [Function.update_same, Nat.testBit_lor, Nat.one_shiftLeft, Nat.testBit_two_pow]
      simp only [Nat.add_sub_cancel_left, Nat.le_add_right, true_and]
      by_cases hb : (d (BITMAP_OFFSET + i / 8)).testBit t = true
      · simp [hb]
      · simp only [hb, Bool.false_or]
        rw [← Bool.decide_or]
        congr 1
        apply propext
        constructor
        · intro h; omega
        · intro h; omega
    · rw [Function.update_noteq ha]
      congr 2
      apply propext
      constructor
      · intro h; omega
      · intro h; omega

theorem set_bit_map_one (off len : Nat) (d : Image) :
    set_bit_map off len 1 d = markRange off len d := by
  funext a
  apply Nat.eq_of_testBit_eq
  intro t
  unfold set_bit_map
  rw [testBit_set_bit_map_loop]
  unfold markRange
  split
  · rename_i h
    rw [Nat.testBit_lor, testBit_rangeMask]
    simp [h]
  · rename_i h
    simp [h]

theorem mkdir_create_eq_closed (d : Image) (n : Nat) (file_name : List Nat) :
    mkdir_create d n file_name = mkdir_create_closed d n file_name := by
  unfold mkdir_create mkdir_create_closed
  simp only [set_bit_map_one]

theorem write_allocate_eq_closed (d : Image) (b m size : Nat) :
    write_allocate d b m size = write_allocate_closed d b m size := by
  unfold write_allocate write_allocate_closed
  simp only [set_bit_map_one]

/-! ## The validation loop of `cs1550_mkdir` -/

theorem mkdir_scan_cons (c : Nat) (rest : List Nat) (sc lc : Nat) :
    mkdir_scan (c :: rest) sc lc =
      if lc > 8 then -ENAMETOOLONG
      else if (if c = SLASH then sc + 1 else sc) > 1 then -EPERM
      else mkdir_scan rest (if c = SLASH then sc + 1 else sc) (if c = SLASH then 0 else lc + 1) :=
  rfl

theorem mkdir_scan_letters (l rest : List Nat) (sc lc : Nat) (hl : ∀ c ∈ l, c ≠ SLASH)
    (hsc : sc ≤ 1) (hlc : lc + l.length ≤ 9) :
    mkdir_scan (l ++ rest) sc lc = mkdir_scan rest sc (lc + l.length) := by
  induction l generalizing lc with
  | nil => simp
  | cons c cs ih =>
    have hc : c ≠ SLASH := hl c (List.mem_cons_self _ _)
    simp only [List.length_cons] at hlc
    have h8 : ¬ lc > 8 := by omega
    have h1 : ¬ sc > 1 := by omega
    rw [List.cons_append, mkdir_scan_cons, if_neg h8, if_neg hc, if_neg h1,
      if_neg hc, ih (lc + 1) (fun x hx => hl x (List.mem_cons_of_mem _ hx)) (by omega)]
    simp only [List.length_cons]
    congr 1; omega

theorem mkdir_scan_not_too_long (l : List Nat) (sc lc : Nat) (h : lc + l.length ≤ 9) :
    mkdir_scan l sc lc ≠ -ENAMETOOLONG := by
  induction l generalizing sc lc with
  | nil => simp [mkdir_scan, ENAMETOOLONG]
  | cons c cs ih =>
    simp only [List.length_cons] at h
    have h8 : ¬ lc > 8 := by omega
    rw [mkdir_scan_cons, if_neg h8]
    by_cases hc : c = SLASH
    · rw [if_pos hc, if_pos hc]
      by_cases h1 : sc + 1 > 1
      · rw [if_pos h1]; simp [EPERM, ENAMETOOLONG]
      · rw [if_neg h1]; exact ih _ _ (by omega)
    · rw [if_neg hc, if_neg hc]
      by_cases h1 : sc > 1
      · rw [if_pos h1]; simp [EPERM, ENAMETOOLONG]
      · rw [if_neg h1]; exact ih _ _ (by omega)

theorem mkdir_scan_name (name : List Nat) (hs : SLASH ∉ name) (hl : name.length ≤ 8) :
    mkdir_scan (SLASH :: name).reverse 0 0 = 0 := by
  rw [List.reverse_cons, mkdir_scan_letters _ _ _ _ (by
    intro c hc e; subst e; exact hs (List.mem_reverse.mp hc)) (by omega) (by simp; omega)]
  rw [mkdir_scan_cons, if_neg (by simp; omega)]
  simp [mkdir_scan]

theorem mkdir_scan_long_name (name : List Nat) (hs : SLASH ∉ name) (hl : 8 < name.length) :
    mkdir_scan (SLASH :: name).reverse 0 0 = -ENAMETOOLONG := by
  rw [List.reverse_cons]
  have hsplit : name.reverse = name.reverse.take 9 ++ name.reverse.drop 9 :=
    (List.take_append_drop 9 _).symm
  have hlen : (name.reverse.take 9).length = 9 := by
    rw [List.length_take, List.length_reverse]; omega
  rw [hsplit, List.append_assoc, mkdir_scan_letters _ _ _ _ (by
    intro c hc e; subst e
    exact hs (List.mem_reverse.mp (List.mem_of_mem_take hc))) (by omega) (by omega)]
  rw [hlen]
  cases hd : name.reverse.drop 9 ++ [SLASH] with
  | nil => simp at hd
  | cons c cs => rw [mkdir_scan_cons, if_pos (by omega)]

theorem substring_eq (pre mid post : List Nat) {path : List Nat} {a n : Nat}
    (h : path = pre ++ (mid ++ post)) (h1 : a = pre.length) (h2 : n = mid.length) :
    substring path a n = mid := by
  subst h h1 h2
  simp [substring]

theorem scan_char_plain (path : List Nat) (i c : Nat) (s : ScanState) (h1 : c ≠ SLASH)
    (h2 : c ≠ DOT) : scan_char path i c s = s := by
  simp [scan_char, h1, h2]

theorem loop_cons_not_last (path : List Nat) (c : Nat) (rest : List Nat) (i : Nat)
    (s : ScanState) (h : i ≠ path.length - 1) :
    get_path_info_loop path (c :: rest) i s =
      get_path_info_loop path rest (i + 1) (scan_char path i c s) := by
  simp [get_path_info_loop, get_path_info_step, h]

theorem loop_last (path : List Nat) (c i : Nat) (s : ScanState) (h : i = path.length - 1) :
    get_path_info_loop path [c] i s = at_end path (scan_char path i c s) := by
  simp [get_path_info_loop, get_path_info_step, h]

theorem loop_plain (path seg rest : List Nat) (i : Nat) (s : ScanState)
    (hseg : ∀ c ∈ seg, c ≠ SLASH ∧ c ≠ DOT) (hlen : i + seg.length < path.length) :
    get_path_info_loop path (seg ++ rest) i s =
      get_path_info_loop path rest (i + seg.length) s := by
  induction seg generalizing i with
  | nil => simp
  | cons c cs ih =>
    simp only [List.length_cons] at hlen
    have hc := hseg c (List.mem_cons_self _ _)
    rw [List.cons_append, loop_cons_not_last _ _ _ _ _ (by omega),
      scan_char_plain _ _ _ _ hc.1 hc.2,
      ih (i + 1) (fun x hx => hseg x (List.mem_cons_of_mem _ hx)) (by omega)]
    simp only [List.length_cons]
    congr 1; omega

theorem loop_tail (path : List Nat) (c : Nat) (seg : List Nat) (i : Nat) (s : ScanState)
    (hseg : ∀ x ∈ seg, x ≠ SLASH ∧ x ≠ DOT) (hlen : i + 1 + seg.length = path.length) :
    get_path_info_loop path (c :: seg) i s = at_end path (scan_char path i c s) := by
  induction seg generalizing i c s with
  | nil =>
    simp only [List.length_nil] at hlen
    exact loop_last _ _ _ _ (by omega)
  | cons x xs ih =>
    simp only [List.length_cons] at hlen
    have hx := hseg x (List.mem_cons_self _ _)
    rw [loop_cons_not_last _ _ _ _ _ (by omega),
      ih x (i + 1) _ (fun y hy => hseg y (List.mem_cons_of_mem _ hy)) (by omega),
      scan_char_plain _ _ _ _ hx.1 hx.2]

/-- A path `/D` without dot resolves to the directory name `D` and empty file fields. -/
theorem get_path_info_dir (D : List Nat) (junk : PathInfo)
    (hD : ∀ c ∈ D, c ≠ SLASH ∧ c ≠ DOT) :
    get_path_info (SLASH :: D) junk =
      some { dir_name := D, full_file_name := [], file_name := [], extension_name := [] } := by
  unfold get_path_info
  rw [loop_tail _ _ _ _ _ hD (by simp only [List.length_cons, List.length_append, List.length_nil]; omega)]
  simp only [scan_char, get_path_info_init, at_end, if_true]
  simp only [Bool.false_eq_true, if_false, Option.some.injEq, PathInfo.mk.injEq, and_true]
  exact substring_eq [SLASH] D [] (by simp) (by simp) (by simp)

/-- A path `/D/R` whose last segment has no dot resolves to the directory name `R`. -/
theorem get_path_info_nested (D R : List Nat) (junk : PathInfo)
    (hD : ∀ c ∈ D, c ≠ SLASH ∧ c ≠ DOT) (hR : ∀ c ∈ R, c ≠ SLASH ∧ c ≠ DOT) :
    get_path_info (SLASH :: (D ++ SLASH :: R)) junk =
      some { dir_name := R, full_file_name := [], file_name := [], extension_name := [] } := by
  unfold get_path_info
  rw [loop_cons_not_last _ _ _ _ _ (by simp only [List.length_cons, List.length_append, List.length_nil]; omega),
    loop_plain _ _ _ _ _ hD (by simp only [List.length_cons, List.length_append, List.length_nil]; omega),
    loop_tail _ _ _ _ _ hR (by simp only [List.length_cons, List.length_append, List.length_nil]; omega)]
  simp only [scan_char, get_path_info_init, at_end, if_true]
  simp only [Bool.false_eq_true, if_false, Option.some.injEq, PathInfo.mk.injEq, and_true]
  exact substring_eq (SLASH :: (D ++ [SLASH])) R []
    (by simp) (by simp only [List.length_cons, List.length_append, List.length_nil]; omega) (by simp only [List.length_cons, List.length_append, List.length_nil]; omega)

theorem slash_count_plain (l : List Nat) (h : ∀ c ∈ l, c ≠ SLASH ∧ c ≠ DOT) :
    l.count SLASH = 0 := by
  rw [List.count_eq_zero]
  intro hm
  exact (h _ hm).1 rfl

theorem sameModDots_refl (s : ScanState) : sameModDots s s := ⟨rfl, rfl, rfl, rfl⟩

theorem scan_char_noslash (path : List Nat) (i c : Nat) (s : ScanState) (h : c ≠ SLASH) :
    sameModDots (scan_char path i c s) s := by
  unfold scan_char
  rw [if_neg h]
  by_cases hd : c = DOT
  · rw [if_pos hd]; exact ⟨rfl, rfl, rfl, rfl⟩
  · rw [if_neg hd]; exact sameModDots_refl s

theorem scan_char_dot (path : List Nat) (i : Nat) (s t : ScanState) (h : sameModDots s t) :
    scan_char path i DOT s = scan_char path i DOT t := by
  obtain ⟨h1, h2, h3, h4⟩ := h
  have hds : DOT ≠ SLASH := by decide
  unfold scan_char
  rw [if_neg hds, if_neg hds]
  simp only [if_true]
  cases s; cases t
  simp only at h1 h2 h3 h4
  subst h1 h2 h3 h4
  rfl

theorem scan_char_slash (path : List Nat) (i : Nat) (s t : ScanState) (h : sameModDots s t) :
    sameModDots (scan_char path i SLASH s) (scan_char path i SLASH t) ∧
    (scan_char path i SLASH s).in_dir = true ∧ (scan_char path i SLASH t).in_dir = true := by
  obtain ⟨h1, h2, h3, h4⟩ := h
  unfold scan_char
  rw [if_pos rfl, if_pos rfl]
  refine ⟨⟨?_, rfl, ?_, h4⟩, rfl, rfl⟩
  · simp only [h1, h3]
  · simp only [h3]

theorem at_end_in_dir (path : List Nat) (s t : ScanState) (h : sameModDots s t)
    (hs : s.in_dir = true) (ht : t.in_dir = true) :
    (at_end path s).info = (at_end path t).info ∧ (at_end path s).fault = (at_end path t).fault := by
  obtain ⟨h1, h2, h3, h4⟩ := h
  unfold at_end
  rw [if_pos hs, if_pos ht]
  simp only [h2, h4, and_self]

theorem loop_noslash (path seg rest : List Nat) (i : Nat) (s : ScanState)
    (hseg : SLASH ∉ seg) (hlen : i + seg.length < path.length) :
    ∃ t, get_path_info_loop path (seg ++ rest) i s =
        get_path_info_loop path rest (i + seg.length) t ∧ sameModDots t s := by
  induction seg generalizing i s with
  | nil => exact ⟨s, by simp, sameModDots_refl s⟩
  | cons c cs ih =>
    simp only [List.length_cons] at hlen
    have hc : c ≠ SLASH := fun e => hseg (e ▸ List.mem_cons_self _ _)
    obtain ⟨t, ht1, ht2⟩ := ih (i + 1) (scan_char path i c s)
      (fun hm => hseg (List.mem_cons_of_mem _ hm)) (by omega)
    refine ⟨t, ?_, ?_⟩
    · rw [List.cons_append, loop_cons_not_last _ _ _ _ _ (by omega), ht1]
      simp only [List.length_cons]
      congr 1; omega
    · have hsame := scan_char_noslash path i c s hc
      exact ⟨ht2.1.trans hsame.1, ht2.2.1.trans hsame.2.1, ht2.2.2.1.trans hsame.2.2.1,
        ht2.2.2.2.trans hsame.2.2.2⟩

theorem plain_of_not_mem (l : List Nat) (h1 : SLASH ∉ l) (h2 : DOT ∉ l) :
    ∀ c ∈ l, c ≠ SLASH ∧ c ≠ DOT :=
  fun _ hc => ⟨fun e => h1 (e ▸ hc), fun e => h2 (e ▸ hc)⟩


theorem sameModDots_trans {s t u : ScanState} (h1 : sameModDots s t) (h2 : sameModDots t u) :
    sameModDots s u :=
  ⟨h1.1.trans h2.1, h1.2.1.trans h2.2.1, h1.2.2.1.trans h2.2.2.1, h1.2.2.2.trans h2.2.2.2⟩

/-- A path `/D/N.E` resolves to directory `D`, full name `N.E`, name `N`, extension `E`;
`D` and `N` may hold dots, the extension starts after the last dot. -/
theorem get_path_info_file (D N E : List Nat) (junk : PathInfo)
    (hD : SLASH ∉ D) (hN : SLASH ∉ N) (hE : ∀ c ∈ E, c ≠ SLASH ∧ c ≠ DOT) :
    get_path_info (SLASH :: (D ++ SLASH :: (N ++ DOT :: E))) junk =
      some { dir_name := D, full_file_name := N ++ DOT :: E, file_name := N,
             extension_name := E } := by
  unfold get_path_info
  rw [loop_cons_not_last _ _ _ _ _
    (by simp only [List.length_cons, List.length_append, List.length_nil]; omega)]
  obtain ⟨t1, ht1, hs1⟩ := loop_noslash (SLASH :: (D ++ SLASH :: (N ++ DOT :: E))) D
    (SLASH :: (N ++ DOT :: E)) (0 + 1)
    (scan_char (SLASH :: (D ++ SLASH :: (N ++ DOT :: E))) 0 SLASH (get_path_info_init junk))
    hD (by simp only [List.length_cons, List.length_append, List.length_nil]; omega)
  rw [ht1, loop_cons_not_last _ _ _ _ _
    (by simp only [List.length_cons, List.length_append, List.length_nil]; omega)]
  obtain ⟨t2, ht2, hs2⟩ := loop_noslash (SLASH :: (D ++ SLASH :: (N ++ DOT :: E))) N
    (DOT :: E) (0 + 1 + D.length + 1)
    (scan_char (SLASH :: (D ++ SLASH :: (N ++ DOT :: E))) (0 + 1 + D.length) SLASH t1)
    hN (by simp only [List.length_cons, List.length_append, List.length_nil]; omega)
  rw [ht2, loop_tail _ _ _ _ _ hE
    (by simp only [List.length_cons, List.length_append, List.length_nil]; omega)]
  rw [scan_char_dot _ _ _ _
    (sameModDots_trans hs2 (scan_char_slash _ (0 + 1 + D.length) _ _ hs1).1)]
  have hds : DOT ≠ SLASH := by decide
  simp only [scan_char, get_path_info_init, at_end, if_true, hds, if_false]
  simp only [Bool.false_eq_true, if_false, if_true, Bool.false_or]
  rw [if_neg (by simp)]
  simp only [Option.some.injEq, PathInfo.mk.injEq]
  refine ⟨?_, ?_, ?_, ?_⟩
  · exact substring_eq [SLASH] D (SLASH :: (N ++ DOT :: E)) (by simp) (by simp) (by simp)
  · exact substring_eq (SLASH :: (D ++ [SLASH])) (N ++ DOT :: E) [] (by simp)
      (by simp only [List.length_cons, List.length_append, List.length_nil]; omega)
      (by simp only [List.length_cons, List.length_append, List.length_nil]; omega)
  · exact substring_eq (SLASH :: (D ++ [SLASH])) N (DOT :: E) (by simp)
      (by simp only [List.length_cons, List.length_append, List.length_nil]; omega)
      (by omega)
  · exact substring_eq (SLASH :: (D ++ SLASH :: (N ++ [DOT]))) E []
      (by simp only [List.cons_append, List.append_assoc, List.append_nil, List.nil_append])
      (by simp only [List.length_cons, List.length_append, List.length_nil]; omega)
      (by simp only [List.length_cons, List.length_append, List.length_nil]; omega)

/-- A path `/N.E` directly under the root: `dir_name` keeps what `malloc` left in it. -/
theorem get_path_info_rootfile (N E : List Nat) (junk : PathInfo)
    (hN : SLASH ∉ N) (hE : ∀ c ∈ E, c ≠ SLASH ∧ c ≠ DOT) :
    get_path_info (SLASH :: (N ++ DOT :: E)) junk =
      some { dir_name := junk.dir_name, full_file_name := N ++ DOT :: E, file_name := N,
             extension_name := E } := by
  unfold get_path_info
  rw [loop_cons_not_last _ _ _ _ _
    (by simp only [List.length_cons, List.length_append, List.length_nil]; omega)]
  obtain ⟨t1, ht1, hs1⟩ := loop_noslash (SLASH :: (N ++ DOT :: E)) N (DOT :: E) (0 + 1)
    (scan_char (SLASH :: (N ++ DOT :: E)) 0 SLASH (get_path_info_init junk))
    hN (by simp only [List.length_cons, List.length_append, List.length_nil]; omega)
  rw [ht1, loop_tail _ _ _ _ _ hE
    (by simp only [List.length_cons, List.length_append, List.length_nil]; omega)]
  rw [scan_char_dot _ _ _ _ hs1]
  have hds : DOT ≠ SLASH := by decide
  simp only [scan_char, get_path_info_init, at_end, if_true, hds, if_false]
  simp only [Bool.false_eq_true, if_false, if_true, Bool.false_or]
  rw [if_neg (by simp)]
  simp only [Option.some.injEq, PathInfo.mk.injEq]
  refine ⟨?_, ?_, ?_, ?_⟩
  · simp
  · exact substring_eq [SLASH] (N ++ DOT :: E) [] (by simp)
      (by simp only [List.length_cons, List.length_append, List.length_nil])
      (by simp only [List.length_cons, List.length_append, List.length_nil]; omega)
  · exact substring_eq [SLASH] N (DOT :: E) (by simp)
      (by simp only [List.length_cons, List.length_append, List.length_nil])
      (by omega)
  · exact substring_eq (SLASH :: (N ++ [DOT])) E []
      (by simp only [List.cons_append, List.append_assoc, List.append_nil, List.nil_append])
      (by simp only [List.length_cons, List.length_append, List.length_nil]; omega)
      (by simp only [List.length_cons, List.length_append, List.length_nil]; omega)

theorem count_slash_noslash (l : List Nat) (h : SLASH ∉ l) : l.count SLASH = 0 :=
  List.count_eq_zero.mpr h

theorem slash_count_file (D N E : List Nat) (hD : SLASH ∉ D) (hN : SLASH ∉ N)
    (hE : ∀ c ∈ E, c ≠ SLASH ∧ c ≠ DOT) :
    slash_count (SLASH :: (D ++ SLASH :: (N ++ DOT :: E))) = 2 := by
  have hds : SLASH ≠ DOT := by decide
  simp [slash_count, List.count_cons, count_slash_noslash _ hD, count_slash_noslash _ hN,
    slash_count_plain _ hE, hds.symm]

theorem slash_count_rootfile (N E : List Nat) (hN : SLASH ∉ N)
    (hE : ∀ c ∈ E, c ≠ SLASH ∧ c ≠ DOT) :
    slash_count (SLASH :: (N ++ DOT :: E)) = 1 := by
  have hds : SLASH ≠ DOT := by decide
  simp [slash_count, List.count_cons, count_slash_noslash _ hN,
    slash_count_plain _ hE, hds.symm]

theorem findDir_absent (d : Image) (name : List Nat)
    (hroot : nDirectories d ≤ MAX_DIRS_IN_ROOT)
    (habs : ∀ i, i < (nDirectories d).toNat → strEq d (dnameAddr i) name = false) :
    findDir d name = none := by
  unfold findDir firstIndex
  rw [firstFrom_eq_none]
  intro i _ h2
  have hi : i < (nDirectories d).toNat := by omega
  have hb : dirInBounds i = true := by
    have : (nDirectories d).toNat ≤ 29 := by
      have e : (MAX_DIRS_IN_ROOT : Int) = 29 := by decide
      rw [e] at hroot; omega
    simp only [dirInBounds, dirAddr, SIZEOF_INT, SIZEOF_DIRECTORY, MAX_FILENAME, SIZEOF_LONG,
      SIZE_OF_DISK, decide_eq_true_eq]
    omega
  simp [hb, habs i hi]

theorem mknod_absent (d : Image) (path : List Nat) (junk pinfo : PathInfo)
    (hp : get_path_info_for_mknod path junk = some (0, pinfo))
    (hroot : nDirectories d ≤ MAX_DIRS_IN_ROOT)
    (habs : ∀ i, i < (nDirectories d).toNat → strEq d (dnameAddr i) pinfo.dir_name = false) :
    cs1550_mknod path junk d = some (-EPERM, d) := by
  unfold cs1550_mknod
  rw [hp]
  simp only
  by_cases hr : path = [SLASH]
  · simp [hr, EPERM]
  · simp only [hr, if_false, ne_eq, not_true_eq_false]
    simp only [lookupDir, findDir_absent d _ hroot habs]

/-! ## Offsets as numbers -/

theorem dnameAddr_eq (i : Nat) : dnameAddr i = 4 + 17 * i := by
  simp [dnameAddr, dirAddr, SIZEOF_INT, SIZEOF_DIRECTORY, MAX_FILENAME, SIZEOF_LONG]

theorem dstartAddr_eq (i : Nat) : dstartAddr i = 13 + 17 * i := by
  simp [dstartAddr, dirAddr, SIZEOF_INT, SIZEOF_DIRECTORY, MAX_FILENAME, SIZEOF_LONG]
  omega

theorem nFilesAddr_eq (b : Nat) : nFilesAddr b = 512 * b := by
  simp [nFilesAddr, blockAddr, BLOCK_SIZE]

theorem fnameAddr_eq (b m : Nat) : fnameAddr b m = 512 * b + 4 + 29 * m := by
  simp [fnameAddr, fileAddr, blockAddr, BLOCK_SIZE, SIZEOF_INT, SIZEOF_FILE_DIRECTORY,
    MAX_FILENAME, MAX_EXTENSION, SIZEOF_SIZE_T, SIZEOF_LONG]

theorem fextAddr_eq (b m : Nat) : fextAddr b m = 512 * b + 13 + 29 * m := by
  simp [fextAddr, fileAddr, blockAddr, BLOCK_SIZE, SIZEOF_INT, SIZEOF_FILE_DIRECTORY,
    MAX_FILENAME, MAX_EXTENSION, SIZEOF_SIZE_T, SIZEOF_LONG]
  omega

theorem fsizeAddr_eq (b m : Nat) : fsizeAddr b m = 512 * b + 17 + 29 * m := by
  simp [fsizeAddr, fileAddr, blockAddr, BLOCK_SIZE, SIZEOF_INT, SIZEOF_FILE_DIRECTORY,
    MAX_FILENAME, MAX_EXTENSION, SIZEOF_SIZE_T, SIZEOF_LONG]
  omega

theorem fstartAddr_eq (b m : Nat) : fstartAddr b m = 512 * b + 25 + 29 * m := by
  simp [fstartAddr, fileAddr, blockAddr, BLOCK_SIZE, SIZEOF_INT, SIZEOF_FILE_DIRECTORY,
    MAX_FILENAME, MAX_EXTENSION, SIZEOF_SIZE_T, SIZEOF_LONG]
  omega

theorem BITMAP_OFFSET_eq : BITMAP_OFFSET = 4587520 := by decide

theorem dirInBounds_iff (i : Nat) : dirInBounds i = true ↔ 21 + 17 * i ≤ 5242880 := by
  simp [dirInBounds, dirAddr, SIZEOF_INT, SIZEOF_DIRECTORY, MAX_FILENAME, SIZEOF_LONG,
    SIZE_OF_DISK]
  omega

theorem blockInBounds_iff (b : Nat) : blockInBounds b = true ↔ 512 * b + 4 ≤ 5242880 := by
  simp [blockInBounds, blockAddr, BLOCK_SIZE, SIZEOF_INT, SIZE_OF_DISK]

theorem fileInBounds_iff (b m : Nat) :
    fileInBounds b m = true ↔ 512 * b + 33 + 29 * m ≤ 5242880 := by
  simp [fileInBounds, fileAddr, blockAddr, BLOCK_SIZE, SIZEOF_INT, SIZEOF_FILE_DIRECTORY,
    MAX_FILENAME, MAX_EXTENSION, SIZEOF_SIZE_T, SIZEOF_LONG, SIZE_OF_DISK]
  omega

theorem startAssert_iff (s : Int) (h : 0 ≤ s) (h2 : s < 2 ^ 63) :
    startAssert s = true ↔ s < 4587520 := by
  have hu : toUnsigned 64 s = s.toNat := by
    unfold toUnsigned
    congr 1
    apply Int.emod_eq_of_lt h
    push_cast
    omega
  simp only [startAssert, hu, BLOCK_SIZE, NUMBER_OF_BLOCKS, SIZE_OF_DISK, BIT_MAP_SIZE,
    decide_eq_true_eq]
  omega

theorem mkdir_code_of_scan (path : List Nat) (d : Image)
    (h : mkdir_scan path.reverse 0 0 ≠ 0) :
    cs1550_mkdir path d = some (mkdir_scan path.reverse 0 0, d) := by
  unfold cs1550_mkdir
  simp only [h, ne_eq, not_false_eq_true, if_true]

theorem mkdir_code_cases (path : List Nat) (d : Image) (r : Int × Image)
    (h : cs1550_mkdir path d = some r) :
    r.1 = mkdir_scan path.reverse 0 0 ∨ r.1 = -EPERM ∨ r.1 = -EEXIST ∨ r.1 = 0 := by
  unfold cs1550_mkdir at h
  simp only at h
  split at h
  · left; cases h; rfl
  · split at h
    · cases h
    · split at h
      · split at h
        · cases h
        · split at h
          · cases h; right; left; rfl
          · cases h; right; right; left; rfl
      · split at h
        · cases h; right; left; rfl
        · split at h
          · cases h
          · split at h
            · cases h
            · cases h; right; right; right; rfl

/-- C10: for every image and every name of more than 8 characters without '/',
`createDirectory("/" + name)` returns `-ENAMETOOLONG` and leaves the image unchanged; for a
name of at most 8 characters the call never returns `-ENAMETOOLONG`. -/
theorem C10_mkdir_name_too_long (d : Image) (name : List Nat) :
    (SLASH ∉ name → 8 < name.length →
      cs1550_mkdir (SLASH :: name) d = some (-ENAMETOOLONG, d)) ∧
    (name.length ≤ 8 → codeOf (cs1550_mkdir (SLASH :: name) d) ≠ some (-ENAMETOOLONG)) := by
  constructor
  · intro hs hl
    have h := mkdir_scan_long_name name hs hl
    rw [mkdir_code_of_scan _ _ (by rw [h]; decide), h]
  · intro hl hc
    have hscan : mkdir_scan (SLASH :: name).reverse 0 0 ≠ -ENAMETOOLONG :=
      mkdir_scan_not_too_long _ 0 0 (by simp; omega)
    cases hr : cs1550_mkdir (SLASH :: name) d with
    | none => rw [hr] at hc; simp [codeOf] at hc
    | some r =>
      rw [hr] at hc
      simp only [codeOf, Option.map_some', Option.some.injEq] at hc
      rcases mkdir_code_cases _ _ _ hr with h | h | h | h
      · exact hscan (h ▸ hc)
      · rw [h] at hc; exact absurd hc (by decide)
      · rw [h] at hc; exact absurd hc (by decide)
      · rw [h] at hc; exact absurd hc (by decide)

/-- C10 at `/toolongname` (rejected) and `/docs` (not rejected) on the fresh image. -/
theorem C10_witness :
    cs1550_mkdir (ascii ("/toolongname")) fresh = some (-ENAMETOOLONG, fresh) ∧
    codeOf (cs1550_mkdir (ascii ("/docs")) fresh) ≠ some (-ENAMETOOLONG) :=
  ⟨(C10_mkdir_name_too_long fresh (ascii ("toolongname"))).1 (by decide) (by decide),
   (C10_mkdir_name_too_long fresh (ascii ("docs"))).2 (by decide)⟩

/-- C7: when the path resolves to a file entry whose start locator is set, and
`offset + size` exceeds the recorded size (offset non-negative, sum within `size_t`),
`write` returns `-EFBIG` and leaves the image unchanged. -/
theorem C7_write_beyond_size (d : Image) (path : List Nat) (junk pinfo : PathInfo)
    (buf : Buffer) (size : Nat) (offset : Int) (b m : Nat)
    (hp : get_path_info path junk = some pinfo)
    (hl : lookupFile d pinfo = Found.found (b, m))
    (hs : fileStart d b m ≠ 0) (ho : 0 ≤ offset)
    (hsum : offset + size > fsize d b m) (hfit : offset + size < 2 ^ 64) :
    cs1550_write path junk buf size offset d = some (-EFBIG, d) := by
  unfold cs1550_write
  rw [hp]
  simp only [hl, write_allocate, hs, if_false]
  have hu : toUnsigned 64 offset = offset.toNat := by
    unfold toUnsigned
    congr 1
    apply Int.emod_eq_of_lt ho
    push_cast
    have : (0 : Int) ≤ size := Int.ofNat_nonneg _
    omega
  have hlt : offset.toNat + size < 2 ^ 64 := by omega
  rw [hu, Nat.mod_eq_of_lt hlt, if_pos (by omega)]

/-- C7 on `sampleImage`: 5 bytes at offset 3 of the 5-byte file `/d/a.t`. -/
theorem C7_witness :
    fileStart sampleImage 511 0 = 1023 ∧ fsize sampleImage 511 0 = 5 ∧
    cs1550_write (ascii ("/d/a.t")) noJunk (fun _ => 120) 5 3 sampleImage =
      some (-EFBIG, sampleImage) :=
  ⟨by decide, by decide,
   C7_write_beyond_size sampleImage (ascii ("/d/a.t")) noJunk
    { dir_name := [100], full_file_name := [97, 46, 116], file_name := [97],
      extension_name := [116] }
    (fun _ => 120) 5 3 511 0 (by decide) (by decide) (by decide) (by decide) (by decide)
    (by decide)⟩

theorem mknod_info_ok (path : List Nat) (junk pinfo : PathInfo)
    (hp : get_path_info path junk = some pinfo) (h1 : pinfo.file_name.length ≤ 8)
    (h2 : pinfo.extension_name.length ≤ 3) (h3 : pinfo.dir_name.length ≤ 8)
    (h4 : slash_count path ≤ 2) : get_path_info_for_mknod path junk = some (0, pinfo) := by
  unfold get_path_info_for_mknod
  rw [hp]
  simp only
  rw [if_neg (by omega), if_neg (by omega), if_neg (by omega)]

theorem mknod_root (junk : PathInfo) (d : Image) :
    cs1550_mknod [SLASH] junk d = some (-EPERM, d) := by
  have hp : get_path_info [SLASH] junk =
      some { dir_name := [], full_file_name := [], file_name := [], extension_name := [] } :=
    get_path_info_dir [] junk (by simp)
  unfold cs1550_mknod get_path_info_for_mknod
  rw [hp]
  simp [EPERM]

/-- C8 (amended): `createFile` returns `-EPERM` and leaves the image unchanged for the root
path, for every path `/D/N.E` within the 8.3 limits whose directory `D` names no root
entry, and for a path `/N.E` directly under the root when the directory buffer, which the
resolver leaves unset on such a path, holds a name `D` that names no root entry. -/
theorem C8_mknod_requires_parent (d : Image) (junk : PathInfo) (D N E : List Nat)
    (hD : SLASH ∉ D) (hN : SLASH ∉ N) (hE : ∀ c ∈ E, c ≠ SLASH ∧ c ≠ DOT)
    (hlD : D.length ≤ 8) (hlN : N.length ≤ 8) (hlE : E.length ≤ 3)
    (hroot : nDirectories d ≤ MAX_DIRS_IN_ROOT)
    (habs : ∀ i, i < (nDirectories d).toNat → strEq d (dnameAddr i) D = false) :
    cs1550_mknod [SLASH] junk d = some (-EPERM, d) ∧
    cs1550_mknod (SLASH :: (D ++ SLASH :: (N ++ DOT :: E))) junk d = some (-EPERM, d) ∧
    (junk.dir_name = D →
      cs1550_mknod (SLASH :: (N ++ DOT :: E)) junk d = some (-EPERM, d)) := by
  refine ⟨mknod_root junk d, ?_, ?_⟩
  · exact mknod_absent d _ junk _
      (mknod_info_ok _ _ _ (get_path_info_file D N E junk hD hN hE) hlN hlE hlD
        (by rw [slash_count_file D N E hD hN hE]))
      hroot habs
  · intro hj
    exact mknod_absent d _ junk _
      (mknod_info_ok _ _ _ (get_path_info_rootfile N E junk hN hE) hlN hlE
        (by rw [hj]; exact hlD) (by rw [slash_count_rootfile N E hN hE]; decide))
      hroot (by rw [hj]; exact habs)

/-- C8 on `sampleImage`, whose only directory is `d`, for the absent directory `x`. -/
theorem C8_witness :
    cs1550_mknod [SLASH]
      { dir_name := [120], full_file_name := [], file_name := [], extension_name := [] }
      sampleImage = some (-EPERM, sampleImage) ∧
    cs1550_mknod (SLASH :: ([120] ++ SLASH :: ([97] ++ DOT :: [116])))
      { dir_name := [120], full_file_name := [], file_name := [], extension_name := [] }
      sampleImage = some (-EPERM, sampleImage) ∧
    cs1550_mknod (SLASH :: ([97] ++ DOT :: [116]))
      { dir_name := [120], full_file_name := [], file_name := [], extension_name := [] }
      sampleImage = some (-EPERM, sampleImage) :=
  ⟨(C8_mknod_requires_parent sampleImage
      { dir_name := [120], full_file_name := [], file_name := [], extension_name := [] }
      [120] [97] [116] (by decide) (by decide) (by decide) (by decide) (by decide)
      (by decide) (by decide) (by decide)).1,
   (C8_mknod_requires_parent sampleImage
      { dir_name := [120], full_file_name := [], file_name := [], extension_name := [] }
      [120] [97] [116] (by decide) (by decide) (by decide) (by decide) (by decide)
      (by decide) (by decide) (by decide)).2.1,
   (C8_mknod_requires_parent sampleImage
      { dir_name := [120], full_file_name := [], file_name := [], extension_name := [] }
      [120] [97] [116] (by decide) (by decide) (by decide) (by decide) (by decide)
      (by decide) (by decide) (by decide)).2.2 rfl⟩

theorem mkdir_success_inv (path : List Nat) (d d' : Image)
    (h : cs1550_mkdir path d = some (0, d')) :
    mkdir_scan path.reverse 0 0 = 0 ∧ path.length - 1 ≤ 8 ∧
    findDir d (path.drop 1) = none ∧ nDirectories d ≠ MAX_DIRS_IN_ROOT ∧
    0 ≤ nDirectories d ∧ mkdir_create d (nDirectories d).toNat (path.drop 1) = some d' := by
  unfold cs1550_mkdir at h
  simp only at h
  split at h
  · rename_i h1
    simp only [Option.some.injEq, Prod.mk.injEq] at h
    exact absurd h.1 h1
  · rename_i h1
    split at h
    · cases h
    · rename_i h2
      split at h
      · split at h
        · cases h
        · split at h
          · simp [EPERM] at h
          · simp [EEXIST] at h
      · rename_i h3
        split at h
        · simp [EPERM] at h
        · rename_i h4
          split at h
          · cases h
          · rename_i h5
            split at h
            · cases h
            · rename_i d5 h6
              simp only [Option.some.injEq, Prod.mk.injEq, true_and] at h
              subst h
              refine ⟨by simpa using h1, by omega, h3, h4, by omega, h6⟩

theorem rdInt_range (d : Image) (a : Nat) : -2147483648 ≤ rdInt d a ∧ rdInt d a < 2147483648 := by
  unfold rdInt toSigned
  have := rdLE_lt d a 4
  norm_num at this ⊢
  split_ifs <;> omega

theorem wrInt_outside {d : Image} {a x : Nat} {v : Int} (h : x < a ∨ a + 4 ≤ x) :
    wrInt d a v x = d x := by
  unfold wrInt
  rw [wrLE_apply, if_neg (by omega)]

theorem wrLong_outside {d : Image} {a x : Nat} {v : Int} (h : x < a ∨ a + 8 ≤ x) :
    wrLong d a v x = d x := by
  unfold wrLong
  rw [wrLE_apply, if_neg (by omega)]

theorem wrSize_outside {d : Image} {a x v : Nat} (h : x < a ∨ a + 8 ≤ x) :
    wrSize d a v x = d x := by
  unfold wrSize
  rw [wrLE_apply, if_neg (by omega)]

theorem strcpy_outside {d : Image} {a x : Nat} {s : List Nat} (h : x < a ∨ a + s.length < x) :
    strcpy d a s x = d x := by
  rcases h with h | h
  · exact strcpy_of_lt h
  · exact strcpy_of_gt h

theorem nDirectories_congr {d e : Image} (h : ∀ x, x < 4 → d x = e x) :
    nDirectories d = nDirectories e := by
  unfold nDirectories rdInt
  rw [rdLE_congr 4 (fun x _ h2 => h x (by simp only [nDirectoriesAddr] at h2; omega))]

theorem dirStart_congr {d e : Image} {i : Nat}
    (h : ∀ x, 13 + 17 * i ≤ x → x < 21 + 17 * i → d x = e x) :
    dirStart d i = dirStart e i := by
  unfold dirStart rdLong
  rw [rdLE_congr 8 (fun x h1 h2 => h x (by rw [dstartAddr_eq] at h1; omega)
    (by rw [dstartAddr_eq] at h2; omega))]

theorem findDir_none_strEq (d : Image) (name : List Nat) (h : findDir d name = none)
    (i : Nat) (hi : i < (nDirectories d).toNat) : strEq d (dnameAddr i) name = false := by
  unfold findDir firstIndex at h
  rw [firstFrom_eq_none] at h
  have := h i (Nat.zero_le _) (by omega)
  simp only [Bool.or_eq_false_iff] at this
  exact this.2

theorem startAssert_of_range (s : Int) (h1 : 0 ≤ s) (h2 : s < 4587520) :
    startAssert s = true :=
  (startAssert_iff s h1 (by omega)).mpr h2

theorem nFiles_congr {d e : Image} {b : Nat}
    (h : ∀ x, 512 * b ≤ x → x < 512 * b + 4 → d x = e x) : nFiles d b = nFiles e b := by
  unfold nFiles rdInt
  rw [rdLE_congr 4 (fun x h1 h2 => h x (by rw [nFilesAddr_eq] at h1; omega)
    (by rw [nFilesAddr_eq] at h2; omega))]

theorem fsize_congr {d e : Image} {b m : Nat}
    (h : ∀ x, 512 * b + 17 + 29 * m ≤ x → x < 512 * b + 25 + 29 * m → d x = e x) :
    fsize d b m = fsize e b m := by
  unfold fsize rdSize
  rw [rdLE_congr 8 (fun x h1 h2 => h x (by rw [fsizeAddr_eq] at h1; omega)
    (by rw [fsizeAddr_eq] at h2; omega))]

theorem fileStart_congr {d e : Image} {b m : Nat}
    (h : ∀ x, 512 * b + 25 + 29 * m ≤ x → x < 512 * b + 33 + 29 * m → d x = e x) :
    fileStart d b m = fileStart e b m := by
  unfold fileStart rdLong
  rw [rdLE_congr 8 (fun x h1 h2 => h x (by rw [fstartAddr_eq] at h1; omega)
    (by rw [fstartAddr_eq] at h2; omega))]

theorem findFile_congr {d e : Image} (b : Nat) (fn ext : List Nat) (hfn : fn.length ≤ 8)
    (hext : ext.length ≤ 3)
    (hc : nFiles d b = nFiles e b)
    (h : ∀ x, 512 * b + 4 ≤ x → x < 512 * b + 4 + 29 * (nFiles e b).toNat → d x = e x) :
    findFile d b fn ext = findFile e b fn ext := by
  unfold findFile firstIndex
  rw [hc]
  apply firstFrom_congr
  intro m _ hm
  rw [strEq_congr fn (fun x h1 h2 => h x (by rw [fnameAddr_eq] at h1; omega)
      (by rw [fnameAddr_eq] at h2; omega)),
    strEq_congr ext (fun x h1 h2 => h x (by rw [fextAddr_eq] at h1; omega)
      (by rw [fextAddr_eq] at h2; omega))]

theorem lookupDir_found_inv (d : Image) (name : List Nat) (b : Nat)
    (h : lookupDir d name = Found.found b) :
    ∃ i, findDir d name = some i ∧ i < (nDirectories d).toNat ∧
      startAssert (dirStart d i) = true ∧ blockInBounds b = true ∧
      b = (dirStart d i).toNat := by
  unfold lookupDir at h
  cases hf : findDir d name with
  | none => rw [hf] at h; cases h
  | some i =>
    rw [hf] at h
    simp only at h
    have hi : i < (nDirectories d).toNat := by
      unfold findDir firstIndex at hf
      rw [firstFrom_eq_some] at hf
      omega
    split at h
    · cases h
    · rename_i h1
      split at h
      · cases h
      · rename_i h2
        simp only [Found.found.injEq] at h
        refine ⟨i, rfl, hi, ?_, ?_, h.symm⟩
        · simp only [Bool.or_eq_true, Bool.not_eq_true', not_or, Bool.not_eq_false] at h1
          exact h1.2
        · rw [← h]; simpa using h2

theorem mknod_info_inv (path : List Nat) (junk pinfo : PathInfo)
    (h : get_path_info_for_mknod path junk = some (0, pinfo)) :
    get_path_info path junk = some pinfo ∧ pinfo.file_name.length ≤ 8 ∧
    pinfo.extension_name.length ≤ 3 ∧ pinfo.dir_name.length ≤ 8 ∧ slash_count path ≤ 2 := by
  unfold get_path_info_for_mknod at h
  cases hp : get_path_info path junk with
  | none => rw [hp] at h; cases h
  | some p =>
    rw [hp] at h
    simp only [Option.some.injEq, Prod.mk.injEq] at h
    obtain ⟨h1, h2⟩ := h
    subst h2
    by_cases hs : slash_count path > 2
    · rw [if_pos hs] at h1; simp [EPERM] at h1
    · rw [if_neg hs] at h1
      by_cases ha : p.file_name.length > 8 ∨ p.extension_name.length > 3
      · rw [if_pos ha] at h1; simp [ENAMETOOLONG] at h1
      · rw [if_neg ha] at h1
        by_cases hb : p.dir_name.length > 8
        · rw [if_pos hb] at h1; simp [ENAMETOOLONG] at h1
        · exact ⟨rfl, by omega, by omega, by omega, by omega⟩

theorem mknod_success_inv (path : List Nat) (junk : PathInfo) (d d' : Image)
    (h : cs1550_mknod path junk d = some (0, d')) :
    ∃ pinfo b, get_path_info_for_mknod path junk = some (0, pinfo) ∧
      lookupDir d pinfo.dir_name = Found.found b ∧
      nFiles d b ≠ MAX_FILES_IN_DIR ∧
      findFile d b pinfo.file_name pinfo.extension_name = none ∧
      fileInBounds b (nFiles d b).toNat = true ∧
      d' = mknod_create d b (nFiles d b).toNat pinfo := by
  unfold cs1550_mknod at h
  cases hp : get_path_info_for_mknod path junk with
  | none => rw [hp] at h; cases h
  | some rp =>
    obtain ⟨r0, pinfo⟩ := rp
    rw [hp] at h
    simp only at h
    by_cases hr : path = [SLASH]
    · rw [if_pos hr, if_pos (by decide)] at h
      simp only [Option.some.injEq, Prod.mk.injEq] at h
      exact absurd h.1 (by decide)
    · rw [if_neg hr] at h
      by_cases h0 : r0 ≠ 0
      · rw [if_pos h0] at h
        simp only [Option.some.injEq, Prod.mk.injEq] at h
        exact absurd h.1 h0
      · rw [if_neg h0] at h
        have hr0 : r0 = 0 := by simpa using h0
        subst hr0
        cases hl : lookupDir d pinfo.dir_name with
        | fault => rw [hl] at h; cases h
        | absent =>
          rw [hl] at h
          simp only [Option.some.injEq, Prod.mk.injEq] at h
          exact absurd h.1 (by decide)
        | found b =>
          rw [hl] at h
          simp only at h
          by_cases h2 : nFiles d b = MAX_FILES_IN_DIR
          · rw [if_pos h2] at h
            simp only [Option.some.injEq, Prod.mk.injEq] at h
            exact absurd h.1 (by decide)
          · rw [if_neg h2] at h
            cases hf : findFile d b pinfo.file_name pinfo.extension_name with
            | some m =>
              rw [hf] at h
              simp only at h
              by_cases h3 : (!fileInBounds b m) = true
              · rw [if_pos h3] at h; cases h
              · rw [if_neg h3] at h
                simp only [Option.some.injEq, Prod.mk.injEq] at h
                exact absurd h.1 (by decide)
            | none =>
              rw [hf] at h
              simp only at h
              by_cases h3 : (!fileInBounds b (nFiles d b).toNat) = true
              · rw [if_pos h3] at h; cases h
              · rw [if_neg h3] at h
                simp only [Option.some.injEq, Prod.mk.injEq, true_and] at h
                exact ⟨pinfo, b, rfl, hl, h2, hf, by simpa using h3, h.symm⟩

/-- `mknod_create` stores only into the count of block `b` and into file entry `m`. -/
theorem mknod_create_frame (d : Image) (b m : Nat) (pinfo : PathInfo)
    (hfn : pinfo.file_name.length ≤ 8) (hext : pinfo.extension_name.length ≤ 3) (x : Nat)
    (hx : x < 512 * b ∨ (512 * b + 4 ≤ x ∧ x < 512 * b + 4 + 29 * m) ∨
      512 * b + 33 + 29 * m ≤ x) :
    mknod_create d b m pinfo x = d x := by
  unfold mknod_create
  rw [wrLong_outside (by rw [fstartAddr_eq]; omega),
    wrSize_outside (by rw [fsizeAddr_eq]; omega),
    strcpy_outside (by rw [fextAddr_eq]; omega),
    strcpy_outside (by rw [fnameAddr_eq]; omega),
    wrInt_outside (by rw [nFilesAddr_eq]; omega)]

/-- The entry `mknod_create` appends: count incremented, names stored, size and start
locator zero. -/
theorem mknod_create_entry (d : Image) (b m : Nat) (pinfo : PathInfo)
    (hfn : pinfo.file_name.length ≤ 8) (hext : pinfo.extension_name.length ≤ 3)
    (hcount : nFiles d b < 2147483647) :
    nFiles (mknod_create d b m pinfo) b = nFiles d b + 1 ∧
    strEq (mknod_create d b m pinfo) (fnameAddr b m) pinfo.file_name = true ∧
    strEq (mknod_create d b m pinfo) (fextAddr b m) pinfo.extension_name = true ∧
    fsize (mknod_create d b m pinfo) b m = 0 ∧
    fileStart (mknod_create d b m pinfo) b m = 0 := by
  refine ⟨?_, ?_, ?_, ?_, ?_⟩
  · have hr := rdInt_range d (nFilesAddr b)
    have e : nFiles d b = rdInt d (nFilesAddr b) := rfl
    have hc : nFiles (mknod_create d b m pinfo) b =
        nFiles (wrInt d (nFilesAddr b) (nFiles d b + 1)) b := by
      apply nFiles_congr
      intro x h1 h2
      unfold mknod_create
      rw [wrLong_outside (by rw [fstartAddr_eq]; omega),
        wrSize_outside (by rw [fsizeAddr_eq]; omega),
        strcpy_outside (by rw [fextAddr_eq]; omega),
        strcpy_outside (by rw [fnameAddr_eq]; omega)]
    rw [hc]
    exact rdInt_wrInt_same _ _ _ (by omega) (by omega)
  · have hc : strEq (mknod_create d b m pinfo) (fnameAddr b m) pinfo.file_name =
        strEq (strcpy (wrInt d (nFilesAddr b) (nFiles d b + 1)) (fnameAddr b m)
          pinfo.file_name) (fnameAddr b m) pinfo.file_name := by
      apply strEq_congr
      intro x h1 h2
      rw [fnameAddr_eq] at h1 h2
      unfold mknod_create
      rw [wrLong_outside (by rw [fstartAddr_eq]; omega),
        wrSize_outside (by rw [fsizeAddr_eq]; omega),
        strcpy_outside (by rw [fextAddr_eq]; omega)]
    rw [hc]
    exact strEq_strcpy_same _ _ _
  · have hc : strEq (mknod_create d b m pinfo) (fextAddr b m) pinfo.extension_name =
        strEq (strcpy (strcpy (wrInt d (nFilesAddr b) (nFiles d b + 1)) (fnameAddr b m)
          pinfo.file_name) (fextAddr b m) pinfo.extension_name) (fextAddr b m)
          pinfo.extension_name := by
      apply strEq_congr
      intro x h1 h2
      rw [fextAddr_eq] at h1 h2
      unfold mknod_create
      rw [wrLong_outside (by rw [fstartAddr_eq]; omega),
        wrSize_outside (by rw [fsizeAddr_eq]; omega)]
    rw [hc]
    exact strEq_strcpy_same _ _ _
  · have hc : fsize (mknod_create d b m pinfo) b m =
        fsize (wrSize (strcpy (strcpy (wrInt d (nFilesAddr b) (nFiles d b + 1))
          (fnameAddr b m) pinfo.file_name) (fextAddr b m) pinfo.extension_name)
          (fsizeAddr b m) 0) b m := by
      apply fsize_congr
      intro x h1 h2
      unfold mknod_create
      rw [wrLong_outside (by rw [fstartAddr_eq]; omega)]
    rw [hc]
    exact rdSize_wrSize_same _ _ _
  · unfold mknod_create
    exact rdLong_wrLong_same _ _ _ (by omega) (by omega)

theorem mkdir_docs : cs1550_mkdir docsPath fresh = some (0, image1) := by
  unfold cs1550_mkdir
  simp only [mkdir_create_eq_closed]
  rfl

theorem mknod_file : cs1550_mknod filePath noJunk image1 = some (0, image2) := by
  unfold cs1550_mknod
  rfl

set_option maxRecDepth 100000 in
theorem write_hello : cs1550_write filePath noJunk hello 5 0 image2 = some (5, image3) := by
  unfold cs1550_write
  simp only [write_allocate_eq_closed]
  rfl

theorem read_hello :
    cs1550_read filePath noJunk zeroBuf 5 0 image3 = some (5, pread image3 zeroBuf 5 1023) := by
  unfold cs1550_read
  rfl

set_option maxRecDepth 100000 in
theorem write_big :
    cs1550_write filePath noJunk zeroBuf 260613 0 image2 = some (260613, image3big) := by
  unfold cs1550_write
  simp only [write_allocate_eq_closed]
  rfl

/-! ## Handlers do not depend on the unset buffers when the resolver sets all four -/

theorem mknod_junk (path : List Nat) (j1 j2 : PathInfo) (d : Image)
    (h : get_path_info path j1 = get_path_info path j2) :
    cs1550_mknod path j1 d = cs1550_mknod path j2 d := by
  unfold cs1550_mknod get_path_info_for_mknod
  rw [h]

theorem write_junk (path : List Nat) (j1 j2 : PathInfo) (buf : Buffer) (size : Nat)
    (offset : Int) (d : Image) (h : get_path_info path j1 = get_path_info path j2) :
    cs1550_write path j1 buf size offset d = cs1550_write path j2 buf size offset d := by
  unfold cs1550_write
  rw [h]

theorem read_junk (path : List Nat) (j1 j2 : PathInfo) (buf : Buffer) (size : Nat)
    (offset : Int) (d : Image) (h : get_path_info path j1 = get_path_info path j2) :
    cs1550_read path j1 buf size offset d = cs1550_read path j2 buf size offset d := by
  unfold cs1550_read
  rw [h]

theorem getattr_junk (path : List Nat) (j1 j2 : PathInfo) (d : Image)
    (h : get_path_info path j1 = get_path_info path j2) :
    cs1550_getattr path j1 d = cs1550_getattr path j2 d := by
  unfold cs1550_getattr
  rw [h]

theorem filePath_info (j : PathInfo) : get_path_info filePath j = some fileInfo :=
  get_path_info_file (ascii ("docs")) (ascii ("a")) (ascii ("txt")) j
    (by decide) (by decide) (by decide)

/-! ## Scenarios -/

/-- C2: on the fresh image `createDirectory("/docs")` returns success, then
`createFile("/docs/a.txt")` returns success, then `write("/docs/a.txt", "hello", 5, 0)`
returns 5, then `read("/docs/a.txt", 5, 0)` returns 5 and the bytes `hello`, whatever the
unset buffers of the resolver hold. -/
theorem C2_scenario (j1 j2 j3 : PathInfo) :
    cs1550_mkdir docsPath fresh = some (0, image1) ∧
    cs1550_mknod filePath j1 image1 = some (0, image2) ∧
    cs1550_write filePath j2 hello 5 0 image2 = some (5, image3) ∧
    cs1550_read filePath j3 zeroBuf 5 0 image3 = some (5, pread image3 zeroBuf 5 1023) ∧
    bytesOf (pread image3 zeroBuf 5 1023) 5 = ascii ("hello") := by
  refine ⟨mkdir_docs, ?_, ?_, ?_, by decide⟩
  · rw [mknod_junk filePath j1 noJunk image1 (by rw [filePath_info, filePath_info])]
    exact mknod_file
  · rw [write_junk filePath j2 noJunk hello 5 0 image2 (by rw [filePath_info, filePath_info])]
    exact write_hello
  · rw [read_junk filePath j3 noJunk zeroBuf 5 0 image3 (by rw [filePath_info, filePath_info])]
    exact read_hello

/-- C1 (failing input): after `createDirectory("/docs")` and `createFile("/docs/a.txt")`
on the fresh image the file has never been written; writing 260613 zero bytes at offset 0
returns 260613, and the following `read` returns 0 and no data, because the data written
from offset 1023 on covers the file count of the directory record in block 511. -/
theorem C1_round_trip_fails :
    cs1550_mkdir docsPath fresh = some (0, image1) ∧
    cs1550_mknod filePath noJunk image1 = some (0, image2) ∧
    lookupFile image2 fileInfo = Found.found (511, 0) ∧
    fileStart image2 511 0 = 0 ∧ fsize image2 511 0 = 0 ∧
    cs1550_write filePath noJunk zeroBuf 260613 0 image2 = some (260613, image3big) ∧
    nFiles image3big 511 = 0 ∧
    cs1550_read filePath noJunk zeroBuf 260613 0 image3big = some (0, zeroBuf) := by
  refine ⟨mkdir_docs, mknod_file, by decide, by decide, by decide, write_big, by decide, ?_⟩
  unfold cs1550_read
  rfl

/-- C5 (failing input): after the scenario write of 5 bytes the entry of `/docs/a.txt`
records size 5, and `getAttributes` reports a regular file of size 0. -/
theorem C5_getattr_reports_zero_size :
    cs1550_write filePath noJunk hello 5 0 image2 = some (5, image3) ∧
    lookupFile image3 fileInfo = Found.found (511, 0) ∧ fsize image3 511 0 = 5 ∧
    cs1550_getattr filePath noJunk image3 =
      some (0, { st_mode := S_IFREG_0666, st_nlink := 1, st_size := 0 }) :=
  ⟨write_hello, by decide, by decide, by decide⟩

/-- C6 (failing input): on a well-formed image with 28 directories
`createDirectory("/new")` succeeds and fills the root; the second
`createDirectory("/new")` returns `-EPERM`, not `-EEXIST`, and leaves the image
unchanged. -/
theorem C6_second_mkdir_at_capacity :
    ValidImage root28 ∧
    cs1550_mkdir (SLASH :: ascii ("new")) root28 = some (0, root29) ∧
    nDirectories root29 = 29 ∧ findDir root29 (ascii ("new")) = some 28 ∧
    cs1550_mkdir (SLASH :: ascii ("new")) root29 = some (-EPERM, root29) := by
  refine ⟨by decide, ?_, by decide, by decide, ?_⟩
  · unfold cs1550_mkdir
    simp only [mkdir_create_eq_closed]
    rfl
  · unfold cs1550_mkdir
    rfl

/-- C9 (failing input): in a directory that already holds 17 files, `createFile` on the
existing file `/d/a.t` returns `-EPERM`, not `-EEXIST`, and leaves the image unchanged. -/
theorem C9_mknod_existing_in_full_directory :
    ValidImage fullDir ∧
    lookupFile fullDir
      { dir_name := ascii ("d"), full_file_name := ascii ("a.t"), file_name := ascii ("a"),
        extension_name := ascii ("t") } = Found.found (511, 0) ∧
    nFiles fullDir 511 = 17 ∧
    cs1550_mknod (ascii ("/d/a.t")) noJunk fullDir = some (-EPERM, fullDir) := by
  refine ⟨by decide, by decide, by decide, ?_⟩
  unfold cs1550_mknod
  rfl

/-- C8 fails directly under the root and below an absent directory:
`createFile("/toolongname.txt")` returns `-ENAMETOOLONG`, and `createFile("/x/docs")`
returns success when `docs` exists. -/
theorem C8_counterexample :
    cs1550_mknod (ascii ("/toolongname.txt")) noJunk fresh = some (-ENAMETOOLONG, fresh) ∧
    cs1550_mknod (ascii ("/x/docs")) noJunk image1 = some (0, imageNameless) := by
  constructor
  · unfold cs1550_mknod
    rfl
  · unfold cs1550_mknod
    rfl

theorem get_free_block_loop_spec (d : Image) (fuel i : Nat) :
    (get_free_block_loop d fuel i < i + fuel →
      bitmapBit d (get_free_block_loop d fuel i) = false) ∧
    (∀ j, i ≤ j → j < get_free_block_loop d fuel i → bitmapBit d j = true) := by
  induction fuel generalizing i with
  | zero =>
    simp only [get_free_block_loop]
    exact ⟨fun h => by omega, fun j h1 h2 => by omega⟩
  | succ n ih =>
    simp only [get_free_block_loop]
    by_cases hb : bitmapBit d i = false
    · rw [if_pos hb]
      exact ⟨fun _ => hb, fun j h1 h2 => by omega⟩
    · rw [if_neg hb]
      obtain ⟨h1, h2⟩ := ih (i + 1)
      refine ⟨fun h => h1 (by omega), fun j hj1 hj2 => ?_⟩
      by_cases e : j = i
      · subst e; simpa using hb
      · exact h2 j (by omega) hj2

theorem get_free_block_loop_full (d : Image) (fuel i : Nat)
    (h : ∀ j, i ≤ j → j < i + fuel → bitmapBit d j = true) :
    get_free_block_loop d fuel i = i + fuel := by
  induction fuel generalizing i with
  | zero => simp [get_free_block_loop]
  | succ n ih =>
    simp only [get_free_block_loop]
    rw [if_neg (by rw [h i (Nat.le_refl _) (by omega)]; decide),
      ih (i + 1) (fun j h1 h2 => h j (by omega) (by omega))]
    omega

theorem get_free_block_loop_first (d : Image) (fuel i r : Nat) (hr1 : i ≤ r) (hr2 : r < i + fuel)
    (hset : ∀ j, i ≤ j → j < r → bitmapBit d j = true) (hclear : bitmapBit d r = false) :
    get_free_block_loop d fuel i = r := by
  induction fuel generalizing i with
  | zero => omega
  | succ n ih =>
    simp only [get_free_block_loop]
    by_cases e : i = r
    · subst e; rw [if_pos hclear]
    · rw [if_neg (by rw [hset i (Nat.le_refl _) (by omega)]; decide)]
      exact ih (i + 1) (by omega) (by omega) (fun j h1 h2 => hset j (by omega) h2)

theorem SCAN_START_eq : SCAN_START = 511 := by decide

theorem get_free_block_unfold (d : Image) :
    get_free_block d = get_free_block_loop d (655360 - 511) 511 := rfl

/-- The first clear bit from 511 on is what `get_free_block` returns. -/
theorem get_free_block_eq (d : Image) (r : Nat) (hr1 : 511 ≤ r) (hr2 : r < 655360)
    (hset : ∀ j, 511 ≤ j → j < r → bitmapBit d j = true) (hclear : bitmapBit d r = false) :
    get_free_block d = r := by
  rw [get_free_block_unfold]
  exact get_free_block_loop_first d _ 511 r hr1 (by omega) hset hclear

/-- With every scanned bit set `get_free_block` returns `BIT_MAP_SIZE`. -/
theorem get_free_block_exhausted (d : Image)
    (hset : ∀ j, 511 ≤ j → j < 655360 → bitmapBit d j = true) :
    get_free_block d = 655360 := by
  rw [get_free_block_unfold, get_free_block_loop_full d _ 511 (fun j h1 h2 => hset j h1 (by omega))]

/-- C19: `get_free_block` returns the first clear bit at or after its scan start
`sizeof(struct cs1550_root_directory) - 1`: the result is at most `BIT_MAP_SIZE`; below
`BIT_MAP_SIZE` it is a clear bit and every bit from the scan start up to it is set; with
every scanned bit set it is `BIT_MAP_SIZE`; it is never 0. -/
theorem C19_get_free_block_first_clear (d : Image) :
    BIT_MAP_SIZE = 655360 ∧
    SCAN_START ≤ get_free_block d ∧ get_free_block d ≤ BIT_MAP_SIZE ∧
    (get_free_block d < BIT_MAP_SIZE → bitmapBit d (get_free_block d) = false) ∧
    (∀ j, SCAN_START ≤ j → j < get_free_block d → bitmapBit d j = true) ∧
    ((∀ j, SCAN_START ≤ j → j < BIT_MAP_SIZE → bitmapBit d j = true) →
      get_free_block d = BIT_MAP_SIZE) ∧
    get_free_block d ≠ 0 := by
  have hb := get_free_block_bounds d
  have hspec := get_free_block_loop_spec d (655360 - 511) 511
  rw [← get_free_block_unfold] at hspec
  have e1 : BIT_MAP_SIZE = 655360 := rfl
  rw [SCAN_START_eq, e1]
  refine ⟨rfl, hb.1, hb.2, fun h => hspec.1 (by omega), hspec.2, ?_, by omega⟩
  intro h
  exact get_free_block_exhausted d h

theorem testBit_255 (t : Nat) (h : t < 8) : Nat.testBit 255 t = true := by
  have e : (255 : Nat) = 2 ^ 8 - 1 := by decide
  rw [e, Nat.testBit_two_pow_sub_one]
  simpa using h

theorem allSet_bits (j : Nat) (h : j < 655360) : bitmapBit allSet j = true := by
  unfold bitmapBit allSet
  rw [if_pos (by rw [BITMAP_OFFSET_eq]; omega)]
  exact testBit_255 _ (Nat.mod_lt _ (by decide))

/-- C19 on the fresh image, where the scan stops at once on a clear bit, and on `allSet`,
where every scanned bit is set. -/
theorem C19_witness :
    bitmapBit fresh (get_free_block fresh) = false ∧ get_free_block allSet = BIT_MAP_SIZE :=
  ⟨(C19_get_free_block_first_clear fresh).2.2.2.1 (by decide),
   (C19_get_free_block_first_clear allSet).2.2.2.2.2.1
     (fun j _ h2 => allSet_bits j h2)⟩

/-- C20 (failing input): the root record takes 512 bytes, and on the all-zero bitmap
`get_free_block` returns 511, an index inside that span. -/
theorem C20_root_span_offered :
    SIZEOF_ROOT_DIRECTORY = 512 ∧ get_free_block fresh = 511 ∧
    get_free_block fresh < SIZEOF_ROOT_DIRECTORY := by
  decide

theorem scan_char_inv (path : List Nat) (i c : Nat) (s : ScanState) (h : scanInv s i)
    (h0 : i = 0 → c = SLASH) : scanInv (scan_char path i c s) (i + 1) := by
  obtain ⟨h1, h2, h3⟩ := h
  unfold scan_char
  by_cases hc : c = SLASH
  · rw [if_pos hc]
    exact ⟨h1, fun hf => by simp at hf, fun _ => Nat.lt_succ_self i⟩
  · rw [if_neg hc]
    have hi : 1 ≤ i := by
      rcases Nat.eq_zero_or_pos i with e | e
      · exact absurd (h0 e) hc
      · exact e
    by_cases hd : c = DOT
    · rw [if_pos hd]
      exact ⟨h1, fun _ => h3 hi, fun _ => Nat.lt_succ_of_lt (h3 hi)⟩
    · rw [if_neg hd]
      exact ⟨h1, h2, fun _ => Nat.lt_succ_of_lt (h3 hi)⟩

theorem at_end_inv (path : List Nat) (s : ScanState) (i : Nat) (h : scanInv s i) :
    scanInv (at_end path s) i := by
  obtain ⟨h1, h2, h3⟩ := h
  unfold at_end
  by_cases hd : s.in_dir = true
  · rw [if_pos hd]; exact ⟨h1, h2, h3⟩
  · rw [if_neg hd]
    by_cases hf : s.in_file = true
    · rw [if_pos hf]
      refine ⟨?_, h2, h3⟩
      have := h2 hf
      simp only [h1, Bool.false_or, decide_eq_false_iff_not]
      omega
    · rw [if_neg hf]; exact ⟨h1, h2, h3⟩

theorem loop_inv (path : List Nat) (rest : List Nat) (i : Nat) (s : ScanState)
    (h : scanInv s i) (h0 : i = 0 → ∃ tl, rest = SLASH :: tl) :
    (get_path_info_loop path rest i s).fault = false := by
  induction rest generalizing i s with
  | nil => exact h.1
  | cons c cs ih =>
    simp only [get_path_info_loop]
    apply ih (i + 1)
    · have hc : i = 0 → c = SLASH := by
        intro e
        obtain ⟨tl, htl⟩ := h0 e
        exact (List.cons.inj htl).1
      have hs := scan_char_inv path i c s h hc
      unfold get_path_info_step
      by_cases hl : i = path.length - 1
      · rw [if_pos hl]; exact at_end_inv path _ _ hs
      · rw [if_neg hl]; exact hs
    · intro e; omega

/-- On a path that starts with `'/'` the resolver never takes a negative length. -/
theorem get_path_info_rooted (rest : List Nat) (junk : PathInfo) :
    (get_path_info (SLASH :: rest) junk).isSome = true := by
  unfold get_path_info
  have h := loop_inv (SLASH :: rest) (SLASH :: rest) 0 (get_path_info_init junk)
    ⟨rfl, fun hf => by simp [get_path_info_init] at hf, fun h => by omega⟩
    (fun _ => ⟨rest, rfl⟩)
  simp only [h]
  rfl

theorem mknod_code_of_info (path : List Nat) (junk pinfo : PathInfo) (d : Image) (r : Int)
    (h : get_path_info_for_mknod path junk = some (r, pinfo)) (hr : r ≠ 0)
    (hp : path ≠ [SLASH]) : cs1550_mknod path junk d = some (r, d) := by
  unfold cs1550_mknod
  rw [h]
  simp only [hp, if_false, hr, ne_eq, not_false_eq_true, if_true]

/-- C11: on a path rooted at `'/'` the resolver returns, and the creation-time validation
yields `-EPERM` for more than two `'/'`, else `-ENAMETOOLONG` when the resolved directory
name exceeds 8, the file name 8 or the extension 3 characters, else 0; in the two failing
cases `createFile` returns that code and leaves the image unchanged. -/
theorem C11_mknod_validation (d : Image) (rest : List Nat) (junk pinfo : PathInfo)
    (hp : get_path_info (SLASH :: rest) junk = some pinfo) :
    (get_path_info (SLASH :: rest) junk).isSome = true ∧
    (2 < slash_count (SLASH :: rest) →
      get_path_info_for_mknod (SLASH :: rest) junk = some (-EPERM, pinfo) ∧
      cs1550_mknod (SLASH :: rest) junk d = some (-EPERM, d)) ∧
    (slash_count (SLASH :: rest) ≤ 2 →
      (8 < pinfo.dir_name.length ∨ 8 < pinfo.file_name.length ∨
        3 < pinfo.extension_name.length) →
      get_path_info_for_mknod (SLASH :: rest) junk = some (-ENAMETOOLONG, pinfo) ∧
      cs1550_mknod (SLASH :: rest) junk d = some (-ENAMETOOLONG, d)) ∧
    (slash_count (SLASH :: rest) ≤ 2 → pinfo.dir_name.length ≤ 8 →
      pinfo.file_name.length ≤ 8 → pinfo.extension_name.length ≤ 3 →
      get_path_info_for_mknod (SLASH :: rest) junk = some (0, pinfo)) := by
  refine ⟨get_path_info_rooted rest junk, ?_, ?_, ?_⟩
  · intro hs
    have hinfo : get_path_info_for_mknod (SLASH :: rest) junk = some (-EPERM, pinfo) := by
      unfold get_path_info_for_mknod
      rw [hp]
      simp only [hs, if_true]
    refine ⟨hinfo, mknod_code_of_info _ _ _ d _ hinfo (by decide) ?_⟩
    intro e
    rw [e] at hs
    exact absurd hs (by decide)
  · intro hs hlong
    have hinfo : get_path_info_for_mknod (SLASH :: rest) junk =
        some (-ENAMETOOLONG, pinfo) := by
      unfold get_path_info_for_mknod
      rw [hp]
      simp only
      rw [if_neg (by omega)]
      by_cases h1 : pinfo.file_name.length > 8 ∨ pinfo.extension_name.length > 3
      · rw [if_pos h1]
      · rw [if_neg h1, if_pos (by omega)]
    refine ⟨hinfo, mknod_code_of_info _ _ _ d _ hinfo (by decide) ?_⟩
    intro e
    rw [e, get_path_info_dir [] junk (by simp)] at hp
    simp only [Option.some.injEq] at hp
    subst hp
    simp at hlong
  · intro hs h1 h2 h3
    exact mknod_info_ok _ _ _ hp h2 h3 h1 hs

/-- C11 on `sampleImage`: `/d/averylongname.ext` is too long although `d` exists,
`/x/averylongname.ext` is too long although `x` does not, `/a/b/c.t` nests too deep, and
`/d/a.t` passes. -/
theorem C11_witness :
    cs1550_mknod (SLASH :: ascii ("d/averylongname.ext")) noJunk sampleImage =
      some (-ENAMETOOLONG, sampleImage) ∧
    cs1550_mknod (SLASH :: ascii ("x/averylongname.ext")) noJunk sampleImage =
      some (-ENAMETOOLONG, sampleImage) ∧
    cs1550_mknod (SLASH :: ascii ("a/b/c.t")) noJunk sampleImage = some (-EPERM, sampleImage) ∧
    get_path_info_for_mknod (SLASH :: ascii ("d/a.t")) noJunk =
      some (0, { dir_name := ascii ("d"), full_file_name := ascii ("a.t"),
                 file_name := ascii ("a"), extension_name := ascii ("t") }) :=
  ⟨((C11_mknod_validation sampleImage (ascii ("d/averylongname.ext")) noJunk
      { dir_name := ascii ("d"), full_file_name := ascii ("averylongname.ext"),
        file_name := ascii ("averylongname"), extension_name := ascii ("ext") }
      (by decide)).2.2.1 (by decide) (by decide)).2,
   ((C11_mknod_validation sampleImage (ascii ("x/averylongname.ext")) noJunk
      { dir_name := ascii ("x"), full_file_name := ascii ("averylongname.ext"),
        file_name := ascii ("averylongname"), extension_name := ascii ("ext") }
      (by decide)).2.2.1 (by decide) (by decide)).2,
   ((C11_mknod_validation sampleImage (ascii ("a/b/c.t")) noJunk
      { dir_name := ascii ("a"), full_file_name := ascii ("c.t"),
        file_name := ascii ("c"), extension_name := ascii ("t") }
      (by decide)).2.1 (by decide)).2,
   (C11_mknod_validation sampleImage (ascii ("d/a.t")) noJunk
      { dir_name := ascii ("d"), full_file_name := ascii ("a.t"),
        file_name := ascii ("a"), extension_name := ascii ("t") }
      (by decide)).2.2.2 (by decide) (by decide) (by decide) (by decide)⟩

/-- Nine letters followed by one more character make the scan return `-ENAMETOOLONG`. -/
theorem mkdir_scan_long (l rest : List Nat) (sc : Nat) (hl : ∀ c ∈ l, c ≠ SLASH)
    (hlen : 8 < l.length) (hrest : rest ≠ []) (hsc : sc ≤ 1) :
    mkdir_scan (l ++ rest) sc 0 = -ENAMETOOLONG := by
  have hsplit : l = l.take 9 ++ l.drop 9 := (List.take_append_drop 9 _).symm
  have h9 : (l.take 9).length = 9 := by rw [List.length_take]; omega
  rw [hsplit, List.append_assoc,
    mkdir_scan_letters _ _ _ _ (fun c hc => hl c (List.mem_of_mem_take hc)) hsc (by omega),
    h9]
  cases hd : l.drop 9 ++ rest with
  | nil =>
    have := List.append_eq_nil.mp hd
    exact absurd this.2 hrest
  | cons c cs => rw [mkdir_scan_cons, if_pos (by omega)]

/-- The scan over a path with at least two slashes: `seg1` is the last segment, `seg2`
the one before it. -/
theorem mkdir_scan_nested (pre seg2 seg1 : List Nat) (h2 : SLASH ∉ seg2) (h1 : SLASH ∉ seg1) :
    mkdir_scan (pre ++ SLASH :: (seg2 ++ SLASH :: seg1)).reverse 0 0 =
      if seg1.length ≤ 8 ∧ seg2.length ≤ 8 then -EPERM else -ENAMETOOLONG := by
  have hrev : (pre ++ SLASH :: (seg2 ++ SLASH :: seg1)).reverse =
      seg1.reverse ++ (SLASH :: (seg2.reverse ++ (SLASH :: pre.reverse))) := by
    simp
  have hl1 : ∀ c ∈ seg1.reverse, c ≠ SLASH :=
    fun c hc e => h1 (e ▸ List.mem_reverse.mp hc)
  have hl2 : ∀ c ∈ seg2.reverse, c ≠ SLASH :=
    fun c hc e => h2 (e ▸ List.mem_reverse.mp hc)
  rw [hrev]
  by_cases hs1 : seg1.length ≤ 8
  · rw [mkdir_scan_letters _ _ _ _ hl1 (by omega) (by rw [List.length_reverse]; omega),
      mkdir_scan_cons, if_neg (by rw [List.length_reverse]; omega)]
    simp only [if_true]
    rw [if_neg (by omega)]
    by_cases hs2 : seg2.length ≤ 8
    · rw [mkdir_scan_letters _ _ _ _ hl2 (by omega) (by rw [List.length_reverse]; omega),
        mkdir_scan_cons, if_neg (by rw [List.length_reverse]; omega)]
      simp only [if_true]
      rw [if_pos (by omega), if_pos ⟨hs1, hs2⟩]
    · rw [mkdir_scan_long _ _ _ hl2 (by rw [List.length_reverse]; omega) (by simp)
        (by omega), if_neg (fun h => hs2 h.2)]
  · rw [mkdir_scan_long _ _ _ hl1 (by rw [List.length_reverse]; omega) (by simp)
      (by omega), if_neg (fun h => hs1 h.1)]

/-- C12 (amended): for every path with two or more `'/'`, written as
`pre/seg2/seg1` with no `'/'` in its last two segments, `createDirectory` leaves the
image unchanged and returns `-EPERM` when both segments have at most 8 characters, and
`-ENAMETOOLONG` when one of them is longer. -/
theorem C12_mkdir_nested (d : Image) (pre seg2 seg1 : List Nat) (h2 : SLASH ∉ seg2)
    (h1 : SLASH ∉ seg1) :
    (seg1.length ≤ 8 → seg2.length ≤ 8 →
      cs1550_mkdir (pre ++ SLASH :: (seg2 ++ SLASH :: seg1)) d = some (-EPERM, d)) ∧
    ((8 < seg1.length ∨ 8 < seg2.length) →
      cs1550_mkdir (pre ++ SLASH :: (seg2 ++ SLASH :: seg1)) d =
        some (-ENAMETOOLONG, d)) := by
  have hscan := mkdir_scan_nested pre seg2 seg1 h2 h1
  constructor
  · intro ha hb
    rw [if_pos ⟨ha, hb⟩] at hscan
    rw [mkdir_code_of_scan _ _ (by rw [hscan]; decide), hscan]
  · intro hlong
    rw [if_neg (by omega)] at hscan
    rw [mkdir_code_of_scan _ _ (by rw [hscan]; decide), hscan]

/-- C12 at `/a/b` (not permitted) and `/a/toolongname` (name too long) on the fresh
image. -/
theorem C12_witness :
    cs1550_mkdir ([] ++ SLASH :: (ascii ("a") ++ SLASH :: ascii ("b"))) fresh =
      some (-EPERM, fresh) ∧
    cs1550_mkdir ([] ++ SLASH :: (ascii ("a") ++ SLASH :: ascii ("toolongname"))) fresh =
      some (-ENAMETOOLONG, fresh) :=
  ⟨(C12_mkdir_nested fresh [] (ascii ("a")) (ascii ("b")) (by decide) (by decide)).1
      (by decide) (by decide),
   (C12_mkdir_nested fresh [] (ascii ("a")) (ascii ("toolongname")) (by decide)
      (by decide)).2 (by decide)⟩

/-- C12 fails when a segment is too long: `createDirectory("/a/toolongname")` and
`createDirectory("/toolongname/x")` return `-ENAMETOOLONG`. -/
theorem C12_counterexample :
    codeOf (cs1550_mkdir (ascii ("/a/toolongname")) fresh) = some (-ENAMETOOLONG) ∧
    codeOf (cs1550_mkdir (ascii ("/toolongname/x")) fresh) = some (-ENAMETOOLONG) := by
  decide

/-- C13: with the root at capacity, `nDirectories = MAX_DIRS_IN_ROOT = 29`, every
`createDirectory("/D")` with `D` of at most 8 characters and no `'/'` returns `-EPERM` and
leaves the image unchanged. -/
theorem C13_mkdir_at_capacity (d : Image) (D : List Nat) (hfull : nDirectories d = 29)
    (hs : SLASH ∉ D) (hl : D.length ≤ 8) :
    MAX_DIRS_IN_ROOT = (512 - 4) / (9 + 8) ∧ MAX_DIRS_IN_ROOT = 29 ∧
    cs1550_mkdir (SLASH :: D) d = some (-EPERM, d) := by
  refine ⟨by decide, by decide, ?_⟩
  have hmax : (MAX_DIRS_IN_ROOT : Int) = 29 := by decide
  have h0 := mkdir_scan_name D hs hl
  have hlen : ¬ ((SLASH :: D).length = 0 ∨ (SLASH :: D).length - 1 > 8) := by
    simp only [List.length_cons]
    omega
  have hfull2 : nDirectories d = (MAX_DIRS_IN_ROOT : Int) := by rw [hfull, hmax]
  unfold cs1550_mkdir
  dsimp only
  rw [h0, if_neg (by decide), if_neg hlen]
  have hdrop : (SLASH :: D).drop 1 = D := rfl
  rw [hdrop]
  cases hf : findDir d D with
  | none => simp only [hfull2, if_true]
  | some j =>
    have hj : j < (nDirectories d).toNat := by
      unfold findDir firstIndex at hf
      rw [firstFrom_eq_some] at hf
      omega
    have hb : dirInBounds j = true := (dirInBounds_iff j).mpr (by omega)
    simp only [hb, hfull2, if_true, Bool.not_true, Bool.false_eq_true, if_false]

/-- C13 on `root29`, whose root holds 29 directories, for the new name `x` and for the
existing name `new`. -/
theorem C13_witness :
    cs1550_mkdir (SLASH :: ascii ("x")) root29 = some (-EPERM, root29) ∧
    cs1550_mkdir (SLASH :: ascii ("new")) root29 = some (-EPERM, root29) :=
  ⟨(C13_mkdir_at_capacity root29 (ascii ("x")) (by decide) (by decide) (by decide)).2.2,
   (C13_mkdir_at_capacity root29 (ascii ("new")) (by decide) (by decide) (by decide)).2.2⟩

/-- C14 (amended): for the root path and for every path `/D` where `D` holds
neither `'/'` nor `'.'`, `read` returns `-EISDIR` for every size and offset, for every
image, and stores nothing in the buffer. -/
theorem C14_read_directory (d : Image) (D : List Nat) (junk : PathInfo) (buf : Buffer)
    (size : Nat) (offset : Int) (hs : SLASH ∉ D) (hd : DOT ∉ D) :
    cs1550_read [SLASH] junk buf size offset d = some (-EISDIR, buf) ∧
    cs1550_read (SLASH :: D) junk buf size offset d = some (-EISDIR, buf) := by
  constructor
  · unfold cs1550_read
    rw [get_path_info_dir [] junk (by simp)]
    simp
  · unfold cs1550_read
    rw [get_path_info_dir D junk (plain_of_not_mem D hs hd)]
    simp

/-- C14 (amended) on `sampleImage` for its directory `/d`. -/
theorem C14_witness :
    cs1550_read (SLASH :: ascii ("d")) noJunk zeroBuf 5 0 sampleImage =
      some (-EISDIR, zeroBuf) :=
  (C14_read_directory sampleImage (ascii ("d")) noJunk zeroBuf 5 0 (by decide)
    (by decide)).2

theorem readdir_root_loop_spec (d : Image) (fuel i : Nat) (out : List (List Nat))
    (hb : ∀ k, i ≤ k → k < i + fuel → dirInBounds k = true)
    (ht : ∀ k, i ≤ k → k < i + fuel →
      dnameAddr k + (nameAt d (dnameAddr k)).length < SIZE_OF_DISK) :
    readdir_root_loop d fuel i out =
      some (out ++ (List.range' i fuel).map (fun k => nameAt d (dnameAddr k))) := by
  induction fuel generalizing i out with
  | zero => simp [readdir_root_loop]
  | succ n ih =>
    have h1 := hb i (le_refl _) (by omega)
    have h2 := ht i (le_refl _) (by omega)
    unfold readdir_root_loop cstr
    simp only [h1, Bool.not_true, Bool.false_eq_true, if_false, h2, if_true]
    rw [ih (i + 1) _ (fun k hk hk2 => hb k (by omega) (by omega))
      (fun k hk hk2 => ht k (by omega) (by omega))]
    simp [List.range'_succ]

theorem readdir_files_loop_spec (d : Image) (b fuel j : Nat) (out : List (List Nat))
    (hb : ∀ k, j ≤ k → k < j + fuel → fileInBounds b k = true)
    (ht : ∀ k, j ≤ k → k < j + fuel →
      (nameAt d (fnameAddr b k)).length + 1 + (nameAt d (fextAddr b k)).length + 1 ≤
        MAX_FILENAME + MAX_EXTENSION + 1) :
    readdir_files_loop d b fuel j out =
      some (out ++ (List.range' j fuel).map
        (fun k => nameAt d (fnameAddr b k) ++ DOT :: nameAt d (fextAddr b k))) := by
  induction fuel generalizing j out with
  | zero => simp [readdir_files_loop]
  | succ n ih =>
    have h1 := hb j (le_refl _) (by omega)
    have h2 := ht j (le_refl _) (by omega)
    have h3 := (fileInBounds_iff b j).mp h1
    have e1 : fnameAddr b j + (nameAt d (fnameAddr b j)).length < SIZE_OF_DISK := by
      have ha := fnameAddr_eq b j
      simp only [MAX_FILENAME, MAX_EXTENSION, SIZE_OF_DISK] at h2 ⊢
      omega
    have e2 : fextAddr b j + (nameAt d (fextAddr b j)).length < SIZE_OF_DISK := by
      have ha := fextAddr_eq b j
      simp only [MAX_FILENAME, MAX_EXTENSION, SIZE_OF_DISK] at h2 ⊢
      omega
    unfold readdir_files_loop cstr
    simp only [h1, Bool.not_true, Bool.false_eq_true, if_false, e1, e2, if_true]
    rw [if_neg (by omega)]
    rw [ih (j + 1) _ (fun k hk hk2 => hb k (by omega) (by omega))
      (fun k hk hk2 => ht k (by omega) (by omega))]
    simp [List.range'_succ]

theorem readdir_dirs_loop_spec (d : Image) (dir_name : List Nat) (fuel i : Nat)
    (out : List (List Nat))
    (hb : ∀ k, i ≤ k → k < i + fuel → dirInBounds k = true)
    (hs : ∀ k, i ≤ k → k < i + fuel →
      startAssert (dirStart d k) = true ∧ blockInBounds (dirStart d k).toNat = true)
    (hf : ∀ k, i ≤ k → k < i + fuel → ∀ j, j < (nFiles d (dirStart d k).toNat).toNat →
      fileInBounds (dirStart d k).toNat j = true ∧
      (nameAt d (fnameAddr (dirStart d k).toNat j)).length + 1 +
        (nameAt d (fextAddr (dirStart d k).toNat j)).length + 1 ≤
        MAX_FILENAME + MAX_EXTENSION + 1) :
    readdir_dirs_loop d dir_name fuel i out =
      some (out ++ ((List.range' i fuel).filter
        (fun k => strEq d (dnameAddr k) dir_name)).flatMap
        (fun k => (List.range (nFiles d (dirStart d k).toNat).toNat).map
          (fun j => nameAt d (fnameAddr (dirStart d k).toNat j) ++
            DOT :: nameAt d (fextAddr (dirStart d k).toNat j)))) := by
  induction fuel generalizing i out with
  | zero => simp [readdir_dirs_loop]
  | succ n ih =>
    have h1 := hb i (le_refl _) (by omega)
    have h2 := hs i (le_refl _) (by omega)
    have h3 := hf i (le_refl _) (by omega)
    have hrec := fun o => ih (i + 1) o (fun k hk hk2 => hb k (by omega) (by omega))
      (fun k hk hk2 => hs k (by omega) (by omega))
      (fun k hk hk2 => hf k (by omega) (by omega))
    unfold readdir_dirs_loop
    simp only [h1, h2.1, h2.2, Bool.not_true, Bool.false_eq_true, if_false]
    by_cases he : strEq d (dnameAddr i) dir_name = true
    · rw [if_pos he, readdir_files_loop_spec d _ _ 0 out
        (fun k _ hk2 => (h3 k (by omega)).1) (fun k _ hk2 => (h3 k (by omega)).2)]
      simp only [hrec]
      simp [List.range'_succ, List.filter_cons, he, List.range_eq_range']
    · rw [if_neg he, hrec]
      simp [List.range'_succ, List.filter_cons, he]

theorem valid_listing_bounds (d : Image) (hv : ValidImage d) (k : Nat)
    (hk : k < (nDirectories d).toNat) :
    dirInBounds k = true ∧ startAssert (dirStart d k) = true ∧
    blockInBounds (dirStart d k).toNat = true ∧
    ∀ j, j < (nFiles d (dirStart d k).toNat).toNat →
      fileInBounds (dirStart d k).toNat j = true := by
  obtain ⟨h0, h1, h2⟩ := hv
  obtain ⟨a, b, c, e⟩ := h2 k hk
  have hmax : (MAX_DIRS_IN_ROOT : Int) = 29 := by decide
  have hfiles : (MAX_FILES_IN_DIR : Int) = 17 := by decide
  have hblk : (BLOCK_SIZE : Int) = 512 := by decide
  have hdisk : (SIZE_OF_DISK : Int) = 5242880 := by decide
  rw [hmax] at h1
  rw [hfiles] at e
  rw [hblk, hdisk] at b
  refine ⟨(dirInBounds_iff k).mpr (by omega), startAssert_of_range _ (by omega) (by omega),
    (blockInBounds_iff _).mpr (by omega), fun j hj => (fileInBounds_iff _ j).mpr (by omega)⟩

/-- On a well-formed image whose stored names fit the listing buffer, for every
path rooted at `/` `listDirectory` returns success and emits the reference listing:
`"."`, `".."`, then for `/` the names of root entries `0 .. nDirectories - 1` in order,
and for any other path `fname + "." + fext` of file entries `0 .. nFiles - 1` of each root
entry whose name equals the resolved directory name; when no root entry has that name
only the two pseudo-entries are emitted. -/
theorem readdir_listing (d : Image) (rest : List Nat) (junk : PathInfo)
    (hv : ValidImage d) (hl : Listable d) :
    (get_path_info (SLASH :: rest) junk).isSome = true ∧
    ∀ pinfo, get_path_info (SLASH :: rest) junk = some pinfo →
      cs1550_readdir (SLASH :: rest) junk d =
        some (0, listing_spec d (SLASH :: rest) pinfo.dir_name) ∧
      (rest ≠ [] →
        (∀ i, i < (nDirectories d).toNat → strEq d (dnameAddr i) pinfo.dir_name = false) →
        cs1550_readdir (SLASH :: rest) junk d = some (0, [[DOT], [DOT, DOT]])) := by
  refine ⟨get_path_info_rooted rest junk, fun pinfo hp => ?_⟩
  have hmain : cs1550_readdir (SLASH :: rest) junk d =
      some (0, listing_spec d (SLASH :: rest) pinfo.dir_name) := by
    unfold cs1550_readdir listing_spec
    rw [hp]
    dsimp only
    by_cases hroot : SLASH :: rest = [SLASH]
    · rw [if_pos hroot, if_pos hroot, readdir_root_loop_spec d _ 0 _
        (fun k _ hk => (valid_listing_bounds d hv k (by omega)).1)
        (fun k _ hk => (hl k (by omega)).1), List.range_eq_range']
    · rw [if_neg hroot, if_neg hroot, readdir_dirs_loop_spec d _ _ 0 _
        (fun k _ hk => (valid_listing_bounds d hv k (by omega)).1)
        (fun k _ hk => ⟨(valid_listing_bounds d hv k (by omega)).2.1,
          (valid_listing_bounds d hv k (by omega)).2.2.1⟩)
        (fun k _ hk j hj => ⟨(valid_listing_bounds d hv k (by omega)).2.2.2 j hj,
          (hl k (by omega)).2 j hj⟩), List.range_eq_range']
  refine ⟨hmain, fun hne habs => ?_⟩
  rw [hmain]
  unfold listing_spec
  have hroot : SLASH :: rest ≠ [SLASH] := by
    intro h
    exact hne (List.cons.inj h).2
  rw [if_neg hroot]
  have hfil : (List.range (nDirectories d).toNat).filter
      (fun i => strEq d (dnameAddr i) pinfo.dir_name) = [] := by
    rw [List.filter_eq_nil_iff]
    intro i hi
    rw [habs i (List.mem_range.mp hi)]
    decide
  rw [hfil]
  rfl

/-- The listing of `sampleImage`: `/` lists `d`, `/d` lists `a.t`, `/x` lists nothing. -/
theorem readdir_listing_sample :
    ValidImage sampleImage ∧ Listable sampleImage ∧
    cs1550_readdir (SLASH :: []) noJunk sampleImage =
      some (0, listing_spec sampleImage (SLASH :: []) []) ∧
    listing_spec sampleImage (SLASH :: []) [] = [ascii ("."), ascii (".."), ascii ("d")] ∧
    cs1550_readdir (SLASH :: ascii ("d")) noJunk sampleImage =
      some (0, listing_spec sampleImage (SLASH :: ascii ("d")) (ascii ("d"))) ∧
    listing_spec sampleImage (SLASH :: ascii ("d")) (ascii ("d")) =
      [ascii ("."), ascii (".."), ascii ("a.t")] ∧
    cs1550_readdir (SLASH :: ascii ("x")) noJunk sampleImage =
      some (0, [ascii ("."), ascii ("..")]) :=
  ⟨by decide, by decide!,
   ((readdir_listing sampleImage [] noJunk (by decide) (by decide!)).2
      ⟨[], [], [], []⟩ (by decide)).1,
   by decide!,
   ((readdir_listing sampleImage (ascii ("d")) noJunk (by decide) (by decide!)).2
      ⟨ascii ("d"), [], [], []⟩ (by decide)).1,
   by decide!,
   ((readdir_listing sampleImage (ascii ("x")) noJunk (by decide) (by decide!)).2
      ⟨ascii ("x"), [], [], []⟩ (by decide)).2 (by decide) (by decide!)⟩

set_option maxRecDepth 100000 in
theorem get_free_block_image2 : get_free_block image2 = 1023 := by
  decide!

set_option maxRecDepth 100000 in
theorem write_wide :
    cs1550_write filePath noJunk zeroBuf 260650 0 image2 = some (260650, image3wide) := by
  unfold cs1550_write
  simp only [write_allocate_eq_closed]
  rfl

/-- C16 (failing input): the entry of `/docs/a.txt` in `image2` has start locator 0 and
`get_free_block` yields 1023; the first write of 260650 zero bytes returns 260650, and
afterwards the entry holds start locator 0 and size 0, not 1023 and 260650, because the
data written from offset 1023 on covers the entry itself in block 511. -/
theorem C16_first_write_overwrites_entry :
    ValidImage image2 ∧ lookupFile image2 fileInfo = Found.found (511, 0) ∧
    fileStart image2 511 0 = 0 ∧ get_free_block image2 = 1023 ∧
    cs1550_write filePath noJunk zeroBuf 260650 0 image2 = some (260650, image3wide) ∧
    fileStart image3wide 511 0 = 0 ∧ fsize image3wide 511 0 = 0 ∧
    nFiles image2 511 = 1 ∧ nFiles image3wide 511 = 0 :=
  ⟨by decide, by decide, by decide, get_free_block_image2, write_wide, by decide, by decide, by decide,
    by decide⟩

theorem imageExhausted_bits (j : Nat) (h : j < 655360) : bitmapBit imageExhausted j = true := by
  unfold bitmapBit imageExhausted
  rw [if_pos (by rw [BITMAP_OFFSET_eq]; omega)]
  exact testBit_255 _ (Nat.mod_lt _ (by decide))

theorem get_free_block_imageExhausted : get_free_block imageExhausted = 655360 :=
  get_free_block_exhausted imageExhausted (fun j _ h => imageExhausted_bits j h)

theorem write_allocate_exhausted :
    write_allocate imageExhausted 511 0 5 =
      (0, markRange 655360 5
        (wrSize (wrLong imageExhausted (fstartAddr 511 0) 655360) (fsizeAddr 511 0) 5)) := by
  rw [write_allocate_eq_closed]
  unfold write_allocate_closed
  rw [get_free_block_imageExhausted]
  rfl

set_option maxRecDepth 100000 in
theorem write_exhausted :
    cs1550_write filePath noJunk hello 5 0 imageExhausted =
      some (5, imageExhaustedWritten) := by
  have h2 : lookupFile imageExhausted fileInfo = Found.found (511, 0) := by decide
  unfold cs1550_write
  rw [filePath_info noJunk]
  simp only [h2, write_allocate_exhausted]
  rfl

/-- C17 (failing input): with every bit of the bitmap set `get_free_block` returns the
sentinel `BIT_MAP_SIZE`; the first write of 5 bytes to `/docs/a.txt` returns 5, not
`-EFBIG`, and records the sentinel as the start locator of the file. -/
theorem C17_write_on_exhausted_bitmap :
    ValidImage imageExhausted ∧ get_free_block imageExhausted = BIT_MAP_SIZE ∧
    lookupFile imageExhausted fileInfo = Found.found (511, 0) ∧
    fileStart imageExhausted 511 0 = 0 ∧
    cs1550_write filePath noJunk hello 5 0 imageExhausted =
      some (5, imageExhaustedWritten) ∧
    fileStart imageExhaustedWritten 511 0 = BIT_MAP_SIZE ∧
    fsize imageExhaustedWritten 511 0 = 5 :=
  ⟨by decide, get_free_block_imageExhausted, by decide, by decide, write_exhausted, by decide,
    by decide⟩

/-- C22: for all strings `D`, `N`, `E` without `'/'` and `'.'`, the resolver maps
`/D/N.E` to the directory name `D`, the full file name `N.E`, the file name `N` and the
extension `E`, and maps `/D` to the directory name `D` with the three file strings empty,
whatever the unset buffers hold. -/
theorem C22_get_path_info_well_formed (D N E : List Nat) (junk : PathInfo)
    (hD : SLASH ∉ D ∧ DOT ∉ D) (hN : SLASH ∉ N ∧ DOT ∉ N) (hE : SLASH ∉ E ∧ DOT ∉ E) :
    get_path_info (SLASH :: (D ++ SLASH :: (N ++ DOT :: E))) junk =
      some { dir_name := D, full_file_name := N ++ DOT :: E, file_name := N,
             extension_name := E } ∧
    get_path_info (SLASH :: D) junk =
      some { dir_name := D, full_file_name := [], file_name := [], extension_name := [] } :=
  ⟨get_path_info_file D N E junk hD.1 hN.1 (plain_of_not_mem E hE.1 hE.2),
   get_path_info_dir D junk (plain_of_not_mem D hD.1 hD.2)⟩

/-- C22 at `/docs/a.txt` and `/docs`, with unset buffers that hold other strings. -/
theorem C22_witness :
    get_path_info (ascii ("/docs/a.txt"))
        { dir_name := ascii ("x"), full_file_name := ascii ("y.z"), file_name := ascii ("y"),
          extension_name := ascii ("z") } =
      some { dir_name := ascii ("docs"), full_file_name := ascii ("a.txt"),
             file_name := ascii ("a"), extension_name := ascii ("txt") } ∧
    get_path_info (ascii ("/docs"))
        { dir_name := ascii ("x"), full_file_name := ascii ("y.z"), file_name := ascii ("y"),
          extension_name := ascii ("z") } =
      some { dir_name := ascii ("docs"), full_file_name := [], file_name := [],
             extension_name := [] } :=
  C22_get_path_info_well_formed (ascii ("docs")) (ascii ("a")) (ascii ("txt"))
    { dir_name := ascii ("x"), full_file_name := ascii ("y.z"), file_name := ascii ("y"),
      extension_name := ascii ("z") }
    (by decide) (by decide) (by decide)

theorem set_bit_map_loop_zero (len i : Nat) (d : Image) : set_bit_map_loop 0 len i d = d := by
  induction len generalizing i d with
  | zero => rfl
  | succ n ih =>
    simp only [set_bit_map_loop, Nat.zero_shiftLeft, Nat.or_zero, Function.update_eq_self]
    exact ih _ _

theorem bitmapBit_set_bit_map_one (d : Image) (off len j : Nat) :
    bitmapBit (set_bit_map off len 1 d) j =
      (decide (off ≤ j ∧ j < off + len) || bitmapBit d j) := by
  unfold bitmapBit set_bit_map
  rw [testBit_set_bit_map_loop, Bool.or_comm]
  congr 1
  have h1 : BITMAP_OFFSET + j / 8 - BITMAP_OFFSET = j / 8 := by omega
  have h2 : 8 * (j / 8) + j % 8 = j := Nat.div_add_mod j 8
  have h3 : j % 8 < 8 := Nat.mod_lt _ (by decide)
  rw [h1, h2]
  simp only [decide_eq_decide]
  constructor
  · intro h
    exact ⟨h.2.2.1, h.2.2.2⟩
  · intro h
    exact ⟨by omega, h3, h.1, h.2⟩

/-- C21 (failing input): `set_bit_map` with value 1 sets every bit of the range and leaves
every other bit as it was; with value 0 it leaves the whole image as it was, so bit 511 of
an all-ones bitmap is still set after `set_bit_map(511, 1, 0, bitmap)`. -/
theorem C21_set_bit_map_never_clears :
    (∀ (d : Image) (off len j : Nat), bitmapBit (set_bit_map off len 1 d) j =
      (decide (off ≤ j ∧ j < off + len) || bitmapBit d j)) ∧
    (∀ (d : Image) (off len : Nat), set_bit_map off len 0 d = d) ∧
    bitmapBit allSet 511 = true ∧ bitmapBit (set_bit_map 511 1 0 allSet) 511 = true := by
  refine ⟨bitmapBit_set_bit_map_one, fun d off len => set_bit_map_loop_zero len off d,
    by decide, ?_⟩
  rw [show set_bit_map 511 1 0 allSet = allSet from set_bit_map_loop_zero 1 511 allSet]
  decide

set_option maxRecDepth 100000 in
theorem write_leak :
    cs1550_write filePath noJunk hello 5 1 image2 = some (-EFBIG, imageLeak) := by
  unfold cs1550_write
  simp only [write_allocate_eq_closed]
  rfl

/-- C30 (failing input): the first write to `/docs/a.txt` with offset 1 and size 5
returns `-EFBIG`, and the image has changed: the entry records start 1023 and size 5,
and bits 1023 to 1027 of the bitmap are set. -/
theorem C30_failed_write_allocates :
    lookupFile image2 fileInfo = Found.found (511, 0) ∧
    fileStart image2 511 0 = 0 ∧ fsize image2 511 0 = 0 ∧ bitmapBit image2 1023 = false ∧
    cs1550_write filePath noJunk hello 5 1 image2 = some (-EFBIG, imageLeak) ∧
    fileStart imageLeak 511 0 = 1023 ∧ fsize imageLeak 511 0 = 5 ∧
    bitmapBit imageLeak 1023 = true ∧ bitmapBit imageLeak 1027 = true :=
  ⟨by decide, by decide, by decide, by decide, write_leak, by decide, by decide, by decide,
    by decide⟩

theorem bitmapBit_congr {d e : Image} {j : Nat}
    (h : d (BITMAP_OFFSET + j / 8) = e (BITMAP_OFFSET + j / 8)) :
    bitmapBit d j = bitmapBit e j := by
  unfold bitmapBit
  rw [h]

theorem get_free_block_loop_congr {d e : Image} (fuel i : Nat)
    (h : ∀ j, i ≤ j → j < i + fuel → bitmapBit d j = bitmapBit e j) :
    get_free_block_loop d fuel i = get_free_block_loop e fuel i := by
  induction fuel generalizing i with
  | zero => rfl
  | succ n ih =>
    simp only [get_free_block_loop]
    rw [h i (le_refl _) (by omega), ih (i + 1) (fun j h1 h2 => h j (by omega) (by omega))]

/-- `get_free_block` reads only the first 81920 bytes of the bitmap. -/
theorem get_free_block_congr {d e : Image}
    (h : ∀ x, 4587520 ≤ x → x < 4669440 → d x = e x) :
    get_free_block d = get_free_block e := by
  rw [get_free_block_unfold, get_free_block_unfold]
  apply get_free_block_loop_congr
  intro j h1 h2
  apply bitmapBit_congr
  apply h
  · rw [BITMAP_OFFSET_eq]
    omega
  · rw [BITMAP_OFFSET_eq]
    omega

theorem markRange_outside {d : Image} {off len x : Nat} (h : x < 4587520) :
    markRange off len d x = d x := by
  unfold markRange
  rw [if_neg (by rw [BITMAP_OFFSET_eq]; omega)]

theorem mkdir_create_eq_image (d : Image) (n : Nat) (name : List Nat) (hn : n ≤ 28)
    (hnd : nDirectories d = n) (hname : name.length ≤ 8)
    (hs : get_free_block d ≤ 10239) :
    mkdir_create d n name = some (mkdir_image d n name) := by
  rw [mkdir_create_eq_closed]
  unfold mkdir_create_closed mkdir_image
  have hg : get_free_block (strcpy d (dnameAddr n) name) = get_free_block d :=
    get_free_block_congr (fun x h1 h2 => strcpy_outside (by rw [dnameAddr_eq]; omega))
  simp only [hg]
  have hsb := get_free_block_bounds d
  generalize get_free_block d = sb at hs hsb ⊢
  have haddr : dirStart (markRange sb SIZEOF_DIRECTORY_ENTRY
      (wrLong (strcpy d (dnameAddr n) name) (dstartAddr n) sb)) n = sb := by
    rw [dirStart_congr (fun x h1 h2 => markRange_outside (by omega))]
    exact rdLong_wrLong_same _ _ _ (by omega) (by omega)
  have hassert : startAssert (sb : Int) = true := startAssert_of_range _ (by omega) (by omega)
  have hblock : blockInBounds sb = true := (blockInBounds_iff sb).mpr (by omega)
  have hcount : nDirectories (wrInt (markRange sb SIZEOF_DIRECTORY_ENTRY
      (wrLong (strcpy d (dnameAddr n) name) (dstartAddr n) sb)) (nFilesAddr sb) 0) = n := by
    rw [← hnd]
    apply nDirectories_congr
    intro x hx
    rw [wrInt_outside (by rw [nFilesAddr_eq]; omega), markRange_outside (by omega),
      wrLong_outside (by rw [dstartAddr_eq]; omega),
      strcpy_outside (by rw [dnameAddr_eq]; omega)]
  simp only [haddr, Int.toNat_ofNat, hassert, hblock, Bool.not_true, Bool.or_self,
    Bool.false_eq_true, if_false, hcount]

theorem mkdir_create_fault (d : Image) (n : Nat) (name : List Nat) (hn : n ≤ 28)
    (hname : name.length ≤ 8) (hs : 10239 < get_free_block d) :
    mkdir_create d n name = none := by
  rw [mkdir_create_eq_closed]
  unfold mkdir_create_closed
  have hg : get_free_block (strcpy d (dnameAddr n) name) = get_free_block d :=
    get_free_block_congr (fun x h1 h2 => strcpy_outside (by rw [dnameAddr_eq]; omega))
  simp only [hg]
  have hsb := get_free_block_bounds d
  generalize get_free_block d = sb at hs hsb ⊢
  have haddr : dirStart (markRange sb SIZEOF_DIRECTORY_ENTRY
      (wrLong (strcpy d (dnameAddr n) name) (dstartAddr n) sb)) n = sb := by
    rw [dirStart_congr (fun x h1 h2 => markRange_outside (by omega))]
    exact rdLong_wrLong_same _ _ _ (by omega) (by omega)
  have hblock : blockInBounds sb = false := by
    cases h : blockInBounds sb with
    | false => rfl
    | true =>
      have := (blockInBounds_iff sb).mp h
      omega
  simp only [haddr, Int.toNat_ofNat, hblock, Bool.not_false, Bool.or_true, if_true]

theorem mkdir_new_name (d : Image) (D : List Nat) (n : Nat) (hnd : nDirectories d = n)
    (hcap : n < 29) (hD : SLASH ∉ D) (hlen : D.length ≤ 8)
    (hnew : ∀ i, i < n → strEq d (dnameAddr i) D = false) :
    cs1550_mkdir (SLASH :: D) d =
      match mkdir_create d n D with
      | none => none
      | some d5 => some (0, d5) := by
  have hmax : (MAX_DIRS_IN_ROOT : Int) = 29 := by decide
  have h0 := mkdir_scan_name D hD hlen
  have hl : ¬ ((SLASH :: D).length = 0 ∨ (SLASH :: D).length - 1 > 8) := by
    simp only [List.length_cons]
    omega
  have hfind : findDir d D = none :=
    findDir_absent d D (by rw [hnd, hmax]; omega) (fun i hi => hnew i (by omega))
  have hdrop : (SLASH :: D).drop 1 = D := rfl
  have hne : ¬ (nDirectories d = (MAX_DIRS_IN_ROOT : Int)) := by
    rw [hnd, hmax]
    omega
  have hin : ¬ (nDirectories d < 0 ∨ (!dirInBounds (nDirectories d).toNat) = true) := by
    rw [hnd]
    have : dirInBounds n = true := (dirInBounds_iff n).mpr (by omega)
    simp only [Int.toNat_ofNat, this, Bool.not_true, Bool.false_eq_true, or_false, not_lt]
    omega
  unfold cs1550_mkdir
  dsimp only
  rw [h0, if_neg (by decide), if_neg hl, hdrop, hfind]
  dsimp only
  rw [if_neg hne, if_neg hin, hnd, Int.toNat_ofNat]

/-- `createDirectory("/D")` for a new name below capacity when the allocator grants a
block inside the structure. -/
theorem mkdir_eq_image (d : Image) (D : List Nat) (n : Nat) (hnd : nDirectories d = n)
    (hcap : n < 29) (hD : SLASH ∉ D) (hlen : D.length ≤ 8)
    (hnew : ∀ i, i < n → strEq d (dnameAddr i) D = false)
    (hs : get_free_block d ≤ 10239) :
    cs1550_mkdir (SLASH :: D) d = some (0, mkdir_image d n D) := by
  rw [mkdir_new_name d D n hnd hcap hD hlen hnew,
    mkdir_create_eq_image d n D (by omega) hnd hlen hs]

/-- `createDirectory("/D")` for a new name below capacity when the allocator grants a
block outside the structure: the store to `new_entry->nFiles` has no place to go. -/
theorem mkdir_fault (d : Image) (D : List Nat) (n : Nat) (hnd : nDirectories d = n)
    (hcap : n < 29) (hD : SLASH ∉ D) (hlen : D.length ≤ 8)
    (hnew : ∀ i, i < n → strEq d (dnameAddr i) D = false)
    (hs : 10239 < get_free_block d) :
    cs1550_mkdir (SLASH :: D) d = none := by
  rw [mkdir_new_name d D n hnd hcap hD hlen hnew, mkdir_create_fault d n D (by omega) hlen hs]

theorem bitmapBit_markRange (d : Image) (off len j : Nat) :
    bitmapBit (markRange off len d) j =
      (decide (off ≤ j ∧ j < off + len) || bitmapBit d j) := by
  rw [← set_bit_map_one]
  exact bitmapBit_set_bit_map_one d off len j

theorem mkdir_image_root (d : Image) (n : Nat) (D : List Nat) (hD : D.length ≤ 8) (x : Nat)
    (h1 : 4 ≤ x) (h2 : x < 512) (h3 : x < 4 + 17 * n ∨ 21 + 17 * n ≤ x) :
    mkdir_image d n D x = d x := by
  have hsb := get_free_block_bounds d
  unfold mkdir_image
  rw [wrInt_outside (by simp only [nDirectoriesAddr]; omega),
    wrInt_outside (by rw [nFilesAddr_eq]; omega), markRange_outside (by omega),
    wrLong_outside (by rw [dstartAddr_eq]; omega),
    strcpy_outside (by rw [dnameAddr_eq]; omega)]

theorem mkdir_image_blocks (d : Image) (n : Nat) (D : List Nat) (hn : n ≤ 28)
    (hD : D.length ≤ 8) (x : Nat) (h1 : 512 ≤ x) (h2 : x < 4587520)
    (h3 : x < 512 * get_free_block d ∨ 512 * get_free_block d + 4 ≤ x) :
    mkdir_image d n D x = d x := by
  unfold mkdir_image
  rw [wrInt_outside (by simp only [nDirectoriesAddr]; omega),
    wrInt_outside (by rw [nFilesAddr_eq]; omega), markRange_outside (by omega),
    wrLong_outside (by rw [dstartAddr_eq]; omega),
    strcpy_outside (by rw [dnameAddr_eq]; omega)]

theorem mkdir_image_count (d : Image) (n : Nat) (D : List Nat) (hn : n ≤ 28) :
    nDirectories (mkdir_image d n D) = (n : Int) + 1 := by
  unfold mkdir_image
  exact rdInt_wrInt_same _ _ _ (by omega) (by omega)

theorem mkdir_image_name (d : Image) (n : Nat) (D : List Nat) (hn : n ≤ 28)
    (hD : D.length ≤ 8) : strEq (mkdir_image d n D) (dnameAddr n) D = true := by
  have hsb := get_free_block_bounds d
  unfold mkdir_image
  rw [@strEq_congr _ (strcpy d (dnameAddr n) D) (dnameAddr n) D (fun x h1 h2 => by
    rw [dnameAddr_eq] at h1 h2
    rw [wrInt_outside (by simp only [nDirectoriesAddr]; omega),
      wrInt_outside (by rw [nFilesAddr_eq]; omega), markRange_outside (by omega),
      wrLong_outside (by rw [dstartAddr_eq]; omega)])]
  exact strEq_strcpy_same _ _ _

theorem mkdir_image_start (d : Image) (n : Nat) (D : List Nat) (hn : n ≤ 28) :
    dirStart (mkdir_image d n D) n = get_free_block d := by
  have hsb := get_free_block_bounds d
  unfold mkdir_image
  rw [dirStart_congr (fun x h1 h2 => by
    rw [wrInt_outside (by simp only [nDirectoriesAddr]; omega),
      wrInt_outside (by rw [nFilesAddr_eq]; omega), markRange_outside (by omega)])]
  exact rdLong_wrLong_same _ _ _ (by omega) (by omega)

theorem mkdir_image_nFiles (d : Image) (n : Nat) (D : List Nat) :
    nFiles (mkdir_image d n D) (get_free_block d) = 0 := by
  have hsb := get_free_block_bounds d
  unfold mkdir_image
  rw [nFiles_congr (fun x h1 h2 => wrInt_outside (by simp only [nDirectoriesAddr]; omega))]
  unfold nFiles
  exact rdInt_wrInt_same _ _ _ (by omega) (by omega)

theorem mkdir_image_bit (d : Image) (n : Nat) (D : List Nat) (hn : n ≤ 28)
    (hD : D.length ≤ 8) (j : Nat)
    (h : 4587520 + j / 8 < 512 * get_free_block d ∨
      512 * get_free_block d + 4 ≤ 4587520 + j / 8) :
    bitmapBit (mkdir_image d n D) j =
      (decide (get_free_block d ≤ j ∧ j < get_free_block d + 512) || bitmapBit d j) := by
  have e : bitmapBit (mkdir_image d n D) j =
      bitmapBit (markRange (get_free_block d) SIZEOF_DIRECTORY_ENTRY
        (wrLong (strcpy d (dnameAddr n) D) (dstartAddr n) (get_free_block d))) j := by
    apply bitmapBit_congr
    unfold mkdir_image
    rw [BITMAP_OFFSET_eq, wrInt_outside (by simp only [nDirectoriesAddr]; omega),
      wrInt_outside (by rw [nFilesAddr_eq]; omega)]
  rw [e, bitmapBit_markRange]
  have e2 : bitmapBit (wrLong (strcpy d (dnameAddr n) D) (dstartAddr n) (get_free_block d)) j =
      bitmapBit d j := by
    apply bitmapBit_congr
    rw [BITMAP_OFFSET_eq, wrLong_outside (by rw [dstartAddr_eq]; omega),
      strcpy_outside (by rw [dnameAddr_eq]; omega)]
  rw [e2]
  rfl

/-- For every image with `nDirectories = n` below capacity, every new name
`D` of at most 8 characters without `'/'`, when the first free bitmap index `s` is a valid
block index (`s < NUMBER_OF_BLOCKS`), `createDirectory("/D")` returns success and
afterwards root entry `n` holds `(D, s)`, `nDirectories = n + 1`, root entries
`0 .. n-1` are unchanged, the record at block `s` has `nFiles = 0`, and bits
`s .. s + 511` of the bitmap are set. -/
theorem mkdir_postcondition (d : Image) (D : List Nat) (n : Nat)
    (hnd : nDirectories d = n) (hcap : n < MAX_DIRS_IN_ROOT) (hD : SLASH ∉ D)
    (hlen : D.length ≤ 8) (hnew : ∀ i, i < n → strEq d (dnameAddr i) D = false)
    (hs : get_free_block d < NUMBER_OF_BLOCKS) :
    ∃ d', cs1550_mkdir (SLASH :: D) d = some (0, d') ∧
      strEq d' (dnameAddr n) D = true ∧ dirStart d' n = get_free_block d ∧
      nDirectories d' = (n : Int) + 1 ∧
      (∀ x, 4 ≤ x → x < 4 + 17 * n → d' x = d x) ∧
      nFiles d' (get_free_block d) = 0 ∧
      (∀ j, get_free_block d ≤ j → j < get_free_block d + SIZEOF_DIRECTORY_ENTRY →
        bitmapBit d' j = true) := by
  have hmax : MAX_DIRS_IN_ROOT = 29 := by decide
  have hblocks : NUMBER_OF_BLOCKS = 8960 := by decide
  have hsize : SIZEOF_DIRECTORY_ENTRY = 512 := by decide
  rw [hmax] at hcap
  rw [hblocks] at hs
  rw [hsize]
  refine ⟨mkdir_image d n D, mkdir_eq_image d D n hnd hcap hD hlen hnew (by omega),
    mkdir_image_name d n D (by omega) hlen, mkdir_image_start d n D (by omega),
    mkdir_image_count d n D (by omega),
    fun x h1 h2 => mkdir_image_root d n D hlen x h1 (by omega) (Or.inl h2),
    mkdir_image_nFiles d n D, fun j h1 h2 => ?_⟩
  rw [mkdir_image_bit d n D (by omega) hlen j (by omega)]
  simp only [Bool.or_eq_true, decide_eq_true_eq]
  exact Or.inl ⟨h1, h2⟩

/-- On the fresh image `createDirectory("/docs")` records `(docs, 511)` in root
entry 0. -/
theorem mkdir_postcondition_fresh :
    ∃ d', cs1550_mkdir (SLASH :: ascii ("docs")) fresh = some (0, d') ∧
      strEq d' (dnameAddr 0) (ascii ("docs")) = true ∧ dirStart d' 0 = get_free_block fresh ∧
      nDirectories d' = ((0 : Nat) : Int) + 1 ∧
      (∀ x, 4 ≤ x → x < 4 + 17 * 0 → d' x = fresh x) ∧
      nFiles d' (get_free_block fresh) = 0 ∧
      (∀ j, get_free_block fresh ≤ j → j < get_free_block fresh + SIZEOF_DIRECTORY_ENTRY →
        bitmapBit d' j = true) :=
  mkdir_postcondition fresh (ascii ("docs")) 0 (by decide) (by decide) (by decide)
    (by decide) (fun i hi => absurd hi (Nat.not_lt_zero i)) (by decide)

theorem mknod_eq_create (d : Image) (D N E : List Nat) (junk : PathInfo) (b m : Nat)
    (hD : SLASH ∉ D) (hN : SLASH ∉ N) (hE : ∀ c ∈ E, c ≠ SLASH ∧ c ≠ DOT)
    (hDl : D.length ≤ 8) (hNl : N.length ≤ 8) (hEl : E.length ≤ 3)
    (hdir : lookupDir d D = Found.found b) (hb : b ≤ 10238)
    (hm : nFiles d b = m) (hcap : m < 17) (habs : findFile d b N E = none) :
    cs1550_mknod (SLASH :: (D ++ SLASH :: (N ++ DOT :: E))) junk d =
      some (0, mknod_create d b m
        { dir_name := D, full_file_name := N ++ DOT :: E, file_name := N,
          extension_name := E }) := by
  have hinfo := mknod_info_ok _ junk _ (get_path_info_file D N E junk hD hN hE) hNl hEl hDl
    (by rw [slash_count_file D N E hD hN hE])
  have hfiles : (MAX_FILES_IN_DIR : Int) = 17 := by decide
  have hne : SLASH :: (D ++ SLASH :: (N ++ DOT :: E)) ≠ [SLASH] := by
    intro h
    have := congrArg List.length h
    simp only [List.length_cons, List.length_append, List.length_nil] at this
    omega
  have hful : ¬ (nFiles d b = (MAX_FILES_IN_DIR : Int)) := by
    rw [hm, hfiles]
    omega
  have hin : fileInBounds b m = true := (fileInBounds_iff b m).mpr (by omega)
  unfold cs1550_mknod
  rw [hinfo]
  dsimp only
  rw [if_neg hne, if_neg (by decide), hdir]
  dsimp only
  rw [if_neg hful, habs]
  dsimp only
  rw [hm, Int.toNat_ofNat, hin]
  rfl

/-- When the subdirectory `D` exists with its record in block `b` of the block
array (`1 ≤ b < NUMBER_OF_BLOCKS`), holds `m` files, `m` below `MAX_FILES_IN_DIR = 17`,
and no entry `(N, E)`, with `N` of at most 8 and `E` of at most 3 characters,
`createFile("/D/N.E")` returns success and afterwards entry `m` of the record is
`(N, E, size 0, start 0)`, `nFiles = m + 1`, entries `0 .. m-1` are unchanged, and the
root record, every other block and the bitmap are unchanged. -/
theorem mknod_postcondition (d : Image) (D N E : List Nat) (junk : PathInfo)
    (b m : Nat) (hD : SLASH ∉ D) (hN : SLASH ∉ N) (hE : SLASH ∉ E ∧ DOT ∉ E)
    (hDl : D.length ≤ 8) (hNl : N.length ≤ 8) (hEl : E.length ≤ 3)
    (hdir : lookupDir d D = Found.found b) (hb : 1 ≤ b ∧ b < NUMBER_OF_BLOCKS)
    (hm : nFiles d b = m) (hcap : m < MAX_FILES_IN_DIR)
    (habs : findFile d b N E = none) :
    MAX_FILES_IN_DIR = 17 ∧
    ∃ d', cs1550_mknod (SLASH :: (D ++ SLASH :: (N ++ DOT :: E))) junk d = some (0, d') ∧
      strEq d' (fnameAddr b m) N = true ∧ strEq d' (fextAddr b m) E = true ∧
      fsize d' b m = 0 ∧ fileStart d' b m = 0 ∧ nFiles d' b = (m : Int) + 1 ∧
      (∀ x, fnameAddr b 0 ≤ x → x < fnameAddr b m → d' x = d x) ∧
      (∀ x, x < SIZEOF_ROOT_DIRECTORY → d' x = d x) ∧
      (∀ x, x < BLOCK_SIZE * b ∨ BLOCK_SIZE * (b + 1) ≤ x → d' x = d x) ∧
      (∀ x, BITMAP_OFFSET ≤ x → d' x = d x) := by
  have hfiles : MAX_FILES_IN_DIR = 17 := by decide
  have hblocks : NUMBER_OF_BLOCKS = 8960 := by decide
  have hroot : SIZEOF_ROOT_DIRECTORY = 512 := by decide
  have hblk : BLOCK_SIZE = 512 := by decide
  rw [hfiles] at hcap
  rw [hblocks] at hb
  rw [hroot, hblk, BITMAP_OFFSET_eq, fnameAddr_eq, fnameAddr_eq]
  have hentry := mknod_create_entry d b m
    { dir_name := D, full_file_name := N ++ DOT :: E, file_name := N, extension_name := E }
    hNl hEl (by rw [hm]; omega)
  have hframe := mknod_create_frame d b m
    { dir_name := D, full_file_name := N ++ DOT :: E, file_name := N, extension_name := E }
    hNl hEl
  refine ⟨hfiles, _, mknod_eq_create d D N E junk b m hD hN (plain_of_not_mem E hE.1 hE.2)
    hDl hNl hEl hdir (by omega) hm hcap habs, hentry.2.1, hentry.2.2.1, hentry.2.2.2.1,
    hentry.2.2.2.2, ?_, ?_, ?_, ?_, ?_⟩
  · rw [hentry.1, hm]
  · intro x h1 h2
    exact hframe x (Or.inr (Or.inl ⟨by omega, by omega⟩))
  · intro x h1
    exact hframe x (Or.inl (by omega))
  · intro x h1
    exact hframe x (by omega)
  · intro x h1
    exact hframe x (Or.inr (Or.inr (by omega)))

set_option maxRecDepth 100000 in
/-- On `image1` the call `createFile("/docs/a.txt")` appends entry 0 to the record of `docs`
in block 511. -/
theorem mknod_postcondition_image1 :
    ∃ d', cs1550_mknod (SLASH :: (ascii ("docs") ++ SLASH :: (ascii ("a") ++ DOT :: ascii ("txt"))))
        noJunk image1 = some (0, d') ∧
      strEq d' (fnameAddr 511 0) (ascii ("a")) = true ∧
      strEq d' (fextAddr 511 0) (ascii ("txt")) = true ∧
      fsize d' 511 0 = 0 ∧ fileStart d' 511 0 = 0 ∧ nFiles d' 511 = ((0 : Nat) : Int) + 1 ∧
      (∀ x, fnameAddr 511 0 ≤ x → x < fnameAddr 511 0 → d' x = image1 x) ∧
      (∀ x, x < SIZEOF_ROOT_DIRECTORY → d' x = image1 x) ∧
      (∀ x, x < BLOCK_SIZE * 511 ∨ BLOCK_SIZE * (511 + 1) ≤ x → d' x = image1 x) ∧
      (∀ x, BITMAP_OFFSET ≤ x → d' x = image1 x) :=
  (mknod_postcondition image1 (ascii ("docs")) (ascii ("a")) (ascii ("txt")) noJunk 511 0
    (by decide) (by decide) (by decide) (by decide) (by decide) (by decide) (by decide)
    (by decide) (by decide) (by decide) (by decide)).2

theorem packed_fresh : Packed 0 fresh := by
  refine ⟨by decide, fun i hi => absurd hi (Nat.not_lt_zero i), fun j h1 h2 => ?_⟩
  have : ¬ (j < 511 + 512 * 0) := by omega
  simp only [this, decide_False]
  unfold bitmapBit fresh
  exact Nat.zero_testBit _

theorem packed_free (k : Nat) (d : Image) (h : Packed k d) (hk : k ≤ 1000) :
    get_free_block d = 511 + 512 * k := by
  apply get_free_block_eq d _ (by omega) (by omega)
  · intro j h1 h2
    rw [h.2.2 j h1 (by omega)]
    simp only [decide_eq_true_eq]
    exact h2
  · rw [h.2.2 _ (by omega) (by omega)]
    simp only [decide_eq_false_iff_not]
    omega

theorem packed_new (k : Nat) (d : Image) (h : Packed k d) (i : Nat) (hi : i < k) :
    strEq d (dnameAddr i) (dirName k) = false := by
  unfold dirName strEq
  rw [(h.2.1 i hi).2]
  have hb : (97 + i == 97 + k) = false := by
    rw [beq_eq_false_iff_ne]
    omega
  rw [hb, Bool.false_and]

theorem packed_step (k : Nat) (d : Image) (h : Packed k d) (hk : k ≤ 19) :
    cs1550_mkdir (SLASH :: dirName k) d = some (0, mkdir_image d k (dirName k)) ∧
    Packed (k + 1) (mkdir_image d k (dirName k)) := by
  have hfree := packed_free k d h (by omega)
  have hlen : (dirName k).length ≤ 8 := by
    unfold dirName
    simp only [List.length_cons, List.length_nil]
    omega
  have hslash : SLASH ∉ dirName k := by
    unfold dirName SLASH
    simp only [List.mem_singleton]
    omega
  refine ⟨mkdir_eq_image d (dirName k) k h.1 (by omega) hslash hlen
    (packed_new k d h) (by omega), ?_, ?_, ?_⟩
  · rw [mkdir_image_count d k _ (by omega)]
    push_cast
    rfl
  · intro i hi
    by_cases e : i = k
    · subst e
      refine ⟨?_, ?_⟩
      · rw [mkdir_image_start d i _ (by omega), hfree]
      · have hn := mkdir_image_name d i (dirName i) (by omega) hlen
        unfold dirName strEq at hn
        simp only [Bool.and_eq_true, beq_iff_eq] at hn
        exact hn.1
    · have hik : i < k := by omega
      refine ⟨?_, ?_⟩
      · rw [dirStart_congr (fun x h1 h2 =>
          mkdir_image_root d k (dirName k) hlen x (by omega) (by omega) (Or.inl (by omega)))]
        exact (h.2.1 i hik).1
      · rw [mkdir_image_root d k (dirName k) hlen _ (by rw [dnameAddr_eq]; omega)
          (by rw [dnameAddr_eq]; omega) (Or.inl (by rw [dnameAddr_eq]; omega))]
        exact (h.2.1 i hik).2
  · intro j h1 h2
    rw [mkdir_image_bit d k _ (by omega) hlen j (by rw [hfree]; omega), hfree,
      h.2.2 j h1 h2]
    by_cases c : j < 511 + 512 * k
    · have c2 : j < 511 + 512 * (k + 1) := by omega
      simp only [c, c2, decide_True, Bool.or_true]
    · by_cases c2 : j < 511 + 512 * (k + 1)
      · have c3 : 511 + 512 * k ≤ j ∧ j < 511 + 512 * k + 512 := by omega
        simp only [c, c2, c3, decide_True, decide_False, Bool.or_false, and_self]
      · have c3 : ¬ (511 + 512 * k ≤ j ∧ j < 511 + 512 * k + 512) := by omega
        simp only [c, c2, c3, decide_False, Bool.or_false]

/-- The first 20 calls succeed, and leave the directories packed. -/
theorem mkdirs_packed (k : Nat) (hk : k ≤ 20) : ∃ d, mkdirs k = some d ∧ Packed k d := by
  induction k with
  | zero => exact ⟨fresh, rfl, packed_fresh⟩
  | succ n ih =>
    obtain ⟨d, hd, hp⟩ := ih (by omega)
    obtain ⟨h1, h2⟩ := packed_step n d hp (by omega)
    refine ⟨mkdir_image d n (dirName n), ?_, h2⟩
    simp only [mkdirs, hd, h1, if_true]

/-- C28 (failing input): after 17 calls `createDirectory("/a")` ... `createDirectory("/q")`
on the fresh image the 18th call, `createDirectory("/r")`, returns success and records
start block 9215, which is not below `NUMBER_OF_BLOCKS = 8960`: the record of the new
directory lies in the bitmap. -/
theorem C28_start_block_beyond_block_array :
    NUMBER_OF_BLOCKS = 8960 ∧
    ∃ d17 d18, mkdirs 17 = some d17 ∧ nDirectories d17 = 17 ∧
      cs1550_mkdir (SLASH :: dirName 17) d17 = some (0, d18) ∧
      dirStart d18 17 = 9215 ∧ ¬ (dirStart d18 17 < NUMBER_OF_BLOCKS) ∧
      BITMAP_OFFSET ≤ nFilesAddr 9215 := by
  refine ⟨by decide, ?_⟩
  obtain ⟨d, hd, hp⟩ := mkdirs_packed 17 (by omega)
  obtain ⟨h1, h2⟩ := packed_step 17 d hp (by omega)
  have hstart : dirStart (mkdir_image d 17 (dirName 17)) 17 = 9215 := (h2.2.1 17 (by omega)).1
  refine ⟨d, _, hd, hp.1, h1, hstart, ?_, by decide⟩
  rw [hstart]
  decide

/-- C23 (failing input): after 20 calls `createDirectory("/a")` ...
`createDirectory("/t")` on the fresh image the root holds 20 directories, fewer than
`MAX_DIRS_IN_ROOT = 29`, the name `u` is new and the first free index is 10751;
`createDirectory("/u")` takes 10751 for a block index, stores `nFiles` outside the image
and yields no result. -/
theorem C23_mkdir_outside_image :
    MAX_DIRS_IN_ROOT = 29 ∧ blockInBounds 10751 = false ∧
    ∃ d20, mkdirs 20 = some d20 ∧ nDirectories d20 = 20 ∧
      (∀ i, i < 20 → strEq d20 (dnameAddr i) (dirName 20) = false) ∧
      get_free_block d20 = 10751 ∧
      cs1550_mkdir (SLASH :: dirName 20) d20 = none := by
  refine ⟨by decide, by decide, ?_⟩
  obtain ⟨d, hd, hp⟩ := mkdirs_packed 20 (by omega)
  have hfree := packed_free 20 d hp (by omega)
  refine ⟨d, hd, hp.1, packed_new 20 d hp, hfree, ?_⟩
  exact mkdir_fault d (dirName 20) 20 hp.1 (by omega) (by decide) (by decide)
    (packed_new 20 d hp) (by rw [hfree]; omega)

theorem mknod_fileB : cs1550_mknod filePathB noJunk image2 = some (0, image2b) := by
  unfold cs1550_mknod
  rfl

set_option maxRecDepth 100000 in
theorem write_helloA :
    cs1550_write filePath noJunk hello 5 0 image2b = some (5, image3ab) := by
  unfold cs1550_write
  simp only [write_allocate_eq_closed]
  rfl

set_option maxRecDepth 100000 in
theorem write_overB :
    cs1550_write filePathB noJunk patchBuf 260637 0 image3ab = some (260637, image4) := by
  unfold cs1550_write
  simp only [write_allocate_eq_closed]
  rfl

/-- C29 (failing input): on the fresh image, after `createDirectory("/docs")`,
`createFile("/docs/a.txt")`, `createFile("/docs/b.txt")` and a first write of 5 bytes to
`a.txt`, the entry of `a.txt` has start locator 1023 and size 5; a successful first write
of 260637 bytes to `b.txt` then leaves the entry of `a.txt` with start locator 0 and
size 0. -/
theorem C29_later_write_changes_extent :
    cs1550_mkdir docsPath fresh = some (0, image1) ∧
    cs1550_mknod filePath noJunk image1 = some (0, image2) ∧
    cs1550_mknod filePathB noJunk image2 = some (0, image2b) ∧
    cs1550_write filePath noJunk hello 5 0 image2b = some (5, image3ab) ∧
    lookupFile image3ab fileInfo = Found.found (511, 0) ∧
    fileStart image3ab 511 0 = 1023 ∧ fsize image3ab 511 0 = 5 ∧
    cs1550_write filePathB noJunk patchBuf 260637 0 image3ab = some (260637, image4) ∧
    lookupFile image4 fileInfo = Found.found (511, 0) ∧
    fileStart image4 511 0 = 0 ∧ fsize image4 511 0 = 0 :=
  ⟨mkdir_docs, mknod_file, mknod_fileB, write_helloA, by decide, by decide, by decide,
    write_overB, by decide, by decide, by decide⟩

/-- C27 (failing input): the state reached from the fresh image by
`createDirectory("/docs")`, `createFile("/docs/a.txt")`, `createFile("/docs/b.txt")`,
a write of 5 bytes to `a.txt` and a write of 260637 bytes to `b.txt`: the record of `docs`
is block 511, bytes 261632 to 262143, the data of `b.txt` are bytes 1028 to 261664, so
bytes 261632 to 261664 belong to both, and the last write has changed the first byte of
the start locator of `a.txt` in the record. -/
theorem C27_data_overlaps_directory_record :
    cs1550_mkdir docsPath fresh = some (0, image1) ∧
    cs1550_mknod filePath noJunk image1 = some (0, image2) ∧
    cs1550_mknod filePathB noJunk image2 = some (0, image2b) ∧
    cs1550_write filePath noJunk hello 5 0 image2b = some (5, image3ab) ∧
    cs1550_write filePathB noJunk patchBuf 260637 0 image3ab = some (260637, image4) ∧
    dirStart image4 0 = 511 ∧ lookupFile image4 fileInfoB = Found.found (511, 1) ∧
    fileStart image4 511 1 = 1028 ∧ fsize image4 511 1 = 260637 ∧
    (1028 ≤ BLOCK_SIZE * 511 ∧ BLOCK_SIZE * 511 < 1028 + 260637) ∧
    image3ab (fstartAddr 511 0) = 255 ∧ image4 (fstartAddr 511 0) = 0 :=
  ⟨mkdir_docs, mknod_file, mknod_fileB, write_helloA, write_overB, by decide, by decide,
    by decide, by decide, by decide, by decide, by decide⟩

theorem get_instance_clear (p q : Proc) (f : Bool) (h : get_instance p = some (q, f)) :
    q.dirty = false ∧ (p.dirty = false → f = false ∧ q.file = p.file ∧ q.mem = p.file) := by
  unfold get_instance write_to_disk at h
  split at h
  · split at h
    · cases h
    · rename_i hd
      cases h
      simp only [Bool.not_eq_true] at hd
      exact ⟨hd, fun _ => ⟨rfl, rfl, rfl⟩⟩
  · split at h
    · rename_i hd
      cases h
      refine ⟨rfl, fun hp => ?_⟩
      rw [hp] at hd
      cases hd
    · rename_i hd
      cases h
      simp only [Bool.not_eq_true] at hd
      exact ⟨hd, fun _ => ⟨rfl, rfl, rfl⟩⟩

theorem mkdir_proc_clear (path : List Nat) (p q : Proc) (r : Int) (hp : p.dirty = false)
    (h : cs1550_mkdir_proc path p = some (r, q)) : q.dirty = false := by
  unfold cs1550_mkdir_proc write_to_disk at h
  dsimp only at h
  cases hg : get_instance p with
  | none =>
    rw [hg] at h
    dsimp only at h
    split at h
    · cases h
      exact hp
    · split at h <;> cases h
  | some pr =>
    obtain ⟨p0, f⟩ := pr
    have hc := (get_instance_clear p p0 f hg).1
    rw [hg] at h
    dsimp only at h
    repeat' split at h
    all_goals cases h <;> first | exact hp | exact hc | rfl

theorem mknod_proc_clear (path : List Nat) (junk : PathInfo) (p q : Proc) (r : Int)
    (h : cs1550_mknod_proc path junk p = some (r, q)) : q.dirty = false := by
  unfold cs1550_mknod_proc write_to_disk at h
  cases hg : get_instance p with
  | none =>
    rw [hg] at h
    split at h <;> cases h
  | some pr =>
    obtain ⟨p0, f⟩ := pr
    have hc := (get_instance_clear p p0 f hg).1
    rw [hg] at h
    dsimp only at h
    repeat' split at h
    all_goals cases h <;> first | exact hc | rfl

theorem write_allocate_proc_clear (p : Proc) (b m size : Nat) (hp : p.dirty = false) :
    (write_allocate_proc p b m size).2.dirty = false := by
  unfold write_allocate_proc write_to_disk
  dsimp only
  by_cases h1 : fileStart p.mem b m = 0
  · rw [if_pos h1]
    by_cases h2 : (get_free_block p.mem + size) % 2 ^ 64 > SIZE_OF_DISK
    · rw [if_pos h2]
      exact hp
    · rw [if_neg h2]
  · rw [if_neg h1]
    exact hp

theorem write_proc_clear (path : List Nat) (junk : PathInfo) (buf : Buffer) (size : Nat)
    (offset : Int) (p q : Proc) (r : Int)
    (h : cs1550_write_proc path junk buf size offset p = some (r, q)) : q.dirty = false := by
  unfold cs1550_write_proc at h
  cases hg : get_instance p with
  | none =>
    rw [hg] at h
    dsimp only at h
    split at h <;> cases h
  | some pr =>
    obtain ⟨p0, f⟩ := pr
    have hc := (get_instance_clear p p0 f hg).1
    rw [hg] at h
    dsimp only at h
    split at h
    · cases h
    · split at h
      · cases h
      · cases h
        exact hc
      · rename_i b m _
        have hwa := write_allocate_proc_clear p0 b m size hc
        generalize write_allocate_proc p0 b m size = wa at h hwa
        split at h
        · cases h
          exact hwa
        · split at h
          · cases h
            exact hwa
          · split at h
            · cases h
              exact hwa
            · cases h
              exact hwa

theorem getattr_proc_clear (path : List Nat) (junk : PathInfo) (p q : Proc) (r : Int)
    (st : Stat) (h : cs1550_getattr_proc path junk p = some (r, st, q)) :
    q.dirty = false := by
  unfold cs1550_getattr_proc at h
  cases hg : get_instance p with
  | none =>
    rw [hg] at h
    split at h <;> cases h
  | some pr =>
    obtain ⟨p0, f⟩ := pr
    have hc := (get_instance_clear p p0 f hg).1
    rw [hg] at h
    dsimp only at h
    repeat' split at h
    all_goals cases h <;> exact hc

theorem readdir_proc_clear (path : List Nat) (junk : PathInfo) (p q : Proc) (r : Int)
    (out : List (List Nat)) (h : cs1550_readdir_proc path junk p = some (r, out, q)) :
    q.dirty = false := by
  unfold cs1550_readdir_proc at h
  cases hg : get_instance p with
  | none =>
    rw [hg] at h
    split at h <;> cases h
  | some pr =>
    obtain ⟨p0, f⟩ := pr
    have hc := (get_instance_clear p p0 f hg).1
    rw [hg] at h
    dsimp only at h
    repeat' split at h
    all_goals cases h <;> exact hc

theorem read_proc_clear (path : List Nat) (junk : PathInfo) (buf buf2 : Buffer) (size : Nat)
    (offset : Int) (p q : Proc) (r : Int) (hp : p.dirty = false)
    (h : cs1550_read_proc path junk buf size offset p = some (r, buf2, q)) :
    q.dirty = false := by
  unfold cs1550_read_proc at h
  cases hg : get_instance p with
  | none =>
    rw [hg] at h
    dsimp only at h
    split at h
    · cases h
    · split at h
      · cases h
        exact hp
      · cases h
  | some pr =>
    obtain ⟨p0, f⟩ := pr
    have hc := (get_instance_clear p p0 f hg).1
    rw [hg] at h
    dsimp only at h
    repeat' split at h
    all_goals cases h <;> first | exact hp | exact hc

theorem step_clear (p q : Proc) (hs : Step p q) (hp : p.dirty = false) : q.dirty = false := by
  cases hs with
  | getattr path junk _ _ r st h => exact getattr_proc_clear path junk p q r st h
  | readdir path junk _ _ r out h => exact readdir_proc_clear path junk p q r out h
  | mkdir path _ _ r h => exact mkdir_proc_clear path p q r hp h
  | mknod path junk _ _ r h => exact mknod_proc_clear path junk p q r h
  | read path junk buf buf2 size offset _ _ r h =>
    exact read_proc_clear path junk buf buf2 size offset p q r hp h
  | write path junk buf size offset _ _ r h =>
    exact write_proc_clear path junk buf size offset p q r h

theorem reachable_clear (p : Proc) (h : Reachable p) : p.dirty = false := by
  induction h with
  | init file mem => rfl
  | step p q _ hs ih => exact step_clear p q hs ih

theorem get_instance_of_clear (p : Proc) (hp : p.dirty = false) :
    ∃ p0, get_instance p = some (p0, false) ∧ p0.mem = p.file ∧ p0.file = p.file ∧
      p0.dirty = false := by
  unfold get_instance
  rw [hp]
  by_cases hl : p.loaded = true
  · rw [hl]
    exact ⟨_, rfl, rfl, rfl, rfl⟩
  · simp only [Bool.not_eq_true] at hl
    rw [hl]
    exact ⟨_, rfl, rfl, rfl, rfl⟩

/-- With `dirty` clear at entry the file `cs1550_mkdir_proc` leaves is the image
`cs1550_mkdir` computes from the file. -/
theorem mkdir_proc_file (path : List Nat) (p : Proc) (hp : p.dirty = false) :
    (cs1550_mkdir_proc path p).map (fun x => (x.1, x.2.file)) = cs1550_mkdir path p.file := by
  obtain ⟨p0, hg, hmem, hfile, _⟩ := get_instance_of_clear p hp
  unfold cs1550_mkdir_proc cs1550_mkdir write_to_disk
  dsimp only
  rw [hg]
  dsimp only
  rw [hmem]
  by_cases h1 : mkdir_scan path.reverse 0 0 ≠ 0
  · rw [if_pos h1, if_pos h1]
    rfl
  · rw [if_neg h1, if_neg h1]
    by_cases h2 : path.length = 0 ∨ path.length - 1 > 8
    · rw [if_pos h2, if_pos h2]
      rfl
    · rw [if_neg h2, if_neg h2]
      cases findDir p.file (List.drop 1 path) with
      | some j =>
        dsimp only
        by_cases h3 : (!dirInBounds j) = true
        · rw [if_pos h3, if_pos h3]
          rfl
        · rw [if_neg h3, if_neg h3]
          by_cases h4 : nDirectories p.file = (MAX_DIRS_IN_ROOT : Int)
          · rw [if_pos h4, if_pos h4]
            simp only [Option.map_some', hfile]
          · rw [if_neg h4, if_neg h4]
            simp only [Option.map_some', hfile]
      | none =>
        dsimp only
        by_cases h4 : nDirectories p.file = (MAX_DIRS_IN_ROOT : Int)
        · rw [if_pos h4, if_pos h4]
          simp only [Option.map_some', hfile]
        · rw [if_neg h4, if_neg h4]
          by_cases h5 : nDirectories p.file < 0 ∨
              (!dirInBounds (nDirectories p.file).toNat) = true
          · rw [if_pos h5, if_pos h5]
            rfl
          · rw [if_neg h5, if_neg h5]
            cases mkdir_create p.file (nDirectories p.file).toNat (List.drop 1 path) with
            | none => rfl
            | some d5 => rfl

/-- With `dirty` clear at entry the file `cs1550_mknod_proc` leaves is the image
`cs1550_mknod` computes from the file. -/
theorem mknod_proc_file (path : List Nat) (junk : PathInfo) (p : Proc)
    (hp : p.dirty = false) :
    (cs1550_mknod_proc path junk p).map (fun x => (x.1, x.2.file)) =
      cs1550_mknod path junk p.file := by
  obtain ⟨p0, hg, hmem, hfile, _⟩ := get_instance_of_clear p hp
  unfold cs1550_mknod_proc cs1550_mknod write_to_disk
  cases get_path_info_for_mknod path junk with
  | none => rfl
  | some ri =>
    obtain ⟨result0, pinfo⟩ := ri
    dsimp only
    rw [hg]
    dsimp only
    rw [hmem]
    by_cases h1 : (if path = [SLASH] then -EPERM else result0) ≠ 0
    · rw [if_pos h1, if_pos h1]
      simp only [Option.map_some', hfile]
    · rw [if_neg h1, if_neg h1]
      cases lookupDir p.file pinfo.dir_name with
      | fault => rfl
      | absent => simp only [Option.map_some', hfile]
      | found b =>
        dsimp only
        by_cases h2 : nFiles p.file b = (MAX_FILES_IN_DIR : Int)
        · rw [if_pos h2, if_pos h2]
          simp only [Option.map_some', hfile]
        · rw [if_neg h2, if_neg h2]
          cases findFile p.file b pinfo.file_name pinfo.extension_name with
          | some m =>
            dsimp only
            by_cases h3 : (!fileInBounds b m) = true
            · rw [if_pos h3, if_pos h3]
              rfl
            · rw [if_neg h3, if_neg h3]
              simp only [Option.map_some', hfile]
          | none =>
            dsimp only
            by_cases h3 : (!fileInBounds b (nFiles p.file b).toNat) = true
            · rw [if_pos h3, if_pos h3]
              rfl
            · rw [if_neg h3, if_neg h3]
              rfl

theorem write_allocate_proc_eq (p0 : Proc) (b m size : Nat) (h : p0.file = p0.mem) :
    (write_allocate_proc p0 b m size).1 = (write_allocate p0.mem b m size).1 ∧
    (write_allocate_proc p0 b m size).2.mem = (write_allocate p0.mem b m size).2 ∧
    (write_allocate_proc p0 b m size).2.file = (write_allocate p0.mem b m size).2 := by
  unfold write_allocate_proc write_to_disk
  dsimp only
  by_cases h1 : fileStart p0.mem b m = 0
  · rw [if_pos h1]
    by_cases h2 : (get_free_block p0.mem + size) % 2 ^ 64 > SIZE_OF_DISK
    · rw [if_pos h2]
      unfold write_allocate
      rw [if_pos h1, if_pos h2]
      exact ⟨rfl, rfl, h⟩
    · rw [if_neg h2]
      dsimp only
      have e : (write_allocate p0.mem b m size).1 = 0 := by
        unfold write_allocate
        rw [if_pos h1, if_neg h2]
      generalize write_allocate p0.mem b m size = wb at e ⊢
      exact ⟨e.symm, rfl, rfl⟩
  · rw [if_neg h1]
    unfold write_allocate
    rw [if_neg h1]
    exact ⟨rfl, rfl, h⟩

/-- With `dirty` clear at entry the file `cs1550_write_proc` leaves is the image
`cs1550_write` computes from the file. -/
theorem write_proc_file (path : List Nat) (junk : PathInfo) (buf : Buffer) (size : Nat)
    (offset : Int) (p : Proc) (hp : p.dirty = false) :
    (cs1550_write_proc path junk buf size offset p).map (fun x => (x.1, x.2.file)) =
      cs1550_write path junk buf size offset p.file := by
  obtain ⟨p0, hg, hmem, hfile, _⟩ := get_instance_of_clear p hp
  unfold cs1550_write_proc cs1550_write
  cases get_path_info path junk with
  | none => rfl
  | some pinfo =>
    dsimp only
    rw [hg]
    dsimp only
    rw [hmem]
    cases lookupFile p.file pinfo with
    | fault => rfl
    | absent => simp only [Option.map_some', hfile]
    | found bm =>
      obtain ⟨b, m⟩ := bm
      dsimp only
      obtain ⟨e1, e2, e3⟩ := write_allocate_proc_eq p0 b m size (by rw [hfile, hmem])
      rw [hmem] at e1 e2 e3
      generalize write_allocate_proc p0 b m size = wa at e1 e2 e3 ⊢
      generalize write_allocate p.file b m size = wb at e1 e2 e3 ⊢
      rw [e1, e2]
      by_cases h1 : (toUnsigned 64 offset + size) % 2 ^ 64 > fsize wb.2 b m
      · rw [if_pos h1, if_pos h1]
        simp only [Option.map_some', e3]
      · rw [if_neg h1, if_neg h1]
        by_cases h2 : wb.1 ≠ 0
        · rw [if_pos h2, if_pos h2]
          simp only [Option.map_some', e3]
        · rw [if_neg h2, if_neg h2]
          by_cases h3 : fileStart wb.2 b m + offset < 0
          · rw [if_pos h3, if_pos h3]
            simp only [Option.map_some', e3]
          · rw [if_neg h3, if_neg h3]
            simp only [Option.map_some', e3]

/-- With `dirty` clear at entry `cs1550_getattr_proc`, `cs1550_readdir_proc` and
`cs1550_read_proc` return what the handlers compute from the file, and leave the file as
it was. -/
theorem readers_proc_file (path : List Nat) (junk : PathInfo) (buf : Buffer) (size : Nat)
    (offset : Int) (p : Proc) (hp : p.dirty = false) :
    (cs1550_getattr_proc path junk p).map (fun x => (x.1, x.2.1, x.2.2.file)) =
      (cs1550_getattr path junk p.file).map (fun x => (x.1, x.2, p.file)) ∧
    (cs1550_readdir_proc path junk p).map (fun x => (x.1, x.2.1, x.2.2.file)) =
      (cs1550_readdir path junk p.file).map (fun x => (x.1, x.2, p.file)) ∧
    (cs1550_read_proc path junk buf size offset p).map (fun x => (x.1, x.2.2.file)) =
      (cs1550_read path junk buf size offset p.file).map (fun x => (x.1, p.file)) := by
  obtain ⟨p0, hg, hmem, hfile, _⟩ := get_instance_of_clear p hp
  refine ⟨?_, ?_, ?_⟩
  · unfold cs1550_getattr_proc
    rw [hg]
    dsimp only
    rw [hmem]
    cases hpi : get_path_info path junk with
    | none =>
      unfold cs1550_getattr
      rw [hpi]
      rfl
    | some pinfo =>
      dsimp only
      cases cs1550_getattr path junk p.file with
      | none => rfl
      | some x => simp only [Option.map_some', hfile]
  · unfold cs1550_readdir_proc
    rw [hg]
    dsimp only
    rw [hmem]
    cases hpi : get_path_info path junk with
    | none =>
      unfold cs1550_readdir
      rw [hpi]
      rfl
    | some pinfo =>
      dsimp only
      cases cs1550_readdir path junk p.file with
      | none => rfl
      | some x => simp only [Option.map_some', hfile]
  · unfold cs1550_read_proc
    rw [hg]
    dsimp only
    rw [hmem]
    cases hpi : get_path_info path junk with
    | none =>
      unfold cs1550_read
      rw [hpi]
      rfl
    | some pinfo =>
      dsimp only
      by_cases h1 : pinfo.full_file_name.length = 0
      · rw [if_pos h1]
        unfold cs1550_read
        rw [hpi]
        dsimp only
        rw [if_pos h1]
        rfl
      · rw [if_neg h1]
        cases cs1550_read path junk buf size offset p.file with
        | none => rfl
        | some x => simp only [Option.map_some', hfile]

theorem mkdir_proc_docs :
    ∃ q, cs1550_mkdir_proc docsPath procFresh = some (0, q) ∧ q.file = image1 := by
  have h := mkdir_proc_file docsPath procFresh rfl
  rw [show procFresh.file = fresh from rfl, mkdir_docs] at h
  obtain ⟨x, hx, hxe⟩ := Option.map_eq_some'.mp h
  obtain ⟨r, q⟩ := x
  simp only [Prod.mk.injEq] at hxe
  refine ⟨q, ?_, hxe.2⟩
  rw [hx, hxe.1]

/-- C26: a handler entered with `dirty` clear returns with `dirty` clear, whatever it
returns; hence in every state reachable from a start with `dirty` clear the flag is clear,
`get_instance` does not take its branch `if (dirty == true)`, and every handler call leads
to a reachable state with the flag clear. -/
theorem C26_dirty_flag_discipline (p : Proc) :
    (p.dirty = false → ∀ q, Step p q → q.dirty = false) ∧
    (Reachable p →
      p.dirty = false ∧ (∀ q f, get_instance p = some (q, f) → f = false) ∧
      ∀ q, Step p q → Reachable q ∧ q.dirty = false) := by
  refine ⟨fun hp q hs => step_clear p q hs hp, fun hr => ?_⟩
  have hp := reachable_clear p hr
  exact ⟨hp, fun q f hg => ((get_instance_clear p q f hg).2 hp).1,
    fun q hs => ⟨Reachable.step p q hr hs, step_clear p q hs hp⟩⟩

/-- C26 on the fresh file: the first call `createDirectory("/docs")` is a step from the
start state to a state whose file is `image1`, which is reachable and has the flag
clear. -/
theorem C26_witness :
    Reachable procFresh ∧
    ∃ q, Step procFresh q ∧ q.file = image1 ∧ Reachable q ∧ q.dirty = false := by
  obtain ⟨q, hq, hfile⟩ := mkdir_proc_docs
  exact ⟨Reachable.init fresh fresh, q, Step.mkdir docsPath procFresh q 0 hq, hfile,
    ((C26_dirty_flag_discipline procFresh).2 (Reachable.init fresh fresh)).2.2 q
      (Step.mkdir docsPath procFresh q 0 hq)⟩

theorem strAt_congr {d e : Image} (n a : Nat) (h : ∀ x, a ≤ x → x < a + n → d x = e x) :
    strAt d n a = strAt e n a := by
  induction n generalizing a with
  | zero => rfl
  | succ k ih =>
    simp only [strAt]
    rw [h a (le_refl _) (by omega), ih (a + 1) (fun x h1 h2 => h x (by omega) (by omega))]

theorem strEq_of_strAt (d : Image) (n a : Nat) (s : List Nat) (h : strAt d n a = s)
    (hl : s.length < n) : strEq d a s = true := by
  induction n generalizing a s with
  | zero => omega
  | succ k ih =>
    simp only [strAt] at h
    by_cases h0 : d a = 0
    · rw [if_pos h0] at h
      subst h
      simp only [strEq, h0, beq_self_eq_true]
    · rw [if_neg h0] at h
      subst h
      simp only [strEq, beq_self_eq_true, Bool.true_and]
      exact ih (a + 1) _ rfl (by simp only [List.length_cons] at hl; omega)

theorem strAt_of_strEq (d : Image) (n a : Nat) (s : List Nat) (h : strEq d a s = true)
    (h0 : 0 ∉ s) (hl : s.length < n) : strAt d n a = s := by
  induction n generalizing a s with
  | zero => omega
  | succ k ih =>
    cases s with
    | nil =>
      simp only [strEq, beq_iff_eq] at h
      simp only [strAt, h, if_true]
    | cons c cs =>
      simp only [strEq, Bool.and_eq_true, beq_iff_eq] at h
      have hc : c ≠ 0 := fun e => h0 (e ▸ List.mem_cons_self _ _)
      simp only [strAt, h.1, hc, if_false]
      rw [ih (a + 1) cs h.2 (fun hm => h0 (List.mem_cons_of_mem _ hm))
        (by simp only [List.length_cons] at hl; omega)]

theorem substring_nulfree (path : List Nat) (a b : Nat) (h : 0 ∉ path) :
    0 ∉ substring path a b := by
  unfold substring
  intro hm
  exact h (List.mem_of_mem_drop (List.mem_of_mem_take hm))

theorem scan_char_nulfree (path : List Nat) (i c : Nat) (s : ScanState) (h : 0 ∉ path)
    (hs : NulFree s.info) : NulFree (scan_char path i c s).info := by
  unfold scan_char
  by_cases hc : c = SLASH
  · rw [if_pos hc]
    dsimp only
    by_cases h2 : s.num_slash + 1 = 2
    · rw [if_pos h2]
      exact ⟨substring_nulfree path _ _ h, hs.2.1, hs.2.2.1, hs.2.2.2⟩
    · rw [if_neg h2]
      exact hs
  · rw [if_neg hc]
    by_cases hd : c = DOT
    · rw [if_pos hd]
      exact hs
    · rw [if_neg hd]
      exact hs

theorem at_end_nulfree (path : List Nat) (s : ScanState) (h : 0 ∉ path)
    (hs : NulFree s.info) : NulFree (at_end path s).info := by
  unfold at_end
  by_cases hd : s.in_dir = true
  · rw [if_pos hd]
    exact ⟨substring_nulfree path _ _ h, List.not_mem_nil _, List.not_mem_nil _,
      List.not_mem_nil _⟩
  · rw [if_neg hd]
    by_cases hf : s.in_file = true
    · rw [if_pos hf]
      exact ⟨hs.1, substring_nulfree path _ _ h, substring_nulfree path _ _ h,
        substring_nulfree path _ _ h⟩
    · rw [if_neg hf]
      exact hs

theorem loop_nulfree (path rest : List Nat) (i : Nat) (s : ScanState) (h : 0 ∉ path)
    (hs : NulFree s.info) : NulFree (get_path_info_loop path rest i s).info := by
  induction rest generalizing i s with
  | nil => exact hs
  | cons c cs ih =>
    simp only [get_path_info_loop]
    apply ih
    unfold get_path_info_step
    by_cases hl : i = path.length - 1
    · rw [if_pos hl]
      exact at_end_nulfree path _ h (scan_char_nulfree path i c s h hs)
    · rw [if_neg hl]
      exact scan_char_nulfree path i c s h hs

/-- The resolver hands back C strings when the path and the unset buffers are C
strings. -/
theorem get_path_info_nulfree (path : List Nat) (junk pinfo : PathInfo) (h : 0 ∉ path)
    (hj : NulFree junk) (hp : get_path_info path junk = some pinfo) : NulFree pinfo := by
  unfold get_path_info at hp
  dsimp only at hp
  split at hp
  · cases hp
  · cases hp
    exact loop_nulfree path path 0 _ h hj

theorem dirNameOf_congr {d e : Image} {i : Nat}
    (h : ∀ x, 4 + 17 * i ≤ x → x < 13 + 17 * i → d x = e x) :
    dirNameOf d i = dirNameOf e i := by
  unfold dirNameOf
  apply strAt_congr
  intro x h1 h2
  rw [dnameAddr_eq] at h1 h2
  have e9 : MAX_FILENAME + 1 = 9 := by decide
  rw [e9] at h2
  exact h x h1 (by omega)

theorem fileNameOf_congr {d e : Image} {b j : Nat}
    (h : ∀ x, 512 * b + 4 + 29 * j ≤ x → x < 512 * b + 17 + 29 * j → d x = e x) :
    fileNameOf d b j = fileNameOf e b j := by
  unfold fileNameOf
  have e9 : MAX_FILENAME + 1 = 9 := by decide
  have e4 : MAX_EXTENSION + 1 = 4 := by decide
  have a := @strAt_congr d e (MAX_FILENAME + 1) (fnameAddr b j) (fun x h1 h2 => by
    rw [fnameAddr_eq] at h1 h2
    rw [e9] at h2
    exact h x h1 (by omega))
  have c := @strAt_congr d e (MAX_EXTENSION + 1) (fextAddr b j) (fun x h1 h2 => by
    rw [fextAddr_eq] at h1 h2
    rw [e4] at h2
    exact h x (by omega) (by omega))
  rw [a, c]

theorem mkdir_image_meta (d : Image) (n : Nat) (D : List Nat) (hplaced : Placed d)
    (hmeta : MetaOK d) (hnd : nDirectories d = n) (hn : n ≤ 28) (hD : D.length ≤ 8)
    (h0 : 0 ∉ D) (hnew : ∀ i, i < n → strEq d (dnameAddr i) D = false) :
    MetaOK (mkdir_image d n D) := by
  have hmax : (MAX_DIRS_IN_ROOT : Int) = 29 := by decide
  have hfiles : (MAX_FILES_IN_DIR : Int) = 17 := by decide
  have hblocks : (NUMBER_OF_BLOCKS : Int) = 8960 := by decide
  have e9 : MAX_FILENAME + 1 = 9 := by decide
  have hsb := get_free_block_bounds d
  obtain ⟨_, hnames, hrec⟩ := hmeta
  rw [hnd, Int.toNat_ofNat] at hnames hrec
  unfold Placed at hplaced
  rw [hnd, Int.toNat_ofNat] at hplaced
  have hcount := mkdir_image_count d n D hn
  have hold : ∀ i, i < n → dirNameOf (mkdir_image d n D) i = dirNameOf d i := fun i hi =>
    dirNameOf_congr (fun x h1 h2 =>
      mkdir_image_root d n D hD x (by omega) (by omega) (Or.inl (by omega)))
  have hnewname : dirNameOf (mkdir_image d n D) n = D := by
    unfold dirNameOf
    exact strAt_of_strEq _ _ _ _ (mkdir_image_name d n D hn hD) h0 (by rw [e9]; omega)
  have hstart : ∀ i, i < n → dirStart (mkdir_image d n D) i = dirStart d i := fun i hi =>
    dirStart_congr (fun x h1 h2 =>
      mkdir_image_root d n D hD x (by omega) (by omega) (Or.inl (by omega)))
  have hzero := mkdir_image_nFiles d n D
  refine ⟨by rw [hcount, hmax]; omega, ?_, ?_⟩
  · rw [hcount]
    intro j hj i hi
    have hj' : j < n + 1 := by omega
    by_cases e : j = n
    · subst e
      rw [hold i hi, hnewname]
      intro heq
      have := strEq_of_strAt d _ _ D heq (by rw [e9]; omega)
      rw [hnew i hi] at this
      cases this
    · rw [hold i (by omega), hold j (by omega)]
      exact hnames j (by omega) i hi
  · rw [hcount]
    intro i hi
    have hi' : i < n + 1 := by omega
    by_cases e : i = n
    · subst e
      rw [mkdir_image_start d i D hn, Int.toNat_ofNat, hzero]
      refine ⟨by rw [hfiles]; omega, fun k hk => ?_⟩
      simp only [Int.toNat_zero] at hk
      omega
    · have hin : i < n := by omega
      rw [hstart i hin]
      obtain ⟨hb1, hb2⟩ := hplaced i hin
      rw [hblocks] at hb2
      obtain ⟨hc, hu⟩ := hrec i hin
      rw [hfiles] at hc
      generalize hbe : (dirStart d i).toNat = b at hc hu ⊢
      have hbr : 1 ≤ b ∧ b ≤ 8959 := by omega
      by_cases eb : b = get_free_block d
      · rw [eb, hzero]
        refine ⟨by rw [hfiles]; omega, fun k hk => ?_⟩
        simp only [Int.toNat_zero] at hk
        omega
      · have hfr : ∀ x, 512 * b ≤ x → x < 512 * b + 512 → mkdir_image d n D x = d x :=
          fun x h1 h2 => mkdir_image_blocks d n D hn hD x (by omega) (by omega) (by omega)
        have hnf : nFiles (mkdir_image d n D) b = nFiles d b :=
          nFiles_congr (fun x h1 h2 => hfr x h1 (by omega))
        rw [hnf]
        refine ⟨by rw [hfiles]; exact hc, fun k hk j hj => ?_⟩
        have hk17 : k < 17 := by omega
        rw [fileNameOf_congr (fun x h1 h2 => hfr x (by omega) (by omega)),
          fileNameOf_congr (fun x h1 h2 => hfr x (by omega) (by omega))]
        exact hu k hk j hj

theorem findFile_none_strEq (d : Image) (b : Nat) (N E : List Nat)
    (h : findFile d b N E = none) (j : Nat) (hj : j < (nFiles d b).toNat)
    (hin : fileInBounds b j = true) :
    (strEq d (fnameAddr b j) N && strEq d (fextAddr b j) E) = false := by
  unfold findFile firstIndex at h
  rw [firstFrom_eq_none] at h
  have := h j (Nat.zero_le _) (by omega)
  rw [hin] at this
  simpa using this

theorem mknod_create_meta (d : Image) (b : Nat) (pinfo : PathInfo) (hplaced : Placed d)
    (hmeta : MetaOK d) (h0 : 0 ≤ nDirectories d) (hb : 1 ≤ b ∧ b ≤ 8959)
    (hfn : pinfo.file_name.length ≤ 8) (hext : pinfo.extension_name.length ≤ 3)
    (hnul : 0 ∉ pinfo.file_name ∧ 0 ∉ pinfo.extension_name)
    (hcount : nFiles d b ≤ 16)
    (hrecb : ∀ k, k < (nFiles d b).toNat → ∀ j, j < k → fileNameOf d b j ≠ fileNameOf d b k)
    (habs : findFile d b pinfo.file_name pinfo.extension_name = none) :
    MetaOK (mknod_create d b (nFiles d b).toNat pinfo) := by
  have hmax : (MAX_DIRS_IN_ROOT : Int) = 29 := by decide
  have hfiles : (MAX_FILES_IN_DIR : Int) = 17 := by decide
  have hblocks : (NUMBER_OF_BLOCKS : Int) = 8960 := by decide
  have e9 : MAX_FILENAME + 1 = 9 := by decide
  have e4 : MAX_EXTENSION + 1 = 4 := by decide
  obtain ⟨hroot, hnames, hrec⟩ := hmeta
  rw [hmax] at hroot
  unfold Placed at hplaced
  generalize hm : (nFiles d b).toNat = m at hrecb habs ⊢
  have hm16 : m ≤ 16 := by omega
  have hframe := mknod_create_frame d b m pinfo hfn hext
  have hentry := mknod_create_entry d b m pinfo hfn hext (by omega)
  generalize mknod_create d b m pinfo = d' at hframe hentry ⊢
  have hnd : nDirectories d' = nDirectories d :=
    nDirectories_congr (fun x hx => hframe x (Or.inl (by omega)))
  have hname : ∀ i, i < (nDirectories d).toNat → dirNameOf d' i = dirNameOf d i :=
    fun i hi => dirNameOf_congr (fun x h1 h2 => hframe x (Or.inl (by omega)))
  have hstart : ∀ i, i < (nDirectories d).toNat → dirStart d' i = dirStart d i :=
    fun i hi => dirStart_congr (fun x h1 h2 => hframe x (Or.inl (by omega)))
  refine ⟨by rw [hnd, hmax]; exact hroot, ?_, ?_⟩
  · rw [hnd]
    intro j hj i hi
    rw [hname i (by omega), hname j hj]
    exact hnames j hj i hi
  · rw [hnd]
    intro i hi
    rw [hstart i hi]
    obtain ⟨hb1, hb2⟩ := hplaced i hi
    rw [hblocks] at hb2
    obtain ⟨hc, hu⟩ := hrec i hi
    rw [hfiles] at hc
    generalize hbe : (dirStart d i).toNat = c at hc hu ⊢
    have hcr : 1 ≤ c ∧ c ≤ 8959 := by omega
    by_cases ec : c = b
    · subst ec
      rw [hentry.1]
      refine ⟨by rw [hfiles]; omega, fun k hk j hj => ?_⟩
      have hkm : k ≤ m := by omega
      have hjm : j < m := by omega
      have hj_old : fileNameOf d' c j = fileNameOf d c j :=
        fileNameOf_congr (fun x h1 h2 =>
          hframe x (Or.inr (Or.inl ⟨by omega, by omega⟩)))
      by_cases ek : k = m
      · subst ek
        have hnew : fileNameOf d' c k = (pinfo.file_name, pinfo.extension_name) := by
          unfold fileNameOf
          rw [strAt_of_strEq _ _ _ _ hentry.2.1 hnul.1 (by rw [e9]; omega),
            strAt_of_strEq _ _ _ _ hentry.2.2.1 hnul.2 (by rw [e4]; omega)]
        rw [hj_old, hnew]
        intro heq
        unfold fileNameOf at heq
        obtain ⟨q1, q2⟩ := Prod.mk.inj heq
        have h1 := strEq_of_strAt d _ _ _ q1 (by rw [e9]; omega)
        have h2 := strEq_of_strAt d _ _ _ q2 (by rw [e4]; omega)
        have h3 := findFile_none_strEq d c _ _ habs j (by omega)
          ((fileInBounds_iff c j).mpr (by omega))
        rw [h1, h2] at h3
        cases h3
      · have hk_old : fileNameOf d' c k = fileNameOf d c k :=
          fileNameOf_congr (fun x h1 h2 =>
            hframe x (Or.inr (Or.inl ⟨by omega, by omega⟩)))
        rw [hj_old, hk_old]
        exact hrecb k (by omega) j hj
    · have hfr : ∀ x, 512 * c ≤ x → x < 512 * c + 512 → d' x = d x :=
        fun x h1 h2 => hframe x (by omega)
      have hnf : nFiles d' c = nFiles d c :=
        nFiles_congr (fun x h1 h2 => hfr x h1 (by omega))
      rw [hnf]
      refine ⟨by rw [hfiles]; exact hc, fun k hk j hj => ?_⟩
      rw [fileNameOf_congr (fun x h1 h2 => hfr x (by omega) (by omega)),
        fileNameOf_congr (fun x h1 h2 => hfr x (by omega) (by omega))]
      exact hu k hk j hj

theorem mkdir_fail_unchanged (path : List Nat) (d d' : Image) (r : Int)
    (h : cs1550_mkdir path d = some (r, d')) (hr : r ≠ 0) : d' = d := by
  unfold cs1550_mkdir at h
  dsimp only at h
  repeat' split at h
  all_goals cases h <;> first | rfl | exact absurd rfl hr

theorem mknod_fail_unchanged (path : List Nat) (junk : PathInfo) (d d' : Image) (r : Int)
    (h : cs1550_mknod path junk d = some (r, d')) (hr : r ≠ 0) : d' = d := by
  unfold cs1550_mknod at h
  cases hinfo : get_path_info_for_mknod path junk with
  | none =>
    rw [hinfo] at h
    cases h
  | some ri =>
    obtain ⟨result0, pinfo⟩ := ri
    rw [hinfo] at h
    dsimp only at h
    by_cases h1 : (if path = [SLASH] then -EPERM else result0) ≠ 0
    · rw [if_pos h1] at h
      cases h
      rfl
    · rw [if_neg h1] at h
      cases hl : lookupDir d pinfo.dir_name with
      | fault =>
        rw [hl] at h
        cases h
      | absent =>
        rw [hl] at h
        cases h
        rfl
      | found b =>
        rw [hl] at h
        dsimp only at h
        by_cases h2 : nFiles d b = (MAX_FILES_IN_DIR : Int)
        · rw [if_pos h2] at h
          cases h
          rfl
        · rw [if_neg h2] at h
          cases hf : findFile d b pinfo.file_name pinfo.extension_name with
          | some m =>
            rw [hf] at h
            dsimp only at h
            by_cases h3 : (!fileInBounds b m) = true
            · rw [if_pos h3] at h
              cases h
            · rw [if_neg h3] at h
              cases h
              rfl
          | none =>
            rw [hf] at h
            dsimp only at h
            by_cases h3 : (!fileInBounds b (nFiles d b).toNat) = true
            · rw [if_pos h3] at h
              cases h
            · rw [if_neg h3] at h
              cases h
              exact absurd rfl hr

/-- On an image whose root entries refer to blocks of the block array other than
block 0, if at most 29 root entries with pairwise distinct names are recorded and every
directory record holds at most 17 files with pairwise distinct (name, extension) pairs,
then the same holds of the image after any `createDirectory` or `createFile` call that
returns, whatever its result; paths and unset buffers are C strings. -/
theorem creation_preserves_meta (d d' : Image) (r : Int) (path : List Nat)
    (junk : PathInfo) (hplaced : Placed d) (hmeta : MetaOK d) (hpath : 0 ∉ path)
    (hjunk : NulFree junk) :
    (cs1550_mkdir path d = some (r, d') → MetaOK d') ∧
    (cs1550_mknod path junk d = some (r, d') → MetaOK d') := by
  have hmax : (MAX_DIRS_IN_ROOT : Int) = 29 := by decide
  have hfiles : (MAX_FILES_IN_DIR : Int) = 17 := by decide
  have hblocks : (NUMBER_OF_BLOCKS : Int) = 8960 := by decide
  constructor
  · intro h
    by_cases hr : r = 0
    · subst hr
      obtain ⟨_, hlen, hfind, hne, h0, hcreate⟩ := mkdir_success_inv path d d' h
      have hroot := hmeta.1
      rw [hmax] at hroot hne
      generalize hn : (nDirectories d).toNat = n at hcreate
      have hnd : nDirectories d = (n : Int) := by omega
      have hD : (path.drop 1).length ≤ 8 := by
        rw [List.length_drop]
        exact hlen
      by_cases hs : get_free_block d ≤ 10239
      · rw [mkdir_create_eq_image d n _ (by omega) hnd hD hs] at hcreate
        cases hcreate
        exact mkdir_image_meta d n _ hplaced hmeta hnd (by omega) hD
          (fun hm => hpath (List.mem_of_mem_drop hm))
          (fun i hi => findDir_none_strEq d _ hfind i (by omega))
      · rw [mkdir_create_fault d n _ (by omega) hD (by omega)] at hcreate
        cases hcreate
    · rw [mkdir_fail_unchanged path d d' r h hr]
      exact hmeta
  · intro h
    by_cases hr : r = 0
    · subst hr
      obtain ⟨pinfo, b, hinfo, hdir, hfull, habs, _, hd'⟩ := mknod_success_inv path junk d d' h
      obtain ⟨hgp, hfn, hext, _, _⟩ := mknod_info_inv path junk pinfo hinfo
      have hnul := get_path_info_nulfree path junk pinfo hpath hjunk hgp
      obtain ⟨i, _, hi, _, _, hb⟩ := lookupDir_found_inv d _ b hdir
      obtain ⟨hb1, hb2⟩ := hplaced i hi
      rw [hblocks] at hb2
      obtain ⟨hc, hu⟩ := hmeta.2.2 i hi
      rw [← hb, hfiles] at hc
      rw [← hb] at hu
      rw [hfiles] at hfull
      rw [hd']
      exact mknod_create_meta d b pinfo hplaced hmeta (by omega) (by omega) hfn hext
        ⟨hnul.2.2.1, hnul.2.2.2⟩ (by omega) hu habs
    · rw [mknod_fail_unchanged path junk d d' r h hr]
      exact hmeta

/-- The image `image1` holds the directory `docs` without files:
`createFile("/docs/a.txt")` leads to `image2`, where the invariant holds again. -/
theorem creation_preserves_meta_image1 :
    Placed image1 ∧ MetaOK image1 ∧
    cs1550_mknod filePath noJunk image1 = some (0, image2) ∧ MetaOK image2 :=
  ⟨by decide, by decide, mknod_file,
   (creation_preserves_meta image1 image2 0 filePath noJunk (by decide) (by decide)
     (by decide) (by decide)).2 mknod_file⟩

theorem mknod_long : cs1550_mknod longPath noJunk image1 = some (0, imageLong) := by
  unfold cs1550_mknod
  rfl

/-- C32 (failing input): `createFile("/docs/abcdefgh.txt")` succeeds and stores the name
`abcdefgh` and the extension `txt`; `fname + "." + fext` with its NUL byte takes 13
bytes, the buffer of `cs1550_readdir` has `MAX_FILENAME + MAX_EXTENSION + 1 = 12`, and
`listDirectory("/docs")` has no result because `strcat` stores past the buffer. -/
theorem C32_listing_buffer_overrun :
    cs1550_mknod longPath noJunk image1 = some (0, imageLong) ∧
    ValidImage imageLong ∧
    cstr imageLong (fnameAddr 511 0) = some (ascii ("abcdefgh")) ∧
    cstr imageLong (fextAddr 511 0) = some (ascii ("txt")) ∧
    (ascii ("abcdefgh")).length ≤ MAX_FILENAME ∧ (ascii ("txt")).length ≤ MAX_EXTENSION ∧
    MAX_FILENAME + MAX_EXTENSION + 1 = 12 ∧
    (ascii ("abcdefgh")).length + 1 + (ascii ("txt")).length + 1 = 13 ∧
    cs1550_readdir docsPath noJunk imageLong = none :=
  ⟨mknod_long, by decide, by decide!, by decide!, by decide, by decide, by decide, by decide,
    by decide!⟩

theorem deepPath_info (junk : PathInfo) :
    get_path_info deepPath junk =
      some { dir_name := ascii ("d"), full_file_name := ascii ("a.t"),
             file_name := ascii ("a"), extension_name := ascii ("t") } := by
  rfl

theorem scan_char_seg (path : List Nat) (i c : Nat) (s : ScanState) (h : segInv s i)
    (h0 : i = 0 → c = SLASH) : segInv (scan_char path i c s) (i + 1) := by
  obtain ⟨h1, h2⟩ := h
  have hds : DOT ≠ SLASH := by decide
  unfold scan_char
  by_cases hc : c = SLASH
  · rw [if_pos hc]
    exact ⟨fun _ => ⟨Or.inl rfl, Nat.lt_succ_self i⟩, fun hf => by cases hf⟩
  · rw [if_neg hc]
    have hi : 1 ≤ i := by
      rcases Nat.eq_zero_or_pos i with e | e
      · exact absurd (h0 e) hc
      · exact e
    by_cases hd : c = DOT
    · rw [if_pos hd]
      exact ⟨fun _ => ⟨Or.inr rfl, Nat.lt_succ_of_lt (h1 hi).2⟩,
        fun _ => ⟨(h1 hi).2, Nat.lt_succ_self i⟩⟩
    · rw [if_neg hd]
      exact ⟨fun _ => ⟨(h1 hi).1, Nat.lt_succ_of_lt (h1 hi).2⟩,
        fun hf => ⟨(h2 hf).1, Nat.lt_succ_of_lt (h2 hf).2⟩⟩

theorem at_end_file_name (path : List Nat) (s : ScanState)
    (h : segInv s path.length) (hl : 1 ≤ path.length) :
    (at_end path s).info.full_file_name = [] → (at_end path s).info.file_name = [] := by
  obtain ⟨h1, h2⟩ := h
  unfold at_end
  by_cases hd : s.in_dir = true
  · rw [if_pos hd]
    exact fun _ => rfl
  · rw [if_neg hd]
    have hf : s.in_file = true := by
      rcases (h1 hl).1 with e | e
      · exact absurd e hd
      · exact e
    rw [if_pos hf]
    intro hfull
    exfalso
    have hlen := congrArg List.length hfull
    simp only [substring, List.length_take, List.length_drop, List.length_nil] at hlen
    have := h2 hf
    omega

theorem loop_file_name (path rest : List Nat) (i : Nat) (s : ScanState)
    (hlen : i + rest.length = path.length) (hne : rest ≠ []) (h : segInv s i)
    (h0 : i = 0 → ∃ tl, rest = SLASH :: tl) :
    (get_path_info_loop path rest i s).info.full_file_name = [] →
      (get_path_info_loop path rest i s).info.file_name = [] := by
  induction rest generalizing i s with
  | nil => exact absurd rfl hne
  | cons c cs ih =>
    have hc : i = 0 → c = SLASH := by
      intro e
      obtain ⟨tl, htl⟩ := h0 e
      exact (List.cons.inj htl).1
    have hs := scan_char_seg path i c s h hc
    simp only [List.length_cons] at hlen
    simp only [get_path_info_loop]
    unfold get_path_info_step
    cases cs with
    | nil =>
      simp only [List.length_nil] at hlen
      rw [if_pos (by omega)]
      simp only [get_path_info_loop]
      have hlast : i + 1 = path.length := by omega
      rw [hlast] at hs
      exact at_end_file_name path _ hs (by omega)
    | cons c2 cs2 =>
      simp only [List.length_cons] at hlen
      rw [if_neg (by omega)]
      exact ih (i + 1) _ (by simp only [List.length_cons]; omega) (by simp) hs
        (fun e => by omega)

/-- For a path that starts with `'/'` the resolver hands back an empty file name whenever
it hands back an empty full file name. -/
theorem get_path_info_file_name (rest : List Nat) (junk pinfo : PathInfo)
    (h : get_path_info (SLASH :: rest) junk = some pinfo)
    (hfull : pinfo.full_file_name = []) : pinfo.file_name = [] := by
  unfold get_path_info at h
  dsimp only at h
  split at h
  · cases h
  · cases h
    exact loop_file_name (SLASH :: rest) (SLASH :: rest) 0 (get_path_info_init junk)
      (by simp) (by simp)
      ⟨fun h => by omega, fun hf => by simp [get_path_info_init] at hf⟩
      (fun _ => ⟨rest, rfl⟩) hfull

theorem getattr_directory_depth (d : Image) (rest : List Nat) (junk : PathInfo)
    (h : cs1550_getattr (SLASH :: rest) junk d = some (0, Stat.directory)) :
    rest = [] ∨ slash_count (SLASH :: rest) = 1 := by
  have hpos : 1 ≤ slash_count (SLASH :: rest) := by
    unfold slash_count
    rw [List.count_cons_self]
    omega
  unfold cs1550_getattr at h
  cases hp : get_path_info (SLASH :: rest) junk with
  | none =>
    rw [hp] at h
    cases h
  | some pinfo =>
    rw [hp] at h
    dsimp only at h
    by_cases h1 : SLASH :: rest = [SLASH]
    · exact Or.inl (List.cons.inj h1).2
    · rw [if_neg h1] at h
      by_cases h2 : pinfo.file_name.length = 0 ∧ slash_count (SLASH :: rest) ≥ 2
      · rw [if_pos h2] at h
        cases h
      · rw [if_neg h2] at h
        by_cases h3 : pinfo.full_file_name.length = 0
        · have hfn := get_path_info_file_name rest junk pinfo hp (List.length_eq_zero.mp h3)
          rw [hfn] at h2
          simp only [List.length_nil, true_and, not_le] at h2
          exact Or.inr (by omega)
        · rw [if_neg h3] at h
          cases hl : lookupFile d pinfo with
          | fault =>
            rw [hl] at h
            cases h
          | absent =>
            rw [hl] at h
            cases h
          | found x =>
            rw [hl] at h
            cases h

theorem getattr_deep (junk : PathInfo) :
    cs1550_getattr deepPath junk sampleImage = some (0, Stat.regular) := by
  rw [getattr_junk deepPath junk noJunk sampleImage (by rw [deepPath_info, deepPath_info])]
  decide

theorem mknod_deep (junk : PathInfo) :
    cs1550_mknod deepPath junk sampleImage = some (-EPERM, sampleImage) := by
  rw [mknod_junk deepPath junk noJunk sampleImage (by rw [deepPath_info, deepPath_info])]
  unfold cs1550_mknod
  rfl

/-- C31 (failing input): for a path that starts with `'/'`, `getAttributes` reports a
directory only for `/` and for paths with exactly one `'/'`; but on `sampleImage`, which
holds the file `a.t` in the directory `d`, `getAttributes("/d/x/a.t")` returns success
with regular-file kind although the path has three `'/'` (`createFile` rejects that path
with `-EPERM`), and `getAttributes("/a.t")` does so for a path with one `'/'` when the
unset buffer `dir_name` holds `d`. -/
theorem C31_getattr_depth :
    (∀ (d : Image) (rest : List Nat) (junk : PathInfo),
      cs1550_getattr (SLASH :: rest) junk d = some (0, Stat.directory) →
        rest = [] ∨ slash_count (SLASH :: rest) = 1) ∧
    slash_count deepPath = 3 ∧
    (∀ junk, cs1550_getattr deepPath junk sampleImage = some (0, Stat.regular)) ∧
    (∀ junk, cs1550_mknod deepPath junk sampleImage = some (-EPERM, sampleImage)) ∧
    slash_count (ascii ("/a.t")) = 1 ∧
    cs1550_getattr (ascii ("/a.t")) junkD sampleImage = some (0, Stat.regular) :=
  ⟨getattr_directory_depth, by decide, getattr_deep, mknod_deep, by decide, by decide⟩

theorem mkdir_dotted : cs1550_mkdir (ascii ("/a.b")) fresh = some (0, imageDotted) := by
  unfold cs1550_mkdir
  simp only [mkdir_create_eq_closed]
  rfl

theorem read_dotted (junk : PathInfo) (buf : Buffer) (size : Nat) (offset : Int) :
    cs1550_read (ascii ("/a.b")) junk buf size offset imageDotted = some (0, buf) := by
  have hp : get_path_info (ascii ("/a.b")) junk =
      some { dir_name := junk.dir_name, full_file_name := ascii ("a.b"),
             file_name := ascii ("a"), extension_name := ascii ("b") } := by
    rfl
  have hn : nDirectories imageDotted = 1 := by decide
  have hb : dirInBounds 0 = true := by decide
  have hs : startAssert (dirStart imageDotted 0) = true := by decide
  have hst : (dirStart imageDotted 0).toNat = 511 := by decide
  have hbl : blockInBounds 511 = true := by decide
  have hf : findFile imageDotted 511 (ascii ("a")) (ascii ("b")) = none := by decide
  unfold cs1550_read
  rw [hp]
  dsimp only
  rw [if_neg (by decide)]
  have hl : lookupFile imageDotted
      { dir_name := junk.dir_name, full_file_name := ascii ("a.b"),
        file_name := ascii ("a"), extension_name := ascii ("b") } = Found.absent := by
    unfold lookupFile lookupDir findDir firstIndex
    rw [hn]
    simp only [Int.toNat_one, firstFrom, hb, Bool.not_true, Bool.false_or]
    by_cases e : strEq imageDotted (dnameAddr 0) junk.dir_name = true
    · rw [if_pos e]
      simp only [hb, hs, hst, hbl, hf, Bool.not_true, Bool.or_self, Bool.false_eq_true, if_false]
    · rw [if_neg e]
  rw [hl]

/-- C14 fails for a directory whose name holds a dot: on the fresh image
`createDirectory("/a.b")` returns success and `listDirectory("/")` lists `a.b`, but
`read("/a.b")` returns 0, not `-EISDIR`, for every size, offset and buffer and whatever
the unset buffers of the resolver hold. -/
theorem C14_counterexample :
    cs1550_mkdir (ascii ("/a.b")) fresh = some (0, imageDotted) ∧
    cs1550_readdir [SLASH] noJunk imageDotted =
      some (0, [ascii ("."), ascii (".."), ascii ("a.b")]) ∧
    (∀ (junk : PathInfo) (buf : Buffer) (size : Nat) (offset : Int),
      cs1550_read (ascii ("/a.b")) junk buf size offset imageDotted = some (0, buf)) :=
  ⟨mkdir_dotted, by decide!, read_dotted⟩

set_option maxRecDepth 100000 in
theorem write_huge :
    cs1550_write filePath noJunk hugeBuf 260613 0 image2 = some (260613, imageHuge) := by
  unfold cs1550_write
  simp only [write_allocate_eq_closed]
  rfl

/-- The loop over the file entries has no result when one of its indices refers to an
entry outside the structure. -/
theorem readdir_files_loop_fault (d : Image) (b fuel j : Nat) (out : List (List Nat))
    (k : Nat) (h1 : j ≤ k) (h2 : k < j + fuel) (hk : fileInBounds b k = false) :
    readdir_files_loop d b fuel j out = none := by
  induction fuel generalizing j out with
  | zero => omega
  | succ n ih =>
    unfold readdir_files_loop
    by_cases hin : fileInBounds b j = true
    · have hjk : j ≠ k := by
        intro e
        rw [e, hk] at hin
        cases hin
      simp only [hin, Bool.not_true, Bool.false_eq_true, if_false]
      cases cstr d (fnameAddr b j) with
      | none => rfl
      | some fname =>
        cases cstr d (fextAddr b j) with
        | none => rfl
        | some fext =>
          dsimp only
          split
          · rfl
          · exact ih (j + 1) _ (by omega) (by omega)
    · simp only [Bool.not_eq_true] at hin
      simp only [hin, Bool.not_false, if_true]

/-- The loop over the root entries has no result when the file loop of a matching entry
has none. -/
theorem readdir_dirs_loop_fault (d : Image) (dir_name : List Nat) (fuel i b n : Nat)
    (out : List (List Nat)) (hb : dirInBounds i = true)
    (he : strEq d (dnameAddr i) dir_name = true)
    (hst : (dirStart d i).toNat = b) (hnf : (nFiles d b).toNat = n)
    (hf : readdir_files_loop d b n 0 out = none) :
    readdir_dirs_loop d dir_name (fuel + 1) i out = none := by
  subst hst
  subst hnf
  unfold readdir_dirs_loop
  rw [hb, he, hf]
  simp only [Bool.not_true, Bool.false_eq_true, if_false, if_true]
  split
  · rfl
  · split <;> rfl

/-- The handler `cs1550_readdir` has no result when its loop over the root entries has
none. -/
theorem readdir_fault (path : List Nat) (junk pinfo : PathInfo) (d : Image) (fuel : Nat)
    (hp : get_path_info path junk = some pinfo) (hne : path ≠ [SLASH])
    (hn : (nDirectories d).toNat = fuel)
    (hd : readdir_dirs_loop d pinfo.dir_name fuel 0 [[DOT], [DOT, DOT]] = none) :
    cs1550_readdir path junk d = none := by
  subst hn
  unfold cs1550_readdir
  rw [hp]
  dsimp only
  rw [if_neg hne, hd]

theorem readdir_huge : cs1550_readdir docsPath noJunk imageHuge = none :=
  readdir_fault docsPath noJunk
    { dir_name := ascii ("docs"), full_file_name := [], file_name := [],
      extension_name := [] } imageHuge (0 + 1) (by decide) (by decide) (by decide)
    (readdir_dirs_loop_fault imageHuge (ascii ("docs")) 0 0 511 2147483647 [[DOT], [DOT, DOT]]
      (by decide) (by decide) (by decide) (by decide)
      (readdir_files_loop_fault imageHuge 511 2147483647 0 [[DOT], [DOT, DOT]]
        200000 (by omega) (by omega) (by decide)))

/-- C15 (failing input): on the fresh image, after `createDirectory("/docs")`,
`createFile("/docs/a.txt")` and `write("/docs/a.txt", hugeBuf, 260613, 0)`, which returns
260613, the file count of the record of `docs` is 2147483647, and `listDirectory("/docs")`
has no result: its loop over the file entries leaves the structure. -/
theorem C15_readdir_after_overlapping_write :
    cs1550_mkdir docsPath fresh = some (0, image1) ∧
    cs1550_mknod filePath noJunk image1 = some (0, image2) ∧
    nFiles image2 511 = 1 ∧
    cs1550_write filePath noJunk hugeBuf 260613 0 image2 = some (260613, imageHuge) ∧
    nDirectories imageHuge = 1 ∧ dirStart imageHuge 0 = 511 ∧
    nFiles imageHuge 511 = 2147483647 ∧
    fileInBounds 511 200000 = false ∧
    cs1550_readdir docsPath noJunk imageHuge = none :=
  ⟨mkdir_docs, mknod_file, by decide, write_huge, by decide, by decide, by decide, by decide,
    readdir_huge⟩

theorem packed_other (k : Nat) (d : Image) (h : Packed k d) (i m : Nat) (hi : i < k)
    (hne : i ≠ m) : strEq d (dnameAddr i) (dirName m) = false := by
  unfold dirName strEq
  rw [(h.2.1 i hi).2]
  have hb : (97 + i == 97 + m) = false := by
    rw [beq_eq_false_iff_ne]
    omega
  rw [hb, Bool.false_and]

/-- The directory loop of the handlers finds the last directory of a packed image at
block `511 + 512 * k`. -/
theorem lookupDir_packed (k : Nat) (d : Image) (h : Packed (k + 1) d) (hk : k ≤ 18)
    (hname : strEq d (dnameAddr k) (dirName k) = true) :
    lookupDir d (dirName k) = Found.found (511 + 512 * k) := by
  have hf : findDir d (dirName k) = some k := by
    unfold findDir firstIndex
    rw [h.1, Int.toNat_ofNat]
    refine firstFrom_eq_some.mpr ⟨Nat.zero_le _, by omega, ?_, ?_⟩
    · rw [hname, Bool.or_true]
    · intro i _ h2
      rw [(dirInBounds_iff i).mpr (by omega), packed_other (k + 1) d h i k (by omega) (by omega)]
      rfl
  have hin : dirInBounds k = true := (dirInBounds_iff k).mpr (by omega)
  have hst : dirStart d k = ((511 + 512 * k : Nat) : Int) := (h.2.1 k (by omega)).1
  have hsa : startAssert (((511 + 512 * k : Nat) : Int)) = true :=
    startAssert_of_range _ (by omega) (by omega)
  have hbl : blockInBounds (511 + 512 * k) = true := (blockInBounds_iff _).mpr (by omega)
  unfold lookupDir
  rw [hf]
  dsimp only
  rw [hin, hst, hsa, Int.toNat_ofNat, hbl]
  rfl

theorem mkdirs_succ (k : Nat) (d e : Image) (hd : mkdirs k = some d)
    (h1 : cs1550_mkdir (SLASH :: dirName k) d = some (0, e)) : mkdirs (k + 1) = some e := by
  simp only [mkdirs, hd, h1, if_true]

/-- C24 (failing input): after the 18 calls `createDirectory("/a")` ...
`createDirectory("/r")` on the fresh image the record of `r` is block 9215, which lies in
the bitmap, and holds no file.  `createFile("/r/x.t")` returns success and changes bytes
of the bitmap: the byte at offset 4718080 of the image, which is byte 130560 of the
bitmap and the first byte of the file count of the record, goes from 0 to 1. -/
theorem C24_mknod_changes_bitmap :
    ∃ d18 d19, mkdirs 18 = some d18 ∧
      lookupDir d18 (ascii ("r")) = Found.found 9215 ∧ nFiles d18 9215 = 0 ∧
      findFile d18 9215 (ascii ("x")) (ascii ("t")) = none ∧
      cs1550_mknod (ascii ("/r/x.t")) noJunk d18 = some (0, d19) ∧
      nFilesAddr 9215 = 4718080 ∧ BITMAP_OFFSET + 130560 = 4718080 ∧
      4718080 < SIZE_OF_DISK ∧ d18 4718080 = 0 ∧ d19 4718080 = 1 := by
  obtain ⟨d, hd, hp⟩ := mkdirs_packed 17 (by omega)
  obtain ⟨h1, h2⟩ := packed_step 17 d hp (by omega)
  have hfree : get_free_block d = 9215 := packed_free 17 d hp (by omega)
  have hname : strEq (mkdir_image d 17 (dirName 17)) (dnameAddr 17) (dirName 17) = true :=
    mkdir_image_name d 17 (dirName 17) (by omega) (by decide)
  have hdir : lookupDir (mkdir_image d 17 (dirName 17)) (dirName 17) = Found.found 9215 :=
    lookupDir_packed 17 _ h2 (by omega) hname
  have hnf : nFiles (mkdir_image d 17 (dirName 17)) 9215 = 0 := by
    have := mkdir_image_nFiles d 17 (dirName 17)
    rw [hfree] at this
    exact this
  have habs : findFile (mkdir_image d 17 (dirName 17)) 9215 [120] [116] = none := by
    unfold findFile firstIndex
    rw [hnf]
    rfl
  have hmk := mknod_eq_create (mkdir_image d 17 (dirName 17)) (dirName 17) [120] [116]
    noJunk 9215 0 (by decide) (by decide) (by decide) (by decide) (by decide) (by decide)
    hdir (by omega) hnf (by omega) habs
  have hb0 : mkdir_image d 17 (dirName 17) 4718080 = 0 := by
    unfold mkdir_image
    rw [wrInt_outside (by simp only [nDirectoriesAddr]; omega), hfree]
    unfold wrInt
    rw [wrLE_apply, nFilesAddr_eq, if_pos (by omega)]
    rfl
  refine ⟨mkdir_image d 17 (dirName 17), _, ?_, hdir, hnf, habs, hmk, by decide, by decide,
    by decide, hb0, ?_⟩
  · exact mkdirs_succ 17 d _ hd h1
  · unfold mknod_create
    dsimp only
    rw [wrLong_outside (by rw [fstartAddr_eq]; omega),
      wrSize_outside (by rw [fsizeAddr_eq]; omega),
      strcpy_outside (by rw [fextAddr_eq]; omega),
      strcpy_outside (by rw [fnameAddr_eq]; omega), hnf]
    unfold wrInt
    rw [wrLE_apply, nFilesAddr_eq, if_pos (by omega)]
    rfl

end CS1550
